import Mathlib

/-!
# WiFi Office Quality Checker: grading, scoring and run orchestration

A shallow embedding of `src/app.js`.

* JavaScript numbers are IEEE 754 doubles.  They are modelled by `JsNum`: `NaN`, the two
  infinities, or the exact rational value of a finite double.  The arithmetic operators round
  the exact result to the nearest double, ties to even (`toDouble`), with overflow to an
  infinity and gradual underflow; `Math.round` is exact.  ECMAScript leaves `**` and
  `Math.sqrt` implementation-approximated: `x ** 2` is taken as the correctly rounded square
  and `Math.sqrt` as the correctly rounded root, which is what current engines compute.  The
  sign of zero is not modelled.  Comparisons are exact.
* Values read from the `state.results` object are `JsVal`: a field may be unset (`undefined`),
  `null`, or a number.
* The probes (`testLatency`, `testPacketLoss`, `testDownload`, `uploadWithProgress`,
  `testDns`, `testConsistency`, `fetchIspInfo`) do network I/O; the orchestrator sees each of
  them through the way its promise settles (`Outcome`).
* `runAllTests` is an `async` function.  It is modelled by a step function on the page
  (`Sys`): the global `state` object together with the suspended invocations of `runAllTests`
  and the pending timers; every `await` is a suspension point at which other events (clicks,
  timers, other invocations) may be interleaved.
-/

namespace WifiChecker

/-! ## JavaScript values -/

/-- A JavaScript number: `NaN`, the infinities, or a finite value. -/
inductive JsNum where
  | nan
  | posInf
  | negInf
  | fin (q : ℚ)
deriving DecidableEq

/-- A value stored in a field of `state.results`. -/
inductive JsVal where
  | undefined
  | null
  | num (x : JsNum)
deriving DecidableEq

/-- A finite numeric literal. -/
def lit (q : ℚ) : JsVal := .num (.fin q)

/-- The abstract operation `ToNumber`: `undefined` is `NaN`, `null` is `0`. -/
def JsVal.toNumber : JsVal → JsNum
  | .undefined => .nan
  | .null => .fin 0
  | .num x => x

/-- Numeric `a <= b`; every comparison with `NaN` is false. -/
def JsNum.le : JsNum → JsNum → Bool
  | .nan, _ => false
  | _, .nan => false
  | .negInf, _ => true
  | _, .posInf => true
  | .posInf, _ => false
  | _, .negInf => false
  | .fin a, .fin b => decide (a ≤ b)

/-- Numeric `a < b`; every comparison with `NaN` is false. -/
def JsNum.lt : JsNum → JsNum → Bool
  | .nan, _ => false
  | _, .nan => false
  | .posInf, _ => false
  | _, .negInf => false
  | .negInf, _ => true
  | _, .posInf => true
  | .fin a, .fin b => decide (a < b)

/-- The operator `a >= b` (both operands go through `ToNumber`). -/
def jsGe (a b : JsVal) : Bool := JsNum.le b.toNumber a.toNumber

/-- The operator `a <= b`. -/
def jsLe (a b : JsVal) : Bool := JsNum.le a.toNumber b.toNumber

/-- The operator `a > b`. -/
def jsGt (a b : JsVal) : Bool := JsNum.lt b.toNumber a.toNumber

/-- The operator `a < b`. -/
def jsLt (a b : JsVal) : Bool := JsNum.lt a.toNumber b.toNumber

/-- The operator `a === b`: no coercion, and `NaN` is not equal to itself. -/
def jsStrictEq : JsVal → JsVal → Bool
  | .undefined, .undefined => true
  | .null, .null => true
  | .num .nan, .num _ => false
  | .num _, .num .nan => false
  | .num x, .num y => decide (x = y)
  | _, _ => false

/-- Truthiness (`ToBoolean`): `undefined`, `null`, `NaN` and `0` are falsy. -/
def JsVal.truthy : JsVal → Bool
  | .undefined => false
  | .null => false
  | .num .nan => false
  | .num (.fin q) => decide (q ≠ 0)
  | .num _ => true

/-- The function `Math.round` on a real argument: the nearest integer, ties towards `+∞`. -/
def mathRound (q : ℚ) : ℤ := ⌊q + 1 / 2⌋

/-! ## Double-precision arithmetic -/

/-- Rounding to the nearest integer, ties to the even one. -/
def roundHalfEven (q : ℚ) : ℤ :=
  if q - ⌊q⌋ < 1 / 2 then ⌊q⌋
  else if 1 / 2 < q - ⌊q⌋ then ⌊q⌋ + 1
  else if ⌊q⌋ % 2 = 0 then ⌊q⌋ else ⌊q⌋ + 1

/-- Binary search for a binary exponent: starting from `e`, each of the `i` low bits of the
offset is added when the power of two it gives is still at most `q`. -/
def binExpBits (q : ℚ) : ℕ → ℤ → ℤ
  | 0, e => e
  | i + 1, e =>
    if (2 : ℚ) ^ (e + 2 ^ i) ≤ q then binExpBits q i (e + 2 ^ i) else binExpBits q i e

/-- The binary exponent of `q`: the largest `e` with `2 ^ e ≤ |q|`, searched upwards from
`-1075`, which is below the exponent of the smallest positive double. -/
def binExp (q : ℚ) : ℤ := binExpBits |q| 12 (-1075)

/-- The exponent of the unit in the last place of the binary64 format at `q`: 52 below the
binary exponent, and `-1074` throughout the subnormal range. -/
def ulpExp (q : ℚ) : ℤ := max (binExp q) (-1022) - 52

/-- The binary64 value of a real number: rounding to the nearest multiple of the unit in the
last place, ties to even; a result of magnitude `2 ^ 1024` or more is an infinity. -/
def toDouble (q : ℚ) : JsNum :=
  let r : ℚ := roundHalfEven (q / 2 ^ ulpExp q) * 2 ^ ulpExp q
  if (2 : ℚ) ^ (1024 : ℕ) ≤ |r| then (if 0 < q then .posInf else .negInf) else .fin r

/-- The operator `x + y` on doubles. -/
def JsNum.add : JsNum → JsNum → JsNum
  | .nan, _ => .nan
  | _, .nan => .nan
  | .posInf, .negInf => .nan
  | .negInf, .posInf => .nan
  | .posInf, _ => .posInf
  | _, .posInf => .posInf
  | .negInf, _ => .negInf
  | _, .negInf => .negInf
  | .fin a, .fin b => toDouble (a + b)

/-- The operator `x - y` on doubles. -/
def JsNum.sub : JsNum → JsNum → JsNum
  | .nan, _ => .nan
  | _, .nan => .nan
  | .posInf, .posInf => .nan
  | .negInf, .negInf => .nan
  | .posInf, _ => .posInf
  | _, .posInf => .negInf
  | .negInf, _ => .negInf
  | _, .negInf => .posInf
  | .fin a, .fin b => toDouble (a - b)

/-- The operator `x * y` on doubles. -/
def JsNum.mul : JsNum → JsNum → JsNum
  | .nan, _ => .nan
  | _, .nan => .nan
  | .fin a, .fin b => toDouble (a * b)
  | .fin a, .posInf => if a = 0 then .nan else if 0 < a then .posInf else .negInf
  | .fin a, .negInf => if a = 0 then .nan else if 0 < a then .negInf else .posInf
  | .posInf, .fin b => if b = 0 then .nan else if 0 < b then .posInf else .negInf
  | .negInf, .fin b => if b = 0 then .nan else if 0 < b then .negInf else .posInf
  | .posInf, .posInf => .posInf
  | .negInf, .negInf => .posInf
  | .posInf, .negInf => .negInf
  | .negInf, .posInf => .negInf

/-- The operator `x / y` on doubles (the model has a single zero, which divides as `+0`). -/
def JsNum.div : JsNum → JsNum → JsNum
  | .nan, _ => .nan
  | _, .nan => .nan
  | .fin a, .fin b =>
    if b = 0 then (if a = 0 then .nan else if 0 < a then .posInf else .negInf)
    else toDouble (a / b)
  | .fin _, _ => .fin 0
  | .posInf, .fin b => if b < 0 then .negInf else .posInf
  | .negInf, .fin b => if b < 0 then .posInf else .negInf
  | _, _ => .nan

/-- The expression `x ** 2`, taken as the correctly rounded square `x * x`. -/
def JsNum.sq (x : JsNum) : JsNum := x.mul x

/-- The integer square root by binary search: each of the `k` low bits is added to `r` when
the square stays at most `n`. -/
def isqrtBits (n : ℕ) : ℕ → ℕ → ℕ
  | 0, r => r
  | k + 1, r =>
    if (r + 2 ^ k) * (r + 2 ^ k) ≤ n then isqrtBits n k (r + 2 ^ k) else isqrtBits n k r

/-- The correctly rounded square root of a positive double `q`: with `g` the exponent of the
unit in the last place of the result, the significand is the integer nearest to
`√(q / 4 ^ g)`, that is `(⌊√⌊4 q / 4 ^ g⌋⌋ + 1) / 2` in integer arithmetic (the root of a
double is never half-way between two doubles). -/
def sqrtDouble (q : ℚ) : ℚ :=
  let g : ℤ := binExp q / 2 - 52
  ((isqrtBits ⌊4 * (q / 2 ^ (2 * g))⌋.toNat 54 0 + 1) / 2 : ℕ) * 2 ^ g

/-- The function `Math.sqrt`. -/
def JsNum.sqrt : JsNum → JsNum
  | .nan => .nan
  | .negInf => .nan
  | .posInf => .posInf
  | .fin q => if q < 0 then .nan else if q = 0 then .fin 0 else .fin (sqrtDouble q)

/-- The function `Math.round` on a double: the nearest integer, ties towards `+∞`; the result
is exact. -/
def JsNum.round : JsNum → JsNum
  | .fin q => .fin (mathRound q)
  | x => x

/-- The function `Math.max` of two numbers. -/
def JsNum.max : JsNum → JsNum → JsNum
  | .nan, _ => .nan
  | _, .nan => .nan
  | .posInf, _ => .posInf
  | _, .posInf => .posInf
  | .negInf, y => y
  | x, .negInf => x
  | .fin a, .fin b => .fin (Max.max a b)

/-- The expression `xs.reduce((a, b) => a + b, 0) / xs.length` (the mean, in `testLatency`, in
the jitter phase and in `testConsistency`). -/
def jsMean (xs : List JsNum) : JsNum :=
  (xs.foldl (fun (a b : JsNum) => a.add b) (JsNum.fin 0)).div (.fin xs.length)

/-- The expression `xs.reduce((s, v) => s + (v - mean) ** 2, 0) / xs.length` (the variance, at
the same three places). -/
def jsVariance (xs : List JsNum) (mean : JsNum) : JsNum :=
  (xs.foldl (fun (s v : JsNum) => s.add (v.sub mean).sq) (JsNum.fin 0)).div (.fin xs.length)

/-- The relative rounding error of the binary64 format, `2 ^ -53`. -/
def roundoff : ℚ := 1 / 2 ^ 53

/-- Half the smallest positive double, `2 ^ -1075`: the absolute rounding error in the
subnormal range. -/
def underflow : ℚ := 1 / 2 ^ 1075

/-! ## Constants -/

/-- The `id` of an entry of `PHASES`. -/
inductive PhaseId where
  | latency
  | jitter
  | packetloss
  | download
  | upload
  | dns
  | consistency
  | peremployee
deriving DecidableEq

/-- The ids of `PHASES`, in execution order. -/
def PHASES : List PhaseId :=
  [.latency, .jitter, .packetloss, .download, .upload, .dns, .consistency, .peremployee]

/-- A key of `SCORE_WEIGHTS` (and of the `scores` object). -/
inductive Metric where
  | download
  | upload
  | latency
  | packetloss
  | consistency
  | jitter
  | dns
deriving DecidableEq

/-- The table `SCORE_WEIGHTS`, as `Object.entries` enumerates it (insertion order). -/
def SCORE_WEIGHTS : List (Metric × ℕ) :=
  [(.download, 3), (.upload, 2), (.latency, 2), (.packetloss, 2), (.consistency, 2),
   (.jitter, 1), (.dns, 1)]

/-- The four grades. -/
inductive Grade where
  | excellent
  | good
  | fair
  | poor
deriving DecidableEq

/-- The table `GRADE_POINTS`. -/
def GRADE_POINTS : Grade → ℕ
  | .excellent => 100
  | .good => 75
  | .fair => 40
  | .poor => 10

/-! ## The results accumulator -/

/-- The object `state.results`.  A field that has not been assigned is `undefined` / `none`. -/
structure Results where
  latencyMs : JsVal := .undefined
  latencyMin : JsVal := .undefined
  latencyMax : JsVal := .undefined
  _latencySamples : Option (List ℚ) := none
  jitterMs : JsVal := .undefined
  packetLossPct : JsVal := .undefined
  failedProbes : JsVal := .undefined
  totalProbes : JsVal := .undefined
  downloadMbps : JsVal := .undefined
  uploadMbps : JsVal := .undefined
  dnsMs : JsVal := .undefined
  dnsCached : Option Bool := none
  dnsUnavail : Option Bool := none
  consistencyPct : JsVal := .undefined
  consistencyRuns : Option (List JsNum) := none
  mbpsPerEmployee : JsVal := .undefined
  effectiveUserCount : JsVal := .undefined
  ispName : Option (Option String) := none
  managerName : Option (Option String) := none
  publicIp : Option (Option String) := none
deriving DecidableEq

/-! ## Scoring -/

/-- Source: `gradeDownload`. -/
def gradeDownload (mbps : JsVal) : Grade :=
  if jsGe mbps (lit 100) then .excellent
  else if jsGe mbps (lit 50) then .good
  else if jsGe mbps (lit 20) then .fair
  else .poor

/-- Source: `gradeUpload`. -/
def gradeUpload (mbps : JsVal) : Grade :=
  if jsGe mbps (lit 50) then .excellent
  else if jsGe mbps (lit 20) then .good
  else if jsGe mbps (lit 10) then .fair
  else .poor

/-- Source: `gradeLatency`. -/
def gradeLatency (ms : JsVal) : Grade :=
  if jsLe ms (lit 10) then .excellent
  else if jsLe ms (lit 30) then .good
  else if jsLe ms (lit 60) then .fair
  else .poor

/-- Source: `gradeJitter`. -/
def gradeJitter (ms : JsVal) : Grade :=
  if jsLe ms (lit 5) then .excellent
  else if jsLe ms (lit 15) then .good
  else if jsLe ms (lit 30) then .fair
  else .poor

/-- Source: `gradePacketLoss`. -/
def gradePacketLoss (pct : JsVal) : Grade :=
  if jsStrictEq pct (lit 0) then .excellent
  else if jsLe pct (lit 1) then .good
  else if jsLe pct (lit 3) then .fair
  else .poor

/-- Source: `gradeDns`. -/
def gradeDns (ms : JsVal) : Grade :=
  if jsStrictEq ms (lit 0) then .excellent
  else if jsLe ms (lit 20) then .excellent
  else if jsLe ms (lit 50) then .good
  else if jsLe ms (lit 100) then .fair
  else .poor

/-- Source: `gradeConsistency`. -/
def gradeConsistency (pct : JsVal) : Grade :=
  if jsGe pct (lit 95) then .excellent
  else if jsGe pct (lit 85) then .good
  else if jsGe pct (lit 70) then .fair
  else .poor

/-- The `scores` object built by `computeScores`. -/
structure Scores where
  download : Grade
  upload : Grade
  latency : Grade
  jitter : Grade
  packetloss : Grade
  dns : Grade
  consistency : Grade
deriving DecidableEq

/-- The property lookup `scores[metric]`. -/
def Scores.get (s : Scores) : Metric → Grade
  | .download => s.download
  | .upload => s.upload
  | .latency => s.latency
  | .packetloss => s.packetloss
  | .consistency => s.consistency
  | .jitter => s.jitter
  | .dns => s.dns

/-- The first statement of `computeScores`: the seven grades of a results record. -/
def gradeAll (results : Results) : Scores :=
  { download := gradeDownload results.downloadMbps
    upload := gradeUpload results.uploadMbps
    latency := gradeLatency results.latencyMs
    jitter := gradeJitter results.jitterMs
    packetloss := gradePacketLoss results.packetLossPct
    dns := gradeDns results.dnsMs
    consistency := gradeConsistency results.consistencyPct }

/-- The accumulation loop of `computeScores`: the pair `(totalWeight, weightedSum)` after
iterating over `Object.entries(SCORE_WEIGHTS)`. -/
def accumulate (scores : Scores) : ℕ × ℕ :=
  SCORE_WEIGHTS.foldl
    (fun acc entry => (acc.1 + entry.2, acc.2 + GRADE_POINTS (scores.get entry.1) * entry.2))
    (0, 0)

/-- The last statement of `computeScores`: `Math.round(weightedSum / totalWeight)`.
The quotient of the two integers is taken in the rationals; it is never within `1/26` of a
tie, so rounding the double quotient gives the same integer. -/
def overallOf (scores : Scores) : ℤ :=
  mathRound (((accumulate scores).2 : ℚ) / ((accumulate scores).1 : ℚ))

/-- Source: `computeScores`; the result is the pair `{ scores, overallScore }`. -/
def computeScores (results : Results) : Scores × ℤ :=
  (gradeAll results, overallOf (gradeAll results))

/-! ## The threshold table of the specification -/

/-- A row of the grading table whose thresholds are lower bounds (download, upload,
consistency): excellent / good / fair for `≥ e` / `≥ g` / `≥ f`, poor otherwise. -/
def tableAtLeast (e g f : ℚ) : JsNum → Grade
  | .nan => .poor
  | .posInf => .excellent
  | .negInf => .poor
  | .fin q => if e ≤ q then .excellent else if g ≤ q then .good else if f ≤ q then .fair else .poor

/-- A row of the grading table whose thresholds are upper bounds (latency, jitter):
excellent / good / fair for `≤ e` / `≤ g` / `≤ f`, poor otherwise. -/
def tableAtMost (e g f : ℚ) : JsNum → Grade
  | .nan => .poor
  | .posInf => .poor
  | .negInf => .excellent
  | .fin q => if q ≤ e then .excellent else if q ≤ g then .good else if q ≤ f then .fair else .poor

/-- The packet-loss row: excellent only for exactly `0`, then good for `≤ 1`, fair for `≤ 3`,
poor otherwise. -/
def tablePacketLoss : JsNum → Grade
  | .nan => .poor
  | .posInf => .poor
  | .negInf => .good
  | .fin q => if q = 0 then .excellent else if q ≤ 1 then .good else if q ≤ 3 then .fair else .poor

/-- The DNS row: excellent for `0` or `≤ 20`, good for `≤ 50`, fair for `≤ 100`, poor
otherwise. -/
def tableDns : JsNum → Grade
  | .nan => .poor
  | .posInf => .poor
  | .negInf => .excellent
  | .fin q =>
    if q = 0 ∨ q ≤ 20 then .excellent else if q ≤ 50 then .good else if q ≤ 100 then .fair
    else .poor

/-- The weighted sum of the specification: points of each grade times the weight of its
metric, with weights 3, 2, 2, 2, 2, 1, 1. -/
def weightedPoints (s : Scores) : ℕ :=
  GRADE_POINTS s.download * 3 + GRADE_POINTS s.upload * 2 + GRADE_POINTS s.latency * 2
    + GRADE_POINTS s.packetloss * 2 + GRADE_POINTS s.consistency * 2
    + GRADE_POINTS s.jitter * 1 + GRADE_POINTS s.dns * 1

/-- The record of the second scoring scenario: download 15 Mbps (poor), upload 30, latency 20,
jitter 10, packet loss 0.5, DNS 30 and consistency 90 (all good). -/
def scenarioPoorDownload : Results :=
  { downloadMbps := lit 15, uploadMbps := lit 30, latencyMs := lit 20, jitterMs := lit 10,
    packetLossPct := lit (1 / 2), dnsMs := lit 30, consistencyPct := lit 90 }

/-! ## Numeric helpers of the orchestrator -/

/-- The expression `Math.round(x * k) / k` (with `k` = 10 or 100), in double arithmetic. -/
def roundTo (k : ℕ) (x : JsNum) : JsNum := ((x.mul (.fin k)).round).div (.fin k)

/-- The quotient `x / n` of a number by an integer count (division by zero follows IEEE). -/
def JsNum.divInt (x : JsNum) (n : ℤ) : JsNum := x.div (.fin n)

/-! ## State -/

/-- The values of `state.phase`. -/
inductive Lifecycle where
  | setup
  | testing
  | results
deriving DecidableEq

/-- The views switched by `showView`. -/
inductive View where
  | setup
  | testing
  | results
deriving DecidableEq

/-- The global object `state`.  The defaults are its initial values. -/
structure State where
  officeName : String := ""
  employeeCount : ℤ := 25
  multiZone : Bool := false
  zoneUserCount : ℤ := 10
  phase : Lifecycle := .setup
  currentPhase : Option PhaseId := none
  aborted : Bool := false
  startTime : Option ℕ := none
  results : Results := {}
  scores : Option Scores := none
  overallScore : ℤ := 0
deriving DecidableEq

/-- The form controls read by `runAllTests`: the `value` of `#office-name`, `#employee-count`
and `#zone-count`, and the `checked` flag of `#zone-toggle`. -/
structure Dom where
  officeName : String := ""
  employeeCount : String := "25"
  zoneCount : String := "10"
  zoneToggle : Bool := false
deriving DecidableEq

/-! ## Employee validation -/

/-- White space skipped by `parseInt` and removed by `trim`. -/
def isStrWhiteSpace (c : Char) : Bool :=
  c.toNat ∈ [0x09, 0x0A, 0x0B, 0x0C, 0x0D, 0x20, 0xA0, 0x1680, 0x2000, 0x2001, 0x2002, 0x2003,
    0x2004, 0x2005, 0x2006, 0x2007, 0x2008, 0x2009, 0x200A, 0x2028, 0x2029, 0x202F, 0x205F,
    0x3000, 0xFEFF]

/-- The value of a decimal digit, if the character is one. -/
def digitValue (c : Char) : Option ℕ :=
  if 48 ≤ c.toNat ∧ c.toNat ≤ 57 then some (c.toNat - 48) else none

/-- The longest prefix of decimal digits, as a number; `none` when it is empty. -/
def readDigits : List Char → Option ℕ → Option ℕ
  | [], acc => acc
  | c :: cs, acc =>
    match digitValue c with
    | some d => readDigits cs (some (10 * acc.getD 0 + d))
    | none => acc

/-- The call `parseInt(s, 10)`; `none` stands for `NaN`.  Leading white space is skipped, one
sign is accepted, then the longest run of decimal digits is read.  The integer is kept exactly
(the program holds it as a double; the range test of `validateEmployees` is unaffected). -/
def parseInt (s : String) : Option ℤ :=
  match s.toList.dropWhile isStrWhiteSpace with
  | '-' :: cs => (readDigits cs none).map fun n => -(n : ℤ)
  | '+' :: cs => (readDigits cs none).map fun n => (n : ℤ)
  | cs => (readDigits cs none).map fun n => (n : ℤ)

/-- The method `trim` of a string. -/
def jsTrim (s : String) : String :=
  String.mk
    (((s.toList.dropWhile isStrWhiteSpace).reverse.dropWhile isStrWhiteSpace).reverse)

/-- Source: `getEmployeeCount` (`NaN` becomes `0`). -/
def getEmployeeCount (dom : Dom) : ℤ :=
  match parseInt dom.employeeCount with
  | none => 0
  | some val => val

/-- Source: `getZoneUserCount` (`NaN` becomes `0`). -/
def getZoneUserCount (dom : Dom) : ℤ :=
  match parseInt dom.zoneCount with
  | none => 0
  | some val => val

/-- Source: `getEffectiveUserCount`. -/
def getEffectiveUserCount (st : State) : ℤ :=
  if st.multiZone then st.zoneUserCount else st.employeeCount

/-- Source: `validateEmployees`; the returned flag `valid` (the error classes it toggles on the
two inputs are presentation only).  The zone count is checked only when `state.multiZone`. -/
def validateEmployees (st : State) (dom : Dom) : Bool :=
  let count := getEmployeeCount dom
  let valid := if count < 1 ∨ count > 500 then false else true
  if st.multiZone then
    let zoneCount := getZoneUserCount dom
    if zoneCount < 1 ∨ zoneCount > 500 then false else valid
  else valid

/-! ## Probes -/

/-- The object returned by `testLatency`. -/
structure LatencyResult where
  latencyMs : JsNum
  latencyMin : JsNum
  latencyMax : JsNum
  jitterMs : JsNum
  samples : List ℚ
deriving DecidableEq

/-- The object returned by `testPacketLoss`. -/
structure PacketLossResult where
  packetLossPct : JsNum
  failedProbes : ℕ
  totalProbes : ℕ
deriving DecidableEq

/-- The object returned by `testDns`; `unavailable` is absent or `true`. -/
structure DnsResult where
  dnsMs : JsNum
  cached : Bool
  unavailable : Option Bool
deriving DecidableEq

/-- The object returned by `testConsistency`. -/
structure ConsistencyResult where
  consistencyPct : JsNum
  runs : List JsNum
deriving DecidableEq

/-- The object returned by `fetchIspInfo` (which never rejects). -/
structure IspInfo where
  ispName : Option String
  managerName : Option String
  publicIp : Option String
deriving DecidableEq

/-- The value with which the awaited probe of a phase fulfils. -/
inductive ProbeValue where
  | latency (r : LatencyResult)
  | packetloss (r : PacketLossResult)
  | download (mbps : JsNum)
  | upload (mbps : JsNum)
  | dns (r : DnsResult)
  | consistency (r : ConsistencyResult)
deriving DecidableEq

/-- How the awaited probe of a phase settles: fulfilled with a value, rejected with an error
whose message is not `'aborted'`, or rejected with `new Error('aborted')`. -/
inductive Outcome where
  | ok (v : ProbeValue)
  | failed
  | aborted
deriving DecidableEq

/-! ## The phases of `runAllTests` -/

/-- The `try` branch of a probe phase after its `await`: the assignments to `state.results`.
`none` when the value is not one the probe of this phase can return. -/
def assignProbe (phase : PhaseId) (v : ProbeValue) (r : Results) : Option Results :=
  match phase, v with
  | .latency, .latency x =>
    some { r with
      latencyMs := .num x.latencyMs, latencyMin := .num x.latencyMin,
      latencyMax := .num x.latencyMax, _latencySamples := some x.samples }
  | .packetloss, .packetloss x =>
    some { r with
      packetLossPct := .num x.packetLossPct, failedProbes := lit x.failedProbes,
      totalProbes := lit x.totalProbes }
  | .download, .download mbps => some { r with downloadMbps := .num (roundTo 10 mbps) }
  | .upload, .upload mbps => some { r with uploadMbps := .num (roundTo 10 mbps) }
  | .dns, .dns x =>
    some { r with dnsMs := .num x.dnsMs, dnsCached := some x.cached, dnsUnavail := x.unavailable }
  | .consistency, .consistency x =>
    some { r with consistencyPct := .num x.consistencyPct, consistencyRuns := some x.runs }
  | _, _ => none

/-- The `jitter` branch: `Math.round(Math.sqrt(variance) * 10) / 10` over the latency samples,
in double arithmetic; `0` when there are no samples. -/
def jitterPhase (r : Results) : Results :=
  let samples := r._latencySamples.getD []
  if samples.length > 0 then
    let mean := jsMean (samples.map .fin)
    let variance := jsVariance (samples.map .fin) mean
    { r with jitterMs := .num (roundTo 10 variance.sqrt) }
  else
    { r with jitterMs := lit 0 }

/-- The `peremployee` branch. -/
def perEmployeePhase (st : State) : State :=
  let effectiveCount := getEffectiveUserCount st
  let mbpsPerUser := st.results.downloadMbps.toNumber.divInt effectiveCount
  { st with
    results :=
      { st.results with
        mbpsPerEmployee := .num (roundTo 100 mbpsPerUser)
        effectiveUserCount := lit effectiveCount } }

/-- The fallback assignments of the `catch` block. -/
def fallback (phase : PhaseId) (r : Results) : Results :=
  match phase with
  | .latency => { r with latencyMs := lit 999, jitterMs := lit 0 }
  | .jitter => { r with jitterMs := lit 0 }
  | .packetloss => { r with packetLossPct := lit 100 }
  | .download => { r with downloadMbps := lit 0 }
  | .upload => { r with uploadMbps := .null }
  | .dns => { r with dnsMs := lit 0, dnsUnavail := some true }
  | .consistency => { r with consistencyPct := lit 0 }
  | .peremployee => { r with mbpsPerEmployee := lit 0 }

/-- The `try` / `catch` of one probe phase, resumed when the awaited probe settles.  The
result is the new state and whether the loop executes `break`; `none` when the value does not
belong to the phase. -/
def tryPhase (st : State) (phase : PhaseId) : Outcome → Option (State × Bool)
  | .ok v => (assignProbe phase v st.results).map fun r => ({ st with results := r }, false)
  | .failed =>
    if st.aborted then some (st, true)
    else some ({ st with results := fallback phase st.results }, false)
  | .aborted => some (st, true)

/-- Where the phase loop stops: suspended on the probe of phase `i`, or left (by exhaustion or
by `break`). -/
inductive LoopExit where
  | suspended (i : ℕ)
  | exited
deriving DecidableEq

/-- The loop `for (let i = ...; i < PHASES.length; i++)`, run from index `i` over the remaining
phases until the next `await`.  The two derived phases contain no `await` and are executed
in line; `log` collects the phases marked `'active'`. -/
def phaseLoop (st : State) (log : List PhaseId) (i : ℕ) :
    List PhaseId → State × List PhaseId × LoopExit
  | [] => (st, log, .exited)
  | phase :: rest =>
    if st.aborted then (st, log, .exited)
    else
      match phase with
      | .jitter =>
        phaseLoop { st with results := jitterPhase st.results } (log ++ [phase]) (i + 1) rest
      | .peremployee => phaseLoop (perEmployeePhase st) (log ++ [phase]) (i + 1) rest
      | _ => (st, log ++ [phase], .suspended i)

/-- The statement "Fill missing per-employee if download somehow skipped". -/
def fillPerEmployee (st : State) : State :=
  if !st.results.mbpsPerEmployee.truthy && st.results.downloadMbps.truthy then
    let effectiveCount := getEffectiveUserCount st
    { st with
      results :=
        { st.results with
          mbpsPerEmployee :=
            .num (roundTo 100 (st.results.downloadMbps.toNumber.divInt effectiveCount))
          effectiveUserCount := lit effectiveCount } }
  else st

/-! ## The event loop -/

/-- The program point at which an invocation of `runAllTests` is suspended. -/
inductive Pc where
  | awaitProbe (i : ℕ)
  | pause
  | ispJoin
  | returned
deriving DecidableEq

/-- An invocation of `runAllTests` that passed its two guards. -/
structure Run where
  pc : Pc
  activated : List PhaseId := []
  scored : Bool := false
deriving DecidableEq

/-- The page: the `state` object, the visible view, the invocations of `runAllTests` in start
order, the pending 500 ms timers of the cancel button and the number of `fetchIspInfo` calls
and of probes started so far. -/
structure Sys where
  state : State := {}
  view : View := .setup
  runs : List Run := []
  timers : ℕ := 0
  ispLookups : ℕ := 0
  probesStarted : ℕ := 0
deriving DecidableEq

/-- What happens on the page. -/
inductive Event where
  | runClick (dom : Dom) (now : ℕ)
  | cancelClick
  | cancelTimer
  | runAgainClick
  | zoneToggleChange (checked : Bool)
  | probeDone (run : ℕ) (o : Outcome)
  | pauseDone (run : ℕ)
  | ispDone (run : ℕ) (isp : IspInfo)
deriving DecidableEq

/-- The code after the phase loop, up to `await new Promise(r => setTimeout(r, 400))`. -/
def afterLoop (sys : Sys) (rid : ℕ) (st : State) (log : List PhaseId) : Sys :=
  if st.aborted then
    { sys with
      state := { st with phase := .setup }
      view := .setup
      runs := sys.runs.set rid { pc := .returned, activated := log } }
  else
    { sys with
      state := fillPerEmployee { st with phase := .results }
      runs := sys.runs.set rid { pc := .pause, activated := log } }

/-- Run invocation `rid` from the head of loop iteration `i` to its next suspension. -/
def continueLoop (sys : Sys) (rid : ℕ) (st : State) (log : List PhaseId) (i : ℕ) : Sys :=
  match phaseLoop st log i (PHASES.drop i) with
  | (st', log', .suspended j) =>
    { sys with
      state := st'
      runs := sys.runs.set rid { pc := .awaitProbe j, activated := log' }
      probesStarted := sys.probesStarted + 1 }
  | (st', log', .exited) => afterLoop sys rid st' log'

/-- Source: `runAllTests`, from the call to its first `await`. -/
def runAllTests (sys : Sys) (dom : Dom) (now : ℕ) : Sys :=
  if sys.state.phase = .testing then sys
  else if !validateEmployees sys.state dom then sys
  else
    let st := sys.state
    let st := { st with officeName := jsTrim dom.officeName }
    let st := { st with employeeCount := getEmployeeCount dom }
    let st := { st with multiZone := dom.zoneToggle }
    let st :=
      { st with zoneUserCount := if st.multiZone then getZoneUserCount dom else st.employeeCount }
    let st := { st with aborted := false }
    let st := { st with phase := .testing }
    let st := { st with results := {} }
    let st := { st with startTime := some now }
    let rid := sys.runs.length
    let sys :=
      { sys with
        ispLookups := sys.ispLookups + 1
        view := .testing
        runs := sys.runs ++ [{ pc := .awaitProbe 0 }] }
    continueLoop sys rid st [] 0

/-- The continuation of `runAllTests` when the awaited probe settles. -/
def resumeProbe (sys : Sys) (rid : ℕ) (o : Outcome) : Sys :=
  match sys.runs[rid]? with
  | some run =>
    match run.pc with
    | .awaitProbe i =>
      match PHASES[i]? with
      | some phase =>
        match tryPhase sys.state phase o with
        | some (st, false) => continueLoop sys rid st run.activated (i + 1)
        | some (st, true) => afterLoop sys rid st run.activated
        | none => sys
      | none => sys
    | _ => sys
  | none => sys

/-- The continuation of `runAllTests` when the 400 ms pause ends: `await ispPromise`. -/
def resumePause (sys : Sys) (rid : ℕ) : Sys :=
  match sys.runs[rid]? with
  | some run =>
    match run.pc with
    | .pause => { sys with runs := sys.runs.set rid { run with pc := .ispJoin } }
    | _ => sys
  | none => sys

/-- The continuation of `runAllTests` when `ispPromise` fulfils: the ISP fields are stored,
`computeScores(state.results)` is called, `state.scores` and `state.overallScore` are set,
and the results are rendered and shown. -/
def resumeIsp (sys : Sys) (rid : ℕ) (isp : IspInfo) : Sys :=
  match sys.runs[rid]? with
  | some run =>
    match run.pc with
    | .ispJoin =>
      let st := sys.state
      let results :=
        { st.results with
          ispName := some isp.ispName
          managerName := some isp.managerName
          publicIp := some isp.publicIp }
      let out := computeScores results
      { sys with
        state := { st with results := results, scores := some out.1, overallScore := out.2 }
        view := .results
        runs := sys.runs.set rid { run with pc := .returned, scored := true } }
    | _ => sys
  | none => sys

/-- One event of the page. -/
def step (sys : Sys) : Event → Sys
  | .runClick dom now => runAllTests sys dom now
  | .cancelClick =>
    { sys with state := { sys.state with aborted := true }, timers := sys.timers + 1 }
  | .cancelTimer =>
    if sys.timers = 0 then sys
    else if sys.state.phase = .testing then
      { sys with
        state := { sys.state with phase := .setup }, view := .setup, timers := sys.timers - 1 }
    else { sys with timers := sys.timers - 1 }
  | .runAgainClick => { sys with state := { sys.state with phase := .setup }, view := .setup }
  | .zoneToggleChange checked => { sys with state := { sys.state with multiZone := checked } }
  | .probeDone rid o => resumeProbe sys rid o
  | .pauseDone rid => resumePause sys rid
  | .ispDone rid isp => resumeIsp sys rid isp

/-- A sequence of events, from a given page. -/
def exec (sys : Sys) (events : List Event) : Sys := events.foldl step sys

/-- Whether an event can occur: a button is clicked in the view that shows it (the run
button and the form in `view-setup`, the cancel button in `view-testing`, the run-again
button in `view-results`; the markup is not among the sources, this is the reading of the
ids and of `showView`), a timer fires only when one is pending, and a continuation runs only
for the `await` it is suspended on; a probe rejects with `'aborted'` only when it has seen
`state.aborted`. -/
def enabled (sys : Sys) : Event → Bool
  | .runClick _ _ => sys.view = .setup
  | .cancelClick => sys.view = .testing
  | .cancelTimer => 0 < sys.timers
  | .runAgainClick => sys.view = .results
  | .zoneToggleChange _ => sys.view = .setup
  | .probeDone rid o =>
    match sys.runs[rid]? with
    | some run =>
      match run.pc with
      | .awaitProbe i =>
        match PHASES[i]?, o with
        | some phase, .ok v => (assignProbe phase v {}).isSome
        | some _, .failed => true
        | some _, .aborted => sys.state.aborted
        | none, _ => false
      | _ => false
    | none => false
  | .pauseDone rid =>
    match sys.runs[rid]? with
    | some run => run.pc = .pause
    | none => false
  | .ispDone rid _ =>
    match sys.runs[rid]? with
    | some run => run.pc = .ispJoin
    | none => false

/-- Whether every event of a sequence can occur when its turn comes. -/
def feasible (sys : Sys) : List Event → Bool
  | [] => true
  | e :: es => enabled sys e && feasible (step sys e) es

/-- The number of invocations of `runAllTests` in flight: past the guards, not yet returned. -/
def inFlight (sys : Sys) : ℕ := (sys.runs.filter fun r => r.pc ≠ .returned).length

/-- The page as loaded. -/
def initialSys : Sys := {}

/-! ## Vocabulary of the statements about a run -/

/-- The awaited probe of phase `p` settles without the `'aborted'` error: it fulfils with a
value of that phase, or rejects with another error. -/
def Outcome.fits (p : PhaseId) : Outcome → Bool
  | .ok v => (assignProbe p v {}).isSome
  | .failed => true
  | .aborted => false

/-- The effect on the accumulator of a probe phase that is not aborted: the assignments of
the probe's value, or the fallback assignments. -/
def applyOutcome (p : PhaseId) (o : Outcome) (r : Results) : Results :=
  match o with
  | .ok v => (assignProbe p v r).getD r
  | _ => fallback p r

/-- The jitter that the `jitter` phase derives from a sample sequence. -/
def jitterValue (samples : List ℚ) : JsVal :=
  (jitterPhase { _latencySamples := some samples }).jitterMs

/-- The value of `latencyMs` given by the latency probe, or its fallback. -/
def expectedLatencyMs : Outcome → JsVal
  | .ok (.latency x) => .num x.latencyMs
  | _ => lit 999

/-- The value of `jitterMs` derived from the latency samples, or its fallback. -/
def expectedJitterMs : Outcome → JsVal
  | .ok (.latency x) => jitterValue x.samples
  | _ => lit 0

/-- The value of `packetLossPct` given by the packet-loss probe, or its fallback. -/
def expectedPacketLossPct : Outcome → JsVal
  | .ok (.packetloss x) => .num x.packetLossPct
  | _ => lit 100

/-- The value of `downloadMbps` given by the download probe, or its fallback. -/
def expectedDownloadMbps : Outcome → JsVal
  | .ok (.download mbps) => .num (roundTo 10 mbps)
  | _ => lit 0

/-- The value of `uploadMbps` given by the upload probe, or its fallback. -/
def expectedUploadMbps : Outcome → JsVal
  | .ok (.upload mbps) => .num (roundTo 10 mbps)
  | _ => .null

/-- The value of `dnsMs` given by the DNS probe, or its fallback. -/
def expectedDnsMs : Outcome → JsVal
  | .ok (.dns x) => .num x.dnsMs
  | _ => lit 0

/-- The value of `consistencyPct` given by the consistency probe, or its fallback. -/
def expectedConsistencyPct : Outcome → JsVal
  | .ok (.consistency x) => .num x.consistencyPct
  | _ => lit 0

/-- The assignments to `state` at the start of `runAllTests`, after the two guards. -/
def startState (st : State) (dom : Dom) (now : ℕ) : State :=
  { st with
    officeName := jsTrim dom.officeName
    employeeCount := getEmployeeCount dom
    multiZone := dom.zoneToggle
    zoneUserCount := if dom.zoneToggle then getZoneUserCount dom else getEmployeeCount dom
    aborted := false
    phase := .testing
    results := {}
    startTime := some now }

/-- The accumulator after the latency, jitter, packet-loss, download, upload, DNS and
consistency phases of a run that is not aborted. -/
def afterProbes (oL oP oD oU oN oC : Outcome) : Results :=
  applyOutcome .consistency oC (applyOutcome .dns oN (applyOutcome .upload oU
    (applyOutcome .download oD (applyOutcome .packetloss oP
      (jitterPhase (applyOutcome .latency oL {}))))))

/-- The page reached from `sys` while the invocation started there is under way: `state` is
`st`, and the new invocation is at `pc` with `log` the phases it has activated. -/
def stage (sys : Sys) (st : State) (pc : Pc) (log : List PhaseId) (scored : Bool) (view : View)
    (k : ℕ) : Sys :=
  { state := st
    view := view
    runs := sys.runs ++ [{ pc := pc, activated := log, scored := scored }]
    timers := sys.timers
    ispLookups := sys.ispLookups + 1
    probesStarted := sys.probesStarted + k }

/-- The events of one run, resumed at each of its awaits in turn: the click, the six probes,
the pause and the ISP lookup. -/
def runEvents (rid : ℕ) (dom : Dom) (now : ℕ) (oL oP oD oU oN oC : Outcome) (isp : IspInfo) :
    List Event :=
  [.runClick dom now, .probeDone rid oL, .probeDone rid oP, .probeDone rid oD,
    .probeDone rid oU, .probeDone rid oN, .probeDone rid oC, .pauseDone rid, .ispDone rid isp]

/-! ## Sample data of the scenarios -/

/-- Twenty latency samples with mean 8 ms and standard deviation 3 ms. -/
def goodLatency : LatencyResult :=
  { latencyMs := .fin 8, latencyMin := .fin 5, latencyMax := .fin 11, jitterMs := .fin 3,
    samples := [5, 11, 5, 11, 5, 11, 5, 11, 5, 11, 5, 11, 5, 11, 5, 11, 5, 11, 5, 11] }

/-- Twenty latency samples of 40 ms. -/
def slowLatency : LatencyResult :=
  { latencyMs := .fin 40, latencyMin := .fin 40, latencyMax := .fin 40, jitterMs := .fin 0,
    samples := [40, 40, 40, 40, 40, 40, 40, 40, 40, 40, 40, 40, 40, 40, 40, 40, 40, 40, 40, 40] }

/-- No probe lost out of thirty. -/
def goodPacketLoss : PacketLossResult :=
  { packetLossPct := .fin 0, failedProbes := 0, totalProbes := 30 }

/-- A DNS lookup of 15 ms. -/
def goodDns : DnsResult := { dnsMs := .fin 15, cached := false, unavailable := none }

/-- Three download runs near 120 Mbps, consistency 98 %. -/
def goodConsistency : ConsistencyResult :=
  { consistencyPct := .fin 98, runs := [.fin 119, .fin 120, .fin 121] }

/-- An ISP lookup result. -/
def someIsp : IspInfo :=
  { ispName := some "Free SAS", managerName := none, publicIp := some "192.0.2.1" }

/-- A complete run in which every probe succeeds and the cancel button is clicked during the
400 ms pause that follows the phase loop; the 500 ms timer of the cancel button fires after
the run has returned. -/
def cancelDuringPause : List Event :=
  [.runClick {} 0,
   .probeDone 0 (.ok (.latency goodLatency)),
   .probeDone 0 (.ok (.packetloss goodPacketLoss)),
   .probeDone 0 (.ok (.download (.fin 120))),
   .probeDone 0 (.ok (.upload (.fin 60))),
   .probeDone 0 (.ok (.dns goodDns)),
   .probeDone 0 (.ok (.consistency goodConsistency)),
   .cancelClick,
   .pauseDone 0,
   .ispDone 0 someIsp,
   .cancelTimer]

/-- A run is started and cancelled while its first latency request is still pending; the
500 ms fallback timer of the cancel button fires, and the run button is clicked again. -/
def overlappingRuns : List Event :=
  [.runClick {} 0, .cancelClick, .cancelTimer, .runClick {} 1]

/-- The form as restored by the browser: the zone checkbox is checked although no `change`
event has set `state.multiZone`, and the zone count field holds `0`. -/
def unsyncedZoneForm : Dom := { employeeCount := "25", zoneCount := "0", zoneToggle := true }

/-- A run is cancelled and a new run (invocation 1) is started within 500 ms; the fallback timer
of the cancel button then fires and shows the setup view again although invocation 1 is under
way.  After the latency and packet-loss phases of invocation 1 the run button is clicked once
more: the third invocation resets `state.results`.  Invocation 1 goes on through its
remaining phases and scores. -/
def staleTimerRun : List Event :=
  [.runClick {} 0,
   .cancelClick,
   .probeDone 0 .aborted,
   .runClick {} 1,
   .cancelTimer,
   .probeDone 1 (.ok (.latency goodLatency)),
   .probeDone 1 (.ok (.packetloss goodPacketLoss)),
   .runClick {} 2,
   .probeDone 1 (.ok (.download (.fin 120))),
   .probeDone 1 (.ok (.upload (.fin 60))),
   .probeDone 1 (.ok (.dns goodDns)),
   .probeDone 1 (.ok (.consistency goodConsistency)),
   .pauseDone 1,
   .ispDone 1 someIsp]

/-! ## Metric reduction of the probes -/

/-- Source: `testConsistency`, the reduction of the measured speeds to `consistencyPct`.  A
speed is what `testDownload` returns: a finite double, `Infinity` or `NaN` when no time has
elapsed. -/
def testConsistency (speeds : List JsNum) : ConsistencyResult :=
  let mean := jsMean speeds
  let variance := jsVariance speeds mean
  let cv : JsNum := if JsNum.lt (.fin 0) mean then variance.sqrt.div mean else .fin 1
  let consistencyPct := JsNum.max (.fin 0) (((JsNum.fin 1).sub cv).mul (.fin 100)).round
  { consistencyPct := consistencyPct, runs := speeds }

/-- Source: `testPacketLoss`, the object returned when `failed` of the 30 probes were lost.
The percentage is written exactly: `failed / 30 * 1000` is never half-way between two
integers, so `Math.round` takes the same value on the double, and `k / 10` stands for the
double nearest to it, which compares with the thresholds 0, 1 and 3 as `k / 10` does. -/
def testPacketLoss (failed : ℕ) : PacketLossResult :=
  { packetLossPct := .fin ((mathRound ((failed : ℚ) / 30 * 1000) : ℚ) / 10)
    failedProbes := failed
    totalProbes := 30 }

/-- Source: `testDns`, the last `return`: no timing entry for either target. -/
def dnsUnavailable : DnsResult := { dnsMs := .fin 0, cached := true, unavailable := some true }

/-- The record in which every phase has stored its fallback values. -/
def fallbackRecord : Results := PHASES.foldl (fun r phase => fallback phase r) {}

/-! ## Rendering: the per-user card and the recommendations -/

/-- An entry of `USE_CASES`. -/
structure UseCase where
  name : String
  threshold : ℚ
  label : String
deriving DecidableEq

/-- The table `USE_CASES`. -/
def USE_CASES : List UseCase :=
  [ { name := "VoIP / Appels vocaux", threshold := 1 / 10, label := "0,1 Mbps/util." },
    { name := "Visioconférence", threshold := 2, label := "2,0 Mbps/util." },
    { name := "Travail standard", threshold := 5, label := "5,0 Mbps/util." },
    { name := "Marge confortable", threshold := 10, label := "10 Mbps/util." } ]

/-- The expression `v || 0`. -/
def jsOrZero (v : JsVal) : JsVal := if v.truthy then v else lit 0

/-- Source: `renderResults`, the per-employee card: each use case with its flag `supported`
(`mppu >= uc.threshold`, where `mppu = r.mbpsPerEmployee || 0`). -/
def useCaseSupport (r : Results) : List (String × Bool) :=
  let mppu := jsOrZero r.mbpsPerEmployee
  USE_CASES.map fun uc => (uc.name, jsGe mppu (lit uc.threshold))

/-- The messages pushed by `buildRecommendations`, by the beginning of their text. -/
inductive Recommendation where
  /-- Message "La vitesse de téléchargement est inférieure à 20 Mbps". -/
  | downloadPoor
  /-- Message "La vitesse de téléchargement est modérée". -/
  | downloadFair
  /-- Message "La vitesse d-envoi est très faible". -/
  | uploadPoor
  /-- Message "La vitesse d-envoi est limitée". -/
  | uploadFair
  /-- Message "Latence élevée détectée". -/
  | latencyPoor
  /-- Message "La latence est élevée". -/
  | latencyFair
  /-- Message "Une gigue élevée indique une instabilité réseau". -/
  | jitterHigh
  /-- Message "Des pertes de paquets importantes ont été détectées". -/
  | packetlossPoor
  /-- Message "Des pertes de paquets occasionnelles". -/
  | packetlossFair
  /-- Message "La vitesse est très instable". -/
  | consistencyPoor
  /-- Message "La vitesse fluctue". -/
  | consistencyFair
  /-- Message "À ... Mbps par utilisateur ..., la visioconférence sera difficile", with the
  value of `results.mbpsPerEmployee`. -/
  | perUserLow (mbpsPerEmployee : JsNum)
  /-- Message "Votre connexion est performante sur toutes les métriques — aucune action
  immédiate requise." -/
  | allClear
  /-- Message "Maintenez votre configuration actuelle et retestez". -/
  | keepConfig
deriving DecidableEq

/-- The text of the all-clear message. -/
def allClearText : String :=
  "Votre connexion est performante sur toutes les métriques — aucune action immédiate requise."

/-- The recommendation pushed for a metric graded poor or fair, if any. -/
def gradeRec (g : Grade) (poor fair : Recommendation) : List Recommendation :=
  match g with
  | .poor => [poor]
  | .fair => [fair]
  | _ => []

/-- Source: `buildRecommendations`.  The result is `none` when the call throws: the per-user
message calls `toFixed` on `results.mbpsPerEmployee`, which is `null` in that case. -/
def buildRecommendations (score : ℤ) (results : Results) (scores : Scores) :
    Option (List Recommendation) :=
  let recs : List Recommendation := []
  let recs := recs ++ gradeRec scores.download .downloadPoor .downloadFair
  let recs := recs ++ gradeRec scores.upload .uploadPoor .uploadFair
  let recs := recs ++ gradeRec scores.latency .latencyPoor .latencyFair
  let recs := recs ++ gradeRec scores.jitter .jitterHigh .jitterHigh
  let recs := recs ++ gradeRec scores.packetloss .packetlossPoor .packetlossFair
  let recs := recs ++ gradeRec scores.consistency .consistencyPoor .consistencyFair
  let perUser : Option (List Recommendation) :=
    if jsLt results.mbpsPerEmployee (lit 2) && jsGt results.downloadMbps (lit 0) then
      match results.mbpsPerEmployee with
      | .num x => some [.perUserLow x]
      | _ => none
    else some []
  perUser.map fun extra =>
    let recs := recs ++ extra
    if recs.length = 0 then
      if score ≥ 90 then [.allClear, .keepConfig] else [.allClear]
    else recs

/-! ## Vocabulary of the statements about the reductions -/

/-- The order of the grades: a grade is not worse than another when its rank is not lower. -/
def Grade.rank : Grade → ℕ
  | .excellent => 3
  | .good => 2
  | .fair => 1
  | .poor => 0

/-- The mean of a sample sequence. -/
def popMean (l : List ℚ) : ℚ := l.sum / l.length

/-- The population variance of a sample sequence: the mean squared deviation from the mean,
with divisor `n`. -/
def popVariance (l : List ℚ) : ℚ := (l.map fun v => (v - popMean l) ^ 2).sum / l.length

/-- The bounds on the scale `M` of a sample sequence (the sum of three throughput samples)
that keep every intermediate value of the reduction in the normal range of the doubles. -/
structure InRange (M : ℚ) : Prop where
  pos : 0 < M
  le1 : M ≤ 2 ^ 1000
  le2 : M ^ 2 ≤ 2 ^ 1000
  η1 : (1 : ℚ) / 2 ^ 1075 ≤ M / 2 ^ 600
  η2 : (1 : ℚ) / 2 ^ 1075 ≤ M ^ 2 / 2 ^ 200

/-- The double nearest to 2.7. -/
def double27 : ℚ := 3039929748475085 / 1125899906842624

/-- The double nearest to 3.2. -/
def double32 : ℚ := 3602879701896397 / 1125899906842624

/-- Twenty latency samples: 3.2 ms twice, then 2.7 ms eighteen times. -/
def spikesFirst : List ℚ := [double32, double32] ++ List.replicate 18 double27

/-- The same twenty samples with the two 3.2 ms samples in thirteenth and fourteenth place. -/
def spikesLate : List ℚ :=
  List.replicate 12 double27 ++ [double32, double32] ++ List.replicate 6 double27

/-- The double nearest to 102.36797366569638. -/
def nearTieSpeed : ℚ := 3601752875433617 / 35184372088832

/-- A finite throughput value near 2.5e172: the double nearest to 0.1, scaled by `2 ^ 576`. -/
def hugeSpeed : ℚ := 7205759403792794 * 2 ^ 520

/-- The all-excellent record of the first scoring scenario, with a DNS lookup of 150 ms. -/
def slowDnsRecord : Results :=
  { downloadMbps := lit 120, uploadMbps := lit 60, latencyMs := lit 8, jitterMs := lit 3,
    packetLossPct := lit 0, dnsMs := lit 150, consistencyPct := lit 98,
    mbpsPerEmployee := lit (24 / 5), effectiveUserCount := lit 25 }

/-! ## Grading and scoring: theorems -/

theorem accumulate_eq (s : Scores) : accumulate s = (13, weightedPoints s) := by
  simp [accumulate, SCORE_WEIGHTS, Scores.get, weightedPoints]

theorem overallOf_eq (s : Scores) : overallOf s = mathRound ((weightedPoints s : ℚ) / 13) := by
  simp [overallOf, accumulate_eq]

theorem GRADE_POINTS_bounds (g : Grade) : 10 ≤ GRADE_POINTS g ∧ GRADE_POINTS g ≤ 100 := by
  cases g <;> simp [GRADE_POINTS]

theorem weightedPoints_bounds (s : Scores) :
    130 ≤ weightedPoints s ∧ weightedPoints s ≤ 1300 := by
  have h1 := GRADE_POINTS_bounds s.download
  have h2 := GRADE_POINTS_bounds s.upload
  have h3 := GRADE_POINTS_bounds s.latency
  have h4 := GRADE_POINTS_bounds s.packetloss
  have h5 := GRADE_POINTS_bounds s.consistency
  have h6 := GRADE_POINTS_bounds s.jitter
  have h7 := GRADE_POINTS_bounds s.dns
  unfold weightedPoints
  omega

/-- C1. For every numeric input each of the seven grading functions returns the grade of the
threshold table: download ≥100/≥50/≥20, upload ≥50/≥20/≥10, consistency ≥95/≥85/≥70,
latency ≤10/≤30/≤60, jitter ≤5/≤15/≤30, packet loss exactly 0 / ≤1 / ≤3, DNS (0 or ≤20) /
≤50 / ≤100, poor otherwise; download 50.0 is good and 49.9 fair, packet loss 0 is excellent
and 0.1 good. -/
theorem grades_match_threshold_table :
    (∀ x : JsNum,
      gradeDownload (.num x) = tableAtLeast 100 50 20 x
      ∧ gradeUpload (.num x) = tableAtLeast 50 20 10 x
      ∧ gradeConsistency (.num x) = tableAtLeast 95 85 70 x
      ∧ gradeLatency (.num x) = tableAtMost 10 30 60 x
      ∧ gradeJitter (.num x) = tableAtMost 5 15 30 x
      ∧ gradePacketLoss (.num x) = tablePacketLoss x
      ∧ gradeDns (.num x) = tableDns x)
    ∧ gradeDownload (lit 50) = .good
    ∧ gradeDownload (lit (499 / 10)) = .fair
    ∧ gradePacketLoss (lit 0) = .excellent
    ∧ gradePacketLoss (lit (1 / 10)) = .good := by
  refine ⟨?_, ?_, ?_, ?_, ?_⟩
  · intro x
    cases x <;>
      simp [gradeDownload, gradeUpload, gradeConsistency, gradeLatency, gradeJitter,
        gradePacketLoss, gradeDns, tableAtLeast, tableAtMost, tablePacketLoss, tableDns,
        jsGe, jsLe, jsStrictEq, lit, JsVal.toNumber, JsNum.le]
    rename_i q
    by_cases h : q = 0 <;> simp [h]
  all_goals
    simp [gradeDownload, gradePacketLoss, jsGe, jsLe, jsStrictEq, lit, JsVal.toNumber, JsNum.le]
  all_goals norm_num

theorem mathRound_points (w : ℕ) (z : ℤ) (h1 : 26 * z ≤ 2 * (w : ℤ) + 13)
    (h2 : 2 * (w : ℤ) + 13 < 26 * (z + 1)) : mathRound ((w : ℚ) / 13) = z := by
  unfold mathRound
  rw [Int.floor_eq_iff]
  have h1q : ((26 * z : ℤ) : ℚ) ≤ ((2 * (w : ℤ) + 13 : ℤ) : ℚ) := by exact_mod_cast h1
  have h2q : ((2 * (w : ℤ) + 13 : ℤ) : ℚ) < ((26 * (z + 1) : ℤ) : ℚ) := by exact_mod_cast h2
  push_cast at h1q h2q
  constructor
  · linarith
  · linarith

/-- C2. For every results record, `computeScores` returns `overallScore = round(S / 13)`,
where `S` is the sum over the seven metrics of points(grade) times weight (weights 3, 2, 2, 2,
2, 1, 1; points 100, 75, 40, 10); the score is a function of the seven grades only and is
unchanged when any of the other fields of the record (among them `mbpsPerEmployee` and
`effectiveUserCount`) is replaced; the all-excellent record of the specification scores 100. -/
theorem computeScores_is_weighted_average :
    (∀ r : Results,
      (computeScores r).1 = gradeAll r
      ∧ (computeScores r).2 = mathRound ((weightedPoints (gradeAll r) : ℚ) / 13))
    ∧ (∀ (r : Results) (lmin lmax fp tp mpe euc : JsVal) (smp : Option (List ℚ))
        (dc du : Option Bool) (runs : Option (List JsNum)) (isp mgr ip : Option (Option String)),
        computeScores
          { r with
            latencyMin := lmin, latencyMax := lmax, _latencySamples := smp, failedProbes := fp,
            totalProbes := tp, dnsCached := dc, dnsUnavail := du, consistencyRuns := runs,
            mbpsPerEmployee := mpe, effectiveUserCount := euc, ispName := isp,
            managerName := mgr, publicIp := ip } = computeScores r)
    ∧ computeScores
        { downloadMbps := lit 120, uploadMbps := lit 60, latencyMs := lit 8, jitterMs := lit 3,
          packetLossPct := lit 0, dnsMs := lit 15, consistencyPct := lit 98 }
      = (⟨.excellent, .excellent, .excellent, .excellent, .excellent, .excellent, .excellent⟩,
          100) := by
  refine ⟨fun r => ⟨rfl, ?_⟩, fun _ _ _ _ _ _ _ _ _ _ _ _ _ _ => rfl, ?_⟩
  · simp [computeScores, overallOf_eq]
  · have hg : gradeAll
          { downloadMbps := lit 120, uploadMbps := lit 60, latencyMs := lit 8,
            jitterMs := lit 3, packetLossPct := lit 0, dnsMs := lit 15,
            consistencyPct := lit 98 }
        = ⟨.excellent, .excellent, .excellent, .excellent, .excellent, .excellent,
            .excellent⟩ := by
      simp [gradeAll, gradeDownload, gradeUpload, gradeConsistency, gradeLatency, gradeJitter,
        gradePacketLoss, gradeDns, jsGe, jsLe, jsStrictEq, lit, JsVal.toNumber, JsNum.le]
      norm_num
    simp only [computeScores, hg, overallOf_eq]
    congr 1
    apply mathRound_points <;> simp [weightedPoints, GRADE_POINTS]

/-- C3. For every assignment of grades to the seven scored metrics, and hence for every
results record, `overallScore` is an integer between 10 and 100. -/
theorem overallScore_bounds :
    (∀ s : Scores, 10 ≤ overallOf s ∧ overallOf s ≤ 100)
    ∧ (∀ r : Results, 10 ≤ (computeScores r).2 ∧ (computeScores r).2 ≤ 100) := by
  have key : ∀ s : Scores, 10 ≤ overallOf s ∧ overallOf s ≤ 100 := by
    intro s
    obtain ⟨hlo, hhi⟩ := weightedPoints_bounds s
    have hloq : (130 : ℚ) ≤ (weightedPoints s : ℚ) := by exact_mod_cast hlo
    have hhiq : (weightedPoints s : ℚ) ≤ 1300 := by exact_mod_cast hhi
    rw [overallOf_eq]
    unfold mathRound
    constructor
    · rw [Int.le_floor]
      push_cast
      rw [div_add_div _ _ (by norm_num) (by norm_num), le_div_iff₀ (by norm_num)]
      linarith
    · have : ⌊(weightedPoints s : ℚ) / 13 + 1 / 2⌋ < 101 := by
        rw [Int.floor_lt]
        push_cast
        rw [div_add_div _ _ (by norm_num) (by norm_num), div_lt_iff₀ (by norm_num)]
        linarith
      omega
  exact ⟨key, fun r => key (gradeAll r)⟩

theorem scenarioPoorDownload_grades :
    gradeAll scenarioPoorDownload = ⟨.poor, .good, .good, .good, .good, .good, .good⟩ := by
  simp [scenarioPoorDownload, gradeAll, gradeDownload, gradeUpload, gradeConsistency,
    gradeLatency, gradeJitter, gradePacketLoss, gradeDns, jsGe, jsLe, jsStrictEq, lit,
    JsVal.toNumber, JsNum.le]
  norm_num

/-- C4, as stated, fails: the record with download 15 Mbps (graded poor) and the six other
metrics graded good has `overallScore = 60`, not 66; the weighted sum is
10×3 + 75×(2+2+2+2+1+1) = 780, and 780 / 13 = 60. -/
theorem poor_download_others_good_not_66 :
    gradeAll scenarioPoorDownload = ⟨.poor, .good, .good, .good, .good, .good, .good⟩
    ∧ weightedPoints (gradeAll scenarioPoorDownload) = 780
    ∧ (computeScores scenarioPoorDownload).2 = 60
    ∧ (computeScores scenarioPoorDownload).2 ≠ 66 := by
  have h60 : (computeScores scenarioPoorDownload).2 = 60 := by
    simp only [computeScores, overallOf_eq, scenarioPoorDownload_grades]
    apply mathRound_points <;> simp [weightedPoints, GRADE_POINTS]
  refine ⟨scenarioPoorDownload_grades, ?_, h60, ?_⟩
  · simp [scenarioPoorDownload_grades, weightedPoints, GRADE_POINTS]
  · rw [h60]; decide

/-- C4 (amended). For every results record in which download is graded poor and the six other
scored metrics are graded good, `computeScores` returns `overallScore = 60`. -/
theorem poor_download_others_good_scores_60 (r : Results)
    (hd : gradeDownload r.downloadMbps = .poor) (hu : gradeUpload r.uploadMbps = .good)
    (hl : gradeLatency r.latencyMs = .good) (hj : gradeJitter r.jitterMs = .good)
    (hp : gradePacketLoss r.packetLossPct = .good) (hn : gradeDns r.dnsMs = .good)
    (hc : gradeConsistency r.consistencyPct = .good) :
    (computeScores r).2 = 60 := by
  simp only [computeScores, overallOf_eq]
  apply mathRound_points <;>
    simp [weightedPoints, gradeAll, GRADE_POINTS, hd, hu, hl, hj, hp, hn, hc]

/-- Witness of the amended C4: download 15 Mbps, upload 30, latency 20, jitter 10, packet
loss 0.5, DNS 30 and consistency 90 score 60. -/
theorem poor_download_others_good_scores_60_witness :
    (computeScores
      { downloadMbps := lit 15, uploadMbps := lit 30, latencyMs := lit 20, jitterMs := lit 10,
        packetLossPct := lit (1 / 2), dnsMs := lit 30, consistencyPct := lit 90 }).2 = 60 :=
  poor_download_others_good_scores_60 _
    (by simp [gradeDownload, jsGe, lit, JsVal.toNumber, JsNum.le]; norm_num)
    (by simp [gradeUpload, jsGe, lit, JsVal.toNumber, JsNum.le]; norm_num)
    (by simp [gradeLatency, jsLe, lit, JsVal.toNumber, JsNum.le]; norm_num)
    (by simp [gradeJitter, jsLe, lit, JsVal.toNumber, JsNum.le]; norm_num)
    (by simp [gradePacketLoss, jsLe, jsStrictEq, lit, JsVal.toNumber, JsNum.le]; norm_num)
    (by simp [gradeDns, jsLe, jsStrictEq, lit, JsVal.toNumber, JsNum.le]; norm_num)
    (by simp [gradeConsistency, jsGe, lit, JsVal.toNumber, JsNum.le]; norm_num)

/-! ## The run orchestrator: lemmas -/

theorem fits_latency {o : Outcome} (h : o.fits .latency = true) :
    (∃ x, o = .ok (.latency x)) ∨ o = .failed := by
  rcases o with (v | _ | _)
  · cases v <;> simp_all [Outcome.fits, assignProbe]
  · exact Or.inr rfl
  · simp [Outcome.fits] at h

theorem fits_packetloss {o : Outcome} (h : o.fits .packetloss = true) :
    (∃ x, o = .ok (.packetloss x)) ∨ o = .failed := by
  rcases o with (v | _ | _)
  · cases v <;> simp_all [Outcome.fits, assignProbe]
  · exact Or.inr rfl
  · simp [Outcome.fits] at h

theorem fits_download {o : Outcome} (h : o.fits .download = true) :
    (∃ x, o = .ok (.download x)) ∨ o = .failed := by
  rcases o with (v | _ | _)
  · cases v <;> simp_all [Outcome.fits, assignProbe]
  · exact Or.inr rfl
  · simp [Outcome.fits] at h

theorem fits_upload {o : Outcome} (h : o.fits .upload = true) :
    (∃ x, o = .ok (.upload x)) ∨ o = .failed := by
  rcases o with (v | _ | _)
  · cases v <;> simp_all [Outcome.fits, assignProbe]
  · exact Or.inr rfl
  · simp [Outcome.fits] at h

theorem fits_dns {o : Outcome} (h : o.fits .dns = true) :
    (∃ x, o = .ok (.dns x)) ∨ o = .failed := by
  rcases o with (v | _ | _)
  · cases v <;> simp_all [Outcome.fits, assignProbe]
  · exact Or.inr rfl
  · simp [Outcome.fits] at h

theorem fits_consistency {o : Outcome} (h : o.fits .consistency = true) :
    (∃ x, o = .ok (.consistency x)) ∨ o = .failed := by
  rcases o with (v | _ | _)
  · cases v <;> simp_all [Outcome.fits, assignProbe]
  · exact Or.inr rfl
  · simp [Outcome.fits] at h

theorem jitterPhase_eq (r : Results) :
    jitterPhase r = { r with jitterMs := jitterValue (r._latencySamples.getD []) } := by
  unfold jitterValue jitterPhase
  simp only [Option.getD_some]
  split <;> rfl

theorem jitterValue_nil : jitterValue [] = lit 0 := by
  simp [jitterValue, jitterPhase]

theorem tryPhase_fits (st : State) (p : PhaseId) (o : Outcome) (h : o.fits p = true)
    (ha : st.aborted = false) :
    tryPhase st p o = some ({ st with results := applyOutcome p o st.results }, false) := by
  rcases o with (v | _ | _)
  · cases p <;> cases v <;> simp_all [Outcome.fits, tryPhase, assignProbe, applyOutcome]
  · simp [tryPhase, ha, applyOutcome]
  · simp [Outcome.fits] at h

theorem perEmployeePhase_aborted (st : State) : (perEmployeePhase st).aborted = st.aborted := rfl

theorem fillPerEmployee_frame (st : State) :
    (fillPerEmployee st).results.latencyMs = st.results.latencyMs
    ∧ (fillPerEmployee st).results.jitterMs = st.results.jitterMs
    ∧ (fillPerEmployee st).results.packetLossPct = st.results.packetLossPct
    ∧ (fillPerEmployee st).results.downloadMbps = st.results.downloadMbps
    ∧ (fillPerEmployee st).results.uploadMbps = st.results.uploadMbps
    ∧ (fillPerEmployee st).results.dnsMs = st.results.dnsMs
    ∧ (fillPerEmployee st).results.consistencyPct = st.results.consistencyPct
    ∧ (fillPerEmployee st).phase = st.phase
    ∧ (fillPerEmployee st).aborted = st.aborted := by
  unfold fillPerEmployee
  split <;> simp

theorem runAllTests_stage (sys : Sys) (dom : Dom) (now : ℕ)
    (hphase : sys.state.phase ≠ .testing) (hvalid : validateEmployees sys.state dom = true) :
    runAllTests sys dom now
      = stage sys { startState sys.state dom now with results := {} } (.awaitProbe 0)
          [.latency] false .testing 1 := by
  simp [runAllTests, hphase, hvalid, continueLoop, phaseLoop, PHASES, stage, startState]

theorem probeDone_latency_stage (sys : Sys) (st : State) (r : Results) (log : List PhaseId)
    (view : View) (k : ℕ) (o : Outcome) (ha : st.aborted = false)
    (hf : o.fits .latency = true) :
    step (stage sys { st with results := r } (.awaitProbe 0) log false view k)
        (.probeDone sys.runs.length o)
      = stage sys { st with results := jitterPhase (applyOutcome .latency o r) }
          (.awaitProbe 2) (log ++ [.jitter, .packetloss]) false view (k + 1) := by
  simp [step, resumeProbe, stage, PHASES, tryPhase_fits, hf, ha, continueLoop, phaseLoop,
    Nat.add_assoc]

theorem probeDone_next_stage (sys : Sys) (st : State) (r : Results) (log : List PhaseId)
    (view : View) (k i : ℕ) (p q : PhaseId) (o : Outcome) (ha : st.aborted = false)
    (hf : o.fits p = true)
    (hi : (i, p, q) ∈ [(2, .packetloss, .download), (3, .download, .upload),
      (4, .upload, .dns), (5, .dns, .consistency)]) :
    step (stage sys { st with results := r } (.awaitProbe i) log false view k)
        (.probeDone sys.runs.length o)
      = stage sys { st with results := applyOutcome p o r }
          (.awaitProbe (i + 1)) (log ++ [q]) false view (k + 1) := by
  simp only [List.mem_cons, Prod.mk.injEq, List.mem_singleton, List.not_mem_nil, or_false] at hi
  rcases hi with ⟨rfl, rfl, rfl⟩ | ⟨rfl, rfl, rfl⟩ | ⟨rfl, rfl, rfl⟩ | ⟨rfl, rfl, rfl⟩ <;>
    simp [step, resumeProbe, stage, PHASES, tryPhase_fits, hf, ha, continueLoop, phaseLoop,
      Nat.add_assoc]

theorem probeDone_consistency_stage (sys : Sys) (st : State) (r : Results)
    (log : List PhaseId) (view : View) (k : ℕ) (o : Outcome) (ha : st.aborted = false)
    (hf : o.fits .consistency = true) :
    step (stage sys { st with results := r } (.awaitProbe 6) log false view k)
        (.probeDone sys.runs.length o)
      = stage sys
          (fillPerEmployee
            { perEmployeePhase { st with results := applyOutcome .consistency o r } with
              phase := .results })
          .pause (log ++ [.peremployee]) false view k := by
  simp [step, resumeProbe, stage, PHASES, tryPhase_fits, hf, ha, continueLoop, phaseLoop,
    afterLoop, perEmployeePhase_aborted]

theorem pauseDone_stage (sys : Sys) (st : State) (log : List PhaseId) (view : View) (k : ℕ) :
    step (stage sys st .pause log false view k) (.pauseDone sys.runs.length)
      = stage sys st .ispJoin log false view k := by
  simp [step, resumePause, stage]

/-- The accumulator passed to `computeScores`: the ISP fields have just been stored. -/
theorem ispDone_stage (sys : Sys) (st : State) (log : List PhaseId) (view : View) (k : ℕ)
    (isp : IspInfo) :
    step (stage sys st .ispJoin log false view k) (.ispDone sys.runs.length isp)
      = stage sys
          { st with
            results :=
              { st.results with
                ispName := some isp.ispName
                managerName := some isp.managerName
                publicIp := some isp.publicIp }
            scores := some (computeScores
              { st.results with
                ispName := some isp.ispName
                managerName := some isp.managerName
                publicIp := some isp.publicIp }).1
            overallScore := (computeScores
              { st.results with
                ispName := some isp.ispName
                managerName := some isp.managerName
                publicIp := some isp.publicIp }).2 }
          .returned log true .results k := by
  simp [step, resumeIsp, stage]

theorem afterProbes_fields (oL oP oD oU oN oC : Outcome)
    (hL : oL.fits .latency = true) (hP : oP.fits .packetloss = true)
    (hD : oD.fits .download = true) (hU : oU.fits .upload = true)
    (hN : oN.fits .dns = true) (hC : oC.fits .consistency = true) :
    (afterProbes oL oP oD oU oN oC).latencyMs = expectedLatencyMs oL
    ∧ (afterProbes oL oP oD oU oN oC).jitterMs = expectedJitterMs oL
    ∧ (afterProbes oL oP oD oU oN oC).packetLossPct = expectedPacketLossPct oP
    ∧ (afterProbes oL oP oD oU oN oC).downloadMbps = expectedDownloadMbps oD
    ∧ (afterProbes oL oP oD oU oN oC).uploadMbps = expectedUploadMbps oU
    ∧ (afterProbes oL oP oD oU oN oC).dnsMs = expectedDnsMs oN
    ∧ (afterProbes oL oP oD oU oN oC).consistencyPct = expectedConsistencyPct oC := by
  rcases fits_latency hL with ⟨xL, rfl⟩ | rfl <;>
  rcases fits_packetloss hP with ⟨xP, rfl⟩ | rfl <;>
  rcases fits_download hD with ⟨xD, rfl⟩ | rfl <;>
  rcases fits_upload hU with ⟨xU, rfl⟩ | rfl <;>
  rcases fits_dns hN with ⟨xN, rfl⟩ | rfl <;>
  rcases fits_consistency hC with ⟨xC, rfl⟩ | rfl <;>
  simp [afterProbes, applyOutcome, assignProbe, fallback, jitterPhase_eq, jitterValue_nil,
    expectedLatencyMs, expectedJitterMs, expectedPacketLossPct, expectedDownloadMbps,
    expectedUploadMbps, expectedDnsMs, expectedConsistencyPct]

theorem expected_assigned (o : Outcome) :
    expectedLatencyMs o ≠ .undefined ∧ expectedJitterMs o ≠ .undefined
    ∧ expectedPacketLossPct o ≠ .undefined ∧ expectedDownloadMbps o ≠ .undefined
    ∧ expectedUploadMbps o ≠ .undefined ∧ expectedDnsMs o ≠ .undefined
    ∧ expectedConsistencyPct o ≠ .undefined := by
  have hj : ∀ l, jitterValue l ≠ .undefined := by
    intro l
    unfold jitterValue jitterPhase
    simp only [Option.getD_some]
    split <;> simp [lit]
  rcases o with (v | _ | _)
  · cases v <;>
      simp [expectedLatencyMs, expectedJitterMs, expectedPacketLossPct, expectedDownloadMbps,
        expectedUploadMbps, expectedDnsMs, expectedConsistencyPct, lit, hj]
  all_goals
    simp [expectedLatencyMs, expectedJitterMs, expectedPacketLossPct, expectedDownloadMbps,
      expectedUploadMbps, expectedDnsMs, expectedConsistencyPct, lit]

/-- The page just before `computeScores` is called, for a run that is not aborted. -/
theorem run_reaches_join (sys : Sys) (dom : Dom) (now : ℕ) (oL oP oD oU oN oC : Outcome)
    (hphase : sys.state.phase ≠ .testing) (hvalid : validateEmployees sys.state dom = true)
    (hL : oL.fits .latency = true) (hP : oP.fits .packetloss = true)
    (hD : oD.fits .download = true) (hU : oU.fits .upload = true)
    (hN : oN.fits .dns = true) (hC : oC.fits .consistency = true) :
    exec sys
        [.runClick dom now, .probeDone sys.runs.length oL, .probeDone sys.runs.length oP,
          .probeDone sys.runs.length oD, .probeDone sys.runs.length oU,
          .probeDone sys.runs.length oN, .probeDone sys.runs.length oC,
          .pauseDone sys.runs.length]
      = stage sys
          (fillPerEmployee
            { perEmployeePhase
                { startState sys.state dom now with results := afterProbes oL oP oD oU oN oC } with
              phase := .results })
          .ispJoin PHASES false .testing 6 := by
  have ha : (startState sys.state dom now).aborted = false := rfl
  simp only [exec, List.foldl_cons, List.foldl_nil]
  rw [show step sys (.runClick dom now) = runAllTests sys dom now from rfl,
    runAllTests_stage sys dom now hphase hvalid,
    probeDone_latency_stage sys _ _ _ _ _ oL ha hL,
    probeDone_next_stage sys _ _ _ _ _ 2 .packetloss .download oP ha hP (by simp),
    probeDone_next_stage sys _ _ _ _ _ 3 .download .upload oD ha hD (by simp),
    probeDone_next_stage sys _ _ _ _ _ 4 .upload .dns oU ha hU (by simp),
    probeDone_next_stage sys _ _ _ _ _ 5 .dns .consistency oN ha hN (by simp),
    probeDone_consistency_stage sys _ _ _ _ _ oC ha hC,
    pauseDone_stage]
  rfl


/-- A run that no other event interleaves.  When the awaits of an invocation are resumed in
turn, with no click, timer or other invocation in between, and no probe is aborted, then
whichever of the probes fail with another error: all eight phases are attempted in the order
of `PHASES`, the run ends with `state.phase = 'results'`, and the record on which
`computeScores` is called holds, in each of its seven scored fields, the value of the probe
or the fallback value of the phase.  The run is started from any page on which
`runAllTests` passes its guards. -/
theorem run_without_abort_completes (sys : Sys) (dom : Dom) (now : ℕ)
    (oL oP oD oU oN oC : Outcome) (isp : IspInfo)
    (hphase : sys.state.phase ≠ .testing) (hvalid : validateEmployees sys.state dom = true)
    (hL : oL.fits .latency = true) (hP : oP.fits .packetloss = true)
    (hD : oD.fits .download = true) (hU : oU.fits .upload = true)
    (hN : oN.fits .dns = true) (hC : oC.fits .consistency = true) :
    (exec sys (runEvents sys.runs.length dom now oL oP oD oU oN oC isp)).runs[sys.runs.length]?
        = some { pc := .returned, activated := PHASES, scored := true }
    ∧ (exec sys (runEvents sys.runs.length dom now oL oP oD oU oN oC isp)).state.phase
        = .results
    ∧ (exec sys (runEvents sys.runs.length dom now oL oP oD oU oN oC isp)).state.scores
        = some (computeScores
            (exec sys (runEvents sys.runs.length dom now oL oP oD oU oN oC isp)).state.results).1
    ∧ (exec sys (runEvents sys.runs.length dom now oL oP oD oU oN oC isp)).state.overallScore
        = (computeScores
            (exec sys (runEvents sys.runs.length dom now oL oP oD oU oN oC isp)).state.results).2
    ∧ (exec sys (runEvents sys.runs.length dom now oL oP oD oU oN oC isp)).state.results.latencyMs
        = expectedLatencyMs oL
    ∧ (exec sys (runEvents sys.runs.length dom now oL oP oD oU oN oC isp)).state.results.jitterMs
        = expectedJitterMs oL
    ∧ (exec sys
          (runEvents sys.runs.length dom now oL oP oD oU oN oC isp)).state.results.packetLossPct
        = expectedPacketLossPct oP
    ∧ (exec sys
          (runEvents sys.runs.length dom now oL oP oD oU oN oC isp)).state.results.downloadMbps
        = expectedDownloadMbps oD
    ∧ (exec sys
          (runEvents sys.runs.length dom now oL oP oD oU oN oC isp)).state.results.uploadMbps
        = expectedUploadMbps oU
    ∧ (exec sys (runEvents sys.runs.length dom now oL oP oD oU oN oC isp)).state.results.dnsMs
        = expectedDnsMs oN
    ∧ (exec sys
          (runEvents sys.runs.length dom now oL oP oD oU oN oC isp)).state.results.consistencyPct
        = expectedConsistencyPct oC
    ∧ expectedLatencyMs oL ≠ .undefined ∧ expectedJitterMs oL ≠ .undefined
    ∧ expectedPacketLossPct oP ≠ .undefined ∧ expectedDownloadMbps oD ≠ .undefined
    ∧ expectedUploadMbps oU ≠ .undefined ∧ expectedDnsMs oN ≠ .undefined
    ∧ expectedConsistencyPct oC ≠ .undefined := by
  have hsplit : exec sys (runEvents sys.runs.length dom now oL oP oD oU oN oC isp)
      = step
          (exec sys
            [.runClick dom now, .probeDone sys.runs.length oL, .probeDone sys.runs.length oP,
              .probeDone sys.runs.length oD, .probeDone sys.runs.length oU,
              .probeDone sys.runs.length oN, .probeDone sys.runs.length oC,
              .pauseDone sys.runs.length])
          (.ispDone sys.runs.length isp) := by
    simp only [exec, runEvents, List.foldl_cons, List.foldl_nil]
  rw [hsplit, run_reaches_join sys dom now oL oP oD oU oN oC hphase hvalid hL hP hD hU hN hC,
    ispDone_stage]
  obtain ⟨f1, f2, f3, f4, f5, f6, f7, f8, -⟩ :=
    fillPerEmployee_frame
      { perEmployeePhase
          { startState sys.state dom now with results := afterProbes oL oP oD oU oN oC } with
        phase := .results }
  obtain ⟨a1, a2, a3, a4, a5, a6, a7⟩ := afterProbes_fields oL oP oD oU oN oC hL hP hD hU hN hC
  have hp : ∀ st : State,
      (perEmployeePhase st).results.latencyMs = st.results.latencyMs
      ∧ (perEmployeePhase st).results.jitterMs = st.results.jitterMs
      ∧ (perEmployeePhase st).results.packetLossPct = st.results.packetLossPct
      ∧ (perEmployeePhase st).results.downloadMbps = st.results.downloadMbps
      ∧ (perEmployeePhase st).results.uploadMbps = st.results.uploadMbps
      ∧ (perEmployeePhase st).results.dnsMs = st.results.dnsMs
      ∧ (perEmployeePhase st).results.consistencyPct = st.results.consistencyPct :=
    fun st => ⟨rfl, rfl, rfl, rfl, rfl, rfl, rfl⟩
  obtain ⟨p1, p2, p3, p4, p5, p6, p7⟩ :=
    hp { startState sys.state dom now with results := afterProbes oL oP oD oU oN oC }
  refine ⟨by simp [stage], by simp [stage, f8], rfl, rfl, ?_, ?_, ?_, ?_, ?_, ?_, ?_,
    (expected_assigned oL).1, (expected_assigned oL).2.1, (expected_assigned oP).2.2.1,
    (expected_assigned oD).2.2.2.1, (expected_assigned oU).2.2.2.2.1,
    (expected_assigned oN).2.2.2.2.2.1, (expected_assigned oC).2.2.2.2.2.2⟩
  · simp only [stage]; rw [← a1, ← p1]; exact f1
  · simp only [stage]; rw [← a2, ← p2]; exact f2
  · simp only [stage]; rw [← a3, ← p3]; exact f3
  · simp only [stage]; rw [← a4, ← p4]; exact f4
  · simp only [stage]; rw [← a5, ← p5]; exact f5
  · simp only [stage]; rw [← a6, ← p6]; exact f6
  · simp only [stage]; rw [← a7, ← p7]; exact f7

/-- From the page as loaded, a run whose packet-loss, upload and consistency probes fail ends
in `'results'` with the three fallback values in the accumulator. -/
theorem run_without_abort_completes_witness :
    (exec initialSys
        (runEvents 0 {} 0 (.ok (.latency goodLatency)) .failed (.ok (.download (.fin 120)))
          .failed (.ok (.dns goodDns)) .failed someIsp)).state.phase = .results
    ∧ (exec initialSys
        (runEvents 0 {} 0 (.ok (.latency goodLatency)) .failed (.ok (.download (.fin 120)))
          .failed (.ok (.dns goodDns)) .failed someIsp)).state.results.packetLossPct = lit 100
    ∧ (exec initialSys
        (runEvents 0 {} 0 (.ok (.latency goodLatency)) .failed (.ok (.download (.fin 120)))
          .failed (.ok (.dns goodDns)) .failed someIsp)).state.results.uploadMbps = .null
    ∧ (exec initialSys
        (runEvents 0 {} 0 (.ok (.latency goodLatency)) .failed (.ok (.download (.fin 120)))
          .failed (.ok (.dns goodDns)) .failed someIsp)).state.results.consistencyPct = lit 0 := by
  have h := run_without_abort_completes initialSys {} 0 (.ok (.latency goodLatency)) .failed
    (.ok (.download (.fin 120))) .failed (.ok (.dns goodDns)) .failed someIsp (by decide)
    (by decide) rfl rfl rfl rfl rfl rfl
  exact ⟨h.2.1, h.2.2.2.2.2.2.1, h.2.2.2.2.2.2.2.2.1, h.2.2.2.2.2.2.2.2.2.2.1⟩

/-- C6. When a phase fails with a non-abort error (and the abort flag is not set), the `catch`
block continues the loop and substitutes: latency → `latencyMs = 999`, packet loss →
`packetLossPct = 100`, download → `downloadMbps = 0`, upload → `uploadMbps = null`, DNS →
`dnsMs = 0` with `dnsUnavail = true`, consistency → `consistencyPct = 0`; `computeScores`
grades the latency fallback 999 as poor and the upload fallback `null` as poor. -/
theorem fallback_values_on_failure (st : State) (h : st.aborted = false) :
    (tryPhase st .latency .failed).map (fun s => (s.2, s.1.results.latencyMs))
        = some (false, lit 999)
    ∧ (tryPhase st .packetloss .failed).map (fun s => (s.2, s.1.results.packetLossPct))
        = some (false, lit 100)
    ∧ (tryPhase st .download .failed).map (fun s => (s.2, s.1.results.downloadMbps))
        = some (false, lit 0)
    ∧ (tryPhase st .upload .failed).map (fun s => (s.2, s.1.results.uploadMbps))
        = some (false, .null)
    ∧ (tryPhase st .dns .failed).map (fun s => (s.2, s.1.results.dnsMs, s.1.results.dnsUnavail))
        = some (false, lit 0, some true)
    ∧ (tryPhase st .consistency .failed).map (fun s => (s.2, s.1.results.consistencyPct))
        = some (false, lit 0)
    ∧ (tryPhase st .latency .failed).map (fun s => (computeScores s.1.results).1.latency)
        = some .poor
    ∧ (tryPhase st .upload .failed).map (fun s => (computeScores s.1.results).1.upload)
        = some .poor := by
  simp [tryPhase, h, fallback, computeScores, gradeAll, gradeLatency, gradeUpload, jsLe, jsGe,
    lit, JsVal.toNumber, JsNum.le]
  norm_num

/-- Witness of C6: the fallbacks applied to the initial `state`. -/
theorem fallback_values_on_failure_witness :
    (tryPhase {} .latency .failed).map (fun s => (s.2, s.1.results.latencyMs))
        = some (false, lit 999)
    ∧ (tryPhase {} .upload .failed).map (fun s => (computeScores s.1.results).1.upload)
        = some .poor :=
  ⟨(fallback_values_on_failure {} rfl).1, (fallback_values_on_failure {} rfl).2.2.2.2.2.2.2⟩

/-! ## Scenarios: lemmas -/

theorem roundTo_120 : roundTo 10 (.fin 120) = .fin 120 := by decide!

theorem roundTo_60 : roundTo 10 (.fin 60) = .fin 60 := by decide!

/-- With 25 users and 120 Mbps the stored per-user bandwidth is the double 4.8. -/
theorem perUser_120_25 : roundTo 100 ((JsNum.fin 120).divInt 25) = toDouble (24 / 5) := by
  decide!

theorem goodLatency_jitter : jitterValue goodLatency.samples = lit 3 := by decide!

theorem overallOf_all_excellent :
    overallOf ⟨.excellent, .excellent, .excellent, .excellent, .excellent, .excellent,
      .excellent⟩ = 100 := by
  rw [overallOf_eq]
  apply mathRound_points <;> simp [weightedPoints, GRADE_POINTS]

theorem phaseLoop_aborted (st : State) (log : List PhaseId) (i : ℕ) (l : List PhaseId)
    (h : st.aborted = true) : phaseLoop st log i l = (st, log, .exited) := by
  cases l <;> simp [phaseLoop, h]

/-- When the abort flag is set while an invocation awaits a probe and is still set when the
probe settles, the invocation returns at once: `state.phase` is `'setup'`, `computeScores` is
not called and `state.scores` / `state.overallScore` keep their values. -/
theorem abort_seen_when_probe_settles (sys : Sys) (rid i : ℕ) (run : Run) (o : Outcome)
    (hrun : sys.runs[rid]? = some run) (hpc : run.pc = .awaitProbe i)
    (hab : sys.state.aborted = true) (hen : enabled sys (.probeDone rid o) = true) :
    (step sys (.probeDone rid o)).state.phase = .setup
    ∧ (step sys (.probeDone rid o)).runs[rid]?
        = some { pc := .returned, activated := run.activated, scored := false }
    ∧ (step sys (.probeDone rid o)).state.scores = sys.state.scores
    ∧ (step sys (.probeDone rid o)).state.overallScore = sys.state.overallScore := by
  have hlt : rid < sys.runs.length := by
    rcases Nat.lt_or_ge rid sys.runs.length with h | h
    · exact h
    · rw [List.getElem?_eq_none h] at hrun; cases hrun
  simp only [enabled, hrun, hpc] at hen
  cases hph : PHASES[i]? with
  | none => simp [hph] at hen
  | some phase =>
    rcases o with (v | _ | _)
    · simp only [hph, Option.isSome_iff_exists] at hen
      obtain ⟨r0, hr0⟩ := hen
      have hassign : ∃ r, assignProbe phase v sys.state.results = some r := by
        cases phase <;> cases v <;> simp_all [assignProbe]
      obtain ⟨r, hr⟩ := hassign
      simp [step, resumeProbe, hrun, hpc, hph, tryPhase, hr, continueLoop,
        phaseLoop_aborted, hab, afterLoop, hlt]
    · simp [step, resumeProbe, hrun, hpc, hph, tryPhase, hab, afterLoop, hlt]
    · simp [step, resumeProbe, hrun, hpc, hph, tryPhase, hab, afterLoop, hlt]

/-- C7 fails on the code when the abort flag is set after the phase loop.  Every probe of the
run succeeds; the cancel button is clicked during the 400 ms pause (the testing view is
still shown, the invocation is suspended at the pause).  The flag is never read again:
`computeScores` is called, `state.scores` and `state.overallScore` are overwritten, the
results view is shown and `state.phase` stays `'results'`, also after the 500 ms timer of
the cancel button has fired. -/
theorem cancel_during_pause_still_scores :
    feasible initialSys cancelDuringPause = true
    ∧ (exec initialSys (cancelDuringPause.take 7)).view = .testing
    ∧ (exec initialSys (cancelDuringPause.take 8)).state.aborted = true
    ∧ (exec initialSys (cancelDuringPause.take 8)).runs
        = [{ pc := .pause, activated := PHASES, scored := false }]
    ∧ (exec initialSys cancelDuringPause).state.aborted = true
    ∧ (exec initialSys cancelDuringPause).state.phase = .results
    ∧ (exec initialSys cancelDuringPause).view = .results
    ∧ (exec initialSys cancelDuringPause).runs
        = [{ pc := .returned, activated := PHASES, scored := true }]
    ∧ (exec initialSys cancelDuringPause).state.scores
        = some ⟨.excellent, .excellent, .excellent, .excellent, .excellent, .excellent,
            .excellent⟩
    ∧ (exec initialSys cancelDuringPause).state.overallScore = 100
    ∧ initialSys.state.scores = none
    ∧ initialSys.state.overallScore = 0 := by
  have hL : goodLatency.latencyMs = .fin 8 := rfl
  simp [exec, feasible, enabled, cancelDuringPause, step, initialSys, runAllTests,
    validateEmployees, getEmployeeCount, getZoneUserCount,
    (by decide : parseInt "25" = some 25), (by decide : parseInt "10" = some 10),
    (by decide : jsTrim "" = ""), continueLoop, phaseLoop, PHASES, resumeProbe, tryPhase,
    assignProbe, afterLoop, resumePause, resumeIsp, jitterPhase_eq, goodLatency_jitter, hL,
    goodPacketLoss, goodDns, goodConsistency, perEmployeePhase, fillPerEmployee,
    getEffectiveUserCount, JsVal.truthy, roundTo_120, roundTo_60, perUser_120_25,
    JsVal.toNumber, computeScores, gradeAll, gradeDownload, gradeUpload, gradeLatency,
    gradeJitter, gradePacketLoss, gradeDns, gradeConsistency, jsGe, jsLe, jsStrictEq, lit,
    JsNum.le]
  norm_num
  exact overallOf_all_excellent

/-- When `runAllTests` passes its guards the employee count is within [1, 500]; the zone
count is within [1, 500] as well when the checkbox agrees with `state.multiZone`. -/
theorem runAllTests_counts_in_range (sys : Sys) (dom : Dom) (now : ℕ)
    (hphase : sys.state.phase ≠ .testing) (hvalid : validateEmployees sys.state dom = true) :
    (1 ≤ (runAllTests sys dom now).state.employeeCount
      ∧ (runAllTests sys dom now).state.employeeCount ≤ 500)
    ∧ (sys.state.multiZone = dom.zoneToggle →
        1 ≤ (runAllTests sys dom now).state.zoneUserCount
        ∧ (runAllTests sys dom now).state.zoneUserCount ≤ 500) := by
  rw [runAllTests_stage sys dom now hphase hvalid]
  simp only [stage, startState]
  unfold validateEmployees at hvalid
  by_cases hm : sys.state.multiZone = true <;> by_cases ht : dom.zoneToggle = true <;>
    simp_all

/-- C8 fails on the code when the zone checkbox and `state.multiZone` disagree.  On the page
as loaded (`state.multiZone = false`) with the checkbox checked and the zone field holding
`0`, `validateEmployees` skips the zone check, and `runAllTests` then reads the checkbox:
the run proceeds to `'testing'` with `state.multiZone = true` and `state.zoneUserCount = 0`,
the effective user count is 0, and the per-user bandwidth of a 120 Mbps download is
`Infinity`. -/
theorem zone_count_zero_accepted :
    initialSys.state.multiZone = false
    ∧ validateEmployees initialSys.state unsyncedZoneForm = true
    ∧ (runAllTests initialSys unsyncedZoneForm 0).state.phase = .testing
    ∧ (runAllTests initialSys unsyncedZoneForm 0).state.multiZone = true
    ∧ (runAllTests initialSys unsyncedZoneForm 0).state.zoneUserCount = 0
    ∧ getEffectiveUserCount (runAllTests initialSys unsyncedZoneForm 0).state = 0
    ∧ (exec initialSys
        [.runClick unsyncedZoneForm 0,
         .probeDone 0 (.ok (.latency goodLatency)),
         .probeDone 0 (.ok (.packetloss goodPacketLoss)),
         .probeDone 0 (.ok (.download (.fin 120))),
         .probeDone 0 (.ok (.upload (.fin 60))),
         .probeDone 0 (.ok (.dns goodDns)),
         .probeDone 0 (.ok (.consistency goodConsistency))]).state.results.mbpsPerEmployee
        = .num .posInf
    ∧ (exec initialSys
        [.runClick unsyncedZoneForm 0,
         .probeDone 0 (.ok (.latency goodLatency)),
         .probeDone 0 (.ok (.packetloss goodPacketLoss)),
         .probeDone 0 (.ok (.download (.fin 120))),
         .probeDone 0 (.ok (.upload (.fin 60))),
         .probeDone 0 (.ok (.dns goodDns)),
         .probeDone 0 (.ok (.consistency goodConsistency))]).state.results.effectiveUserCount
        = lit 0 := by
  have hdiv : roundTo 100 ((JsNum.fin 120).divInt 0) = .posInf := by decide!
  simp [exec, unsyncedZoneForm, step, initialSys, runAllTests,
    validateEmployees, getEmployeeCount, getZoneUserCount,
    (by decide : parseInt "25" = some 25), (by decide : parseInt "0" = some 0),
    (by decide : jsTrim "" = ""), continueLoop, phaseLoop, PHASES, resumeProbe, tryPhase,
    assignProbe, afterLoop, jitterPhase_eq, perEmployeePhase, fillPerEmployee,
    getEffectiveUserCount, JsVal.truthy, roundTo_120, hdiv, JsVal.toNumber]

/-- C9 fails on the code.  A run is started and cancelled while its first latency request is
pending; after 500 ms the fallback timer sets `state.phase = 'setup'` although the first
invocation has not returned, so a second click passes the guard of `runAllTests`, which
resets `state.aborted` and `state.results`.  Two invocations are then in flight; when the
request of the first one completes it sees `state.aborted = false`, goes on, and writes
into the accumulator of the second, which the second overwrites in turn. -/
theorem two_runs_in_flight :
    feasible initialSys
      (overlappingRuns ++ [.probeDone 0 (.ok (.latency goodLatency)),
        .probeDone 1 (.ok (.latency slowLatency))]) = true
    ∧ inFlight (exec initialSys (overlappingRuns.take 3)) = 1
    ∧ (exec initialSys (overlappingRuns.take 3)).state.phase = .setup
    ∧ inFlight (exec initialSys overlappingRuns) = 2
    ∧ (exec initialSys overlappingRuns).runs
        = [{ pc := .awaitProbe 0, activated := [.latency] },
           { pc := .awaitProbe 0, activated := [.latency] }]
    ∧ (exec initialSys overlappingRuns).state.aborted = false
    ∧ (exec initialSys overlappingRuns).state.results = {}
    ∧ (exec initialSys
        (overlappingRuns ++ [.probeDone 0 (.ok (.latency goodLatency))])).state.results.latencyMs
        = lit 8
    ∧ (exec initialSys (overlappingRuns ++ [.probeDone 0 (.ok (.latency goodLatency))])).runs
        = [{ pc := .awaitProbe 2, activated := [.latency, .jitter, .packetloss] },
           { pc := .awaitProbe 0, activated := [.latency] }]
    ∧ (exec initialSys
        (overlappingRuns ++ [.probeDone 0 (.ok (.latency goodLatency)),
          .probeDone 1 (.ok (.latency slowLatency))])).state.results.latencyMs = lit 40
    ∧ inFlight (exec initialSys
        (overlappingRuns ++ [.probeDone 0 (.ok (.latency goodLatency)),
          .probeDone 1 (.ok (.latency slowLatency))])) = 2 := by
  have hL : goodLatency.latencyMs = .fin 8 := rfl
  have hL2 : slowLatency.latencyMs = .fin 40 := rfl
  simp [exec, feasible, enabled, overlappingRuns, inFlight, step, initialSys, runAllTests,
    validateEmployees, getEmployeeCount, getZoneUserCount,
    (by decide : parseInt "25" = some 25), (by decide : parseInt "10" = some 10),
    (by decide : jsTrim "" = ""), continueLoop, phaseLoop, PHASES, resumeProbe, tryPhase,
    assignProbe, afterLoop, jitterPhase_eq, hL, hL2, lit]

/-- C5 fails on the code when another invocation of `runAllTests` overlaps the run, which the
fallback timer of the cancel button allows (the defect of C9).  A run is cancelled and
invocation 1 is started within 500 ms; the timer of the cancel then fires and shows the setup
view.  Invocation 1 completes its latency and packet-loss phases; the run button is clicked
again and the third invocation resets `state.results`.  The abort flag is never set while
invocation 1 is under way, no probe fails, all eight phases are attempted and the run ends
with `state.phase = 'results'`; but `computeScores` is called on a record in which
`latencyMs`, `jitterMs` and `packetLossPct` are unset, and grades the three metrics poor
(overall score 65). -/
theorem stale_timer_run_scores_unset_fields :
    feasible initialSys staleTimerRun = true
    ∧ (exec initialSys (staleTimerRun.take 4)).runs[1]?
        = some { pc := .awaitProbe 0, activated := [.latency] }
    ∧ (List.range 11).all (fun k =>
        !(exec initialSys (staleTimerRun.take (k + 4))).state.aborted) = true
    ∧ (exec initialSys (staleTimerRun.take 7)).state.results.latencyMs = lit 8
    ∧ (exec initialSys (staleTimerRun.take 7)).state.results.jitterMs = lit 3
    ∧ (exec initialSys (staleTimerRun.take 7)).state.results.packetLossPct = lit 0
    ∧ (exec initialSys (staleTimerRun.take 8)).state.results = {}
    ∧ (exec initialSys staleTimerRun).runs[1]?
        = some { pc := .returned, activated := PHASES, scored := true }
    ∧ (exec initialSys staleTimerRun).state.phase = .results
    ∧ (exec initialSys staleTimerRun).state.results.latencyMs = .undefined
    ∧ (exec initialSys staleTimerRun).state.results.jitterMs = .undefined
    ∧ (exec initialSys staleTimerRun).state.results.packetLossPct = .undefined
    ∧ (exec initialSys staleTimerRun).state.results.downloadMbps = lit 120
    ∧ (exec initialSys staleTimerRun).state.results.uploadMbps = lit 60
    ∧ (exec initialSys staleTimerRun).state.results.dnsMs = lit 15
    ∧ (exec initialSys staleTimerRun).state.results.consistencyPct = lit 98
    ∧ (exec initialSys staleTimerRun).state.scores
        = some (computeScores (exec initialSys staleTimerRun).state.results).1
    ∧ (exec initialSys staleTimerRun).state.scores
        = some ⟨.excellent, .excellent, .poor, .poor, .poor, .excellent, .excellent⟩
    ∧ (exec initialSys staleTimerRun).state.overallScore = 65 := by
  refine ⟨by decide!, by decide!, by decide!, by decide!, by decide!, by decide!, by decide!,
    by decide!, by decide!, by decide!, by decide!, by decide!, by decide!, by decide!,
    by decide!, by decide!, by decide!, by decide!, by decide!⟩

/-- C10. Calling `runAllTests` while `state.phase = 'testing'` is a no-op: no field of
`state` changes, no invocation is added, and no probe or ISP lookup is started. -/
theorem runAllTests_noop_while_testing (sys : Sys) (dom : Dom) (now : ℕ)
    (h : sys.state.phase = .testing) :
    runAllTests sys dom now = sys
    ∧ step sys (.runClick dom now) = sys
    ∧ (runAllTests sys dom now).state = sys.state
    ∧ (runAllTests sys dom now).runs = sys.runs
    ∧ (runAllTests sys dom now).probesStarted = sys.probesStarted
    ∧ (runAllTests sys dom now).ispLookups = sys.ispLookups := by
  have key : runAllTests sys dom now = sys := by simp [runAllTests, h]
  exact ⟨key, key, by rw [key], by rw [key], by rw [key], by rw [key]⟩

/-- Witness of C10: a second click on the run button while the first run awaits its latency
probe changes nothing. -/
theorem runAllTests_noop_while_testing_witness :
    (runAllTests initialSys {} 0).state.phase = .testing
    ∧ runAllTests (runAllTests initialSys {} 0) { employeeCount := "40" } 1
        = runAllTests initialSys {} 0 := by
  have h : (runAllTests initialSys {} 0).state.phase = .testing := by
    rw [runAllTests_stage initialSys {} 0 (by decide) (by decide)]
    rfl
  exact ⟨h, (runAllTests_noop_while_testing _ { employeeCount := "40" } 1 h).1⟩

/-! ## Double-precision arithmetic: lemmas -/


theorem roundHalfEven_near (q : ℚ) : |(roundHalfEven q : ℚ) - q| ≤ 1 / 2 := by
  have h1 := Int.floor_le q
  have h2 := Int.lt_floor_add_one q
  unfold roundHalfEven
  split_ifs with a b c
  · rw [abs_le]; constructor <;> linarith
  · rw [abs_le]; push_cast; constructor <;> linarith
  · rw [abs_le]; constructor <;> linarith
  · rw [abs_le]; push_cast; constructor <;> linarith

theorem binExpBits_lower (q : ℚ) : ∀ (i : ℕ) (e : ℤ),
    binExpBits q i e = e ∨ (2 : ℚ) ^ binExpBits q i e ≤ q
  | 0, e => Or.inl rfl
  | i + 1, e => by
    unfold binExpBits
    split_ifs with h
    · rcases binExpBits_lower q i (e + 2 ^ i) with h1 | h1
      · right; rw [h1]; exact h
      · right; exact h1
    · exact binExpBits_lower q i e

theorem binExpBits_upper (q : ℚ) : ∀ (i : ℕ) (e : ℤ), q < (2 : ℚ) ^ (e + 2 ^ i) →
    q < (2 : ℚ) ^ (binExpBits q i e + 1)
  | 0, e, h => by simpa [binExpBits] using h
  | i + 1, e, h => by
    unfold binExpBits
    split_ifs with hc
    · apply binExpBits_upper q i (e + 2 ^ i)
      have : e + 2 ^ i + 2 ^ i = e + 2 ^ (i + 1) := by ring
      rw [this]; exact h
    · exact binExpBits_upper q i e (not_le.mp hc)

theorem binExpBits_stay (q : ℚ) (e : ℤ) (h : q < (2 : ℚ) ^ (e + 1)) :
    ∀ i : ℕ, binExpBits q i e = e
  | 0 => rfl
  | i + 1 => by
    unfold binExpBits
    have hc : ¬ (2 : ℚ) ^ (e + 2 ^ i) ≤ q := by
      rw [not_le]
      refine lt_of_lt_of_le h (zpow_le_zpow_right₀ (by norm_num) ?_)
      have : (1 : ℤ) ≤ 2 ^ i := one_le_pow₀ (by norm_num)
      linarith
    rw [if_neg hc]
    exact binExpBits_stay q e h i

theorem binExpBits_ge (q : ℚ) : ∀ (i : ℕ) (e : ℤ), e ≤ binExpBits q i e
  | 0, e => le_refl e
  | i + 1, e => by
    unfold binExpBits
    split_ifs with h
    · have := binExpBits_ge q i (e + 2 ^ i)
      have h2 : (0 : ℤ) < 2 ^ i := by positivity
      linarith
    · exact binExpBits_ge q i e

theorem roundoff_pos : 0 < roundoff := by unfold roundoff; positivity

theorem underflow_pos : 0 < underflow := by unfold underflow; positivity

/-- The unit in the last place at `q` is at most `2 |q| u + 2 η`. -/
theorem ulp_half_le (q : ℚ) :
    (2 : ℚ) ^ ulpExp q / 2 ≤ |q| * roundoff + underflow := by
  unfold ulpExp
  by_cases h : (-1022 : ℤ) ≤ binExp q
  · rw [max_eq_left h]
    have hne : binExp q ≠ -1075 := by omega
    have hlow : (2 : ℚ) ^ binExp q ≤ |q| := by
      rcases binExpBits_lower |q| 12 (-1075) with h1 | h1
      · exact absurd h1 hne
      · exact h1
    have : (2 : ℚ) ^ (binExp q - 52) / 2 = (2 : ℚ) ^ binExp q * roundoff := by
      rw [zpow_sub₀ (by norm_num : (2 : ℚ) ≠ 0)]
      unfold roundoff
      norm_num
      ring
    rw [this]
    have := mul_le_mul_of_nonneg_right hlow roundoff_pos.le
    linarith [underflow_pos]
  · rw [max_eq_right (by omega)]
    have : (2 : ℚ) ^ ((-1022 : ℤ) - 52) / 2 = underflow := by
      unfold underflow
      norm_num [zpow_neg]
    rw [this]
    have := mul_nonneg (abs_nonneg q) roundoff_pos.le
    linarith

/-- Rounding a real of magnitude at most `2 ^ 1023` gives a finite double, with relative
error at most `2 ^ -53` or absolute error at most `2 ^ -1075`. -/
theorem toDouble_fin (q : ℚ) (hq : |q| ≤ 2 ^ 1023) :
    ∃ r : ℚ, toDouble q = .fin r ∧ |r - q| ≤ |q| * roundoff + underflow := by
  have hU : (0 : ℚ) < 2 ^ ulpExp q := zpow_pos (by norm_num) _
  have hnear := roundHalfEven_near (q / 2 ^ ulpExp q)
  have herr : |(roundHalfEven (q / 2 ^ ulpExp q) : ℚ) * 2 ^ ulpExp q - q|
      ≤ |q| * roundoff + underflow := by
    have h1 : (roundHalfEven (q / 2 ^ ulpExp q) : ℚ) * 2 ^ ulpExp q - q
        = ((roundHalfEven (q / 2 ^ ulpExp q) : ℚ) - q / 2 ^ ulpExp q) * 2 ^ ulpExp q := by
      field_simp
    rw [h1, abs_mul, abs_of_pos hU]
    have h2 := mul_le_mul_of_nonneg_right hnear hU.le
    have h3 := ulp_half_le q
    linarith
  refine ⟨(roundHalfEven (q / 2 ^ ulpExp q) : ℚ) * 2 ^ ulpExp q, ?_, herr⟩
  unfold toDouble
  dsimp only
  rw [if_neg]
  rw [not_le]
  have h4 : |(roundHalfEven (q / 2 ^ ulpExp q) : ℚ) * 2 ^ ulpExp q|
      ≤ |q| + (|q| * roundoff + underflow) := by
    have := abs_sub_abs_le_abs_sub ((roundHalfEven (q / 2 ^ ulpExp q) : ℚ) * 2 ^ ulpExp q) q
    linarith
  have h5 : |q| * roundoff ≤ 2 ^ 1023 * roundoff :=
    mul_le_mul_of_nonneg_right hq roundoff_pos.le
  have h6 : (2 : ℚ) ^ 1023 + (2 ^ 1023 * roundoff + underflow) < 2 ^ 1024 := by
    unfold roundoff underflow
    norm_num
  linarith


theorem roundHalfEven_nonneg (q : ℚ) (h : 0 ≤ q) : 0 ≤ roundHalfEven q := by
  have h1 : 0 ≤ ⌊q⌋ := Int.floor_nonneg.mpr h
  unfold roundHalfEven
  split_ifs <;> omega

theorem roundHalfEven_pos (q : ℚ) (h : 1 ≤ q) : 1 ≤ roundHalfEven q := by
  have h1 : 1 ≤ ⌊q⌋ := Int.le_floor.mpr (by exact_mod_cast h)
  unfold roundHalfEven
  split_ifs <;> omega

/-- Rounding keeps the sign. -/
theorem toDouble_nonneg (q r : ℚ) (h : 0 ≤ q) (hr : toDouble q = .fin r) : 0 ≤ r := by
  unfold toDouble at hr
  dsimp only at hr
  split_ifs at hr
  simp only [JsNum.fin.injEq] at hr
  rw [← hr]
  have hU : (0 : ℚ) < 2 ^ ulpExp q := zpow_pos (by norm_num) _
  have := roundHalfEven_nonneg (q / 2 ^ ulpExp q) (div_nonneg h hU.le)
  have h2 : (0 : ℚ) ≤ (roundHalfEven (q / 2 ^ ulpExp q) : ℚ) := by exact_mod_cast this
  positivity

theorem ulpExp_ge (q : ℚ) : -1074 ≤ ulpExp q := by
  unfold ulpExp
  have := le_max_right (binExp q) (-1022)
  omega

/-- A positive double is at least the smallest subnormal, `2 ^ -1074`. -/
theorem toDouble_pos_ge (q r : ℚ) (hr : toDouble q = .fin r) (hpos : 0 < r) :
    (1 : ℚ) / 2 ^ 1074 ≤ r := by
  unfold toDouble at hr
  dsimp only at hr
  split_ifs at hr
  simp only [JsNum.fin.injEq] at hr
  have hU : (0 : ℚ) < 2 ^ ulpExp q := zpow_pos (by norm_num) _
  have hk : (0 : ℚ) < (roundHalfEven (q / 2 ^ ulpExp q) : ℚ) := by
    by_contra hc
    rw [not_lt] at hc
    have := mul_nonpos_of_nonpos_of_nonneg hc hU.le
    rw [hr] at this
    linarith
  have hk1 : (1 : ℚ) ≤ (roundHalfEven (q / 2 ^ ulpExp q) : ℚ) := by
    have : (0 : ℤ) < roundHalfEven (q / 2 ^ ulpExp q) := by exact_mod_cast hk
    exact_mod_cast this
  have hU2 : (1 : ℚ) / 2 ^ 1074 ≤ 2 ^ ulpExp q := by
    have h1 : (2 : ℚ) ^ (-1074 : ℤ) ≤ 2 ^ ulpExp q :=
      zpow_le_zpow_right₀ (by norm_num) (ulpExp_ge q)
    have h2 : (2 : ℚ) ^ (-1074 : ℤ) = 1 / 2 ^ 1074 := by
      rw [zpow_neg]; norm_num
    rw [← h2]; exact h1
  rw [← hr]
  calc (1 : ℚ) / 2 ^ 1074 ≤ 2 ^ ulpExp q := hU2
    _ = 1 * 2 ^ ulpExp q := by ring
    _ ≤ (roundHalfEven (q / 2 ^ ulpExp q) : ℚ) * 2 ^ ulpExp q :=
        mul_le_mul_of_nonneg_right hk1 hU.le

theorem isqrtBits_spec (n : ℕ) : ∀ (k r : ℕ), r * r ≤ n → n < (r + 2 ^ k) * (r + 2 ^ k) →
    isqrtBits n k r * isqrtBits n k r ≤ n
      ∧ n < (isqrtBits n k r + 1) * (isqrtBits n k r + 1)
  | 0, r, h1, h2 => by simpa [isqrtBits] using ⟨h1, h2⟩
  | k + 1, r, h1, h2 => by
    unfold isqrtBits
    split_ifs with hc
    · apply isqrtBits_spec n k (r + 2 ^ k) hc
      have : r + 2 ^ k + 2 ^ k = r + 2 ^ (k + 1) := by ring
      rw [this]; exact h2
    · exact isqrtBits_spec n k r h1 (not_le.mp hc)

/-- The square root of a positive double is accurate to a relative error of `2 ^ -51` on the
square. -/
theorem sqrtDouble_sq (q : ℚ) (hlo : (1 : ℚ) / 2 ^ 1075 ≤ q) (hhi : q < 2 ^ 1024) :
    0 ≤ sqrtDouble q
    ∧ q * (1 - 1 / 2 ^ 50) ≤ sqrtDouble q ^ 2
    ∧ sqrtDouble q ^ 2 ≤ q * (1 + 1 / 2 ^ 50) := by
  have hq0 : 0 < q := lt_of_lt_of_le (by positivity) hlo
  have habs : |q| = q := abs_of_pos hq0
  have hlow : (2 : ℚ) ^ binExp q ≤ q := by
    rcases binExpBits_lower |q| 12 (-1075) with h1 | h1
    · unfold binExp
      rw [h1, zpow_neg]
      norm_num
      linarith
    · exact le_of_le_of_eq h1 habs
  have hupp : q < (2 : ℚ) ^ (binExp q + 1) := by
    have := binExpBits_upper |q| 12 (-1075) (by
      rw [habs]
      refine lt_of_lt_of_le hhi ?_
      norm_num)
    exact lt_of_eq_of_lt habs.symm this
  unfold sqrtDouble
  dsimp only
  set e := binExp q with he
  set g : ℤ := e / 2 - 52 with hg
  have hU : (0 : ℚ) < 2 ^ (2 * g) := zpow_pos (by norm_num) _
  set t : ℚ := q / 2 ^ (2 * g) with ht
  have hqt : q = t * 2 ^ (2 * g) := by rw [ht]; field_simp
  have ht1 : (2 : ℚ) ^ (104 : ℕ) ≤ t := by
    rw [ht, le_div_iff₀ hU]
    have h1 : (2 : ℚ) ^ (104 : ℕ) * 2 ^ (2 * g) = 2 ^ (104 + 2 * g) := by
      rw [zpow_add₀ (by norm_num : (2 : ℚ) ≠ 0)]; norm_num
    rw [h1]
    refine le_trans (zpow_le_zpow_right₀ (by norm_num) ?_) hlow
    omega
  have ht2 : t < (2 : ℚ) ^ (106 : ℕ) := by
    rw [ht, div_lt_iff₀ hU]
    have h1 : (2 : ℚ) ^ (106 : ℕ) * 2 ^ (2 * g) = 2 ^ (106 + 2 * g) := by
      rw [zpow_add₀ (by norm_num : (2 : ℚ) ≠ 0)]; norm_num
    rw [h1]
    refine lt_of_lt_of_le hupp (zpow_le_zpow_right₀ (by norm_num) ?_)
    omega
  set N : ℕ := ⌊4 * t⌋.toNat with hN
  have h4t : (0 : ℚ) ≤ 4 * t := by linarith [show (0 : ℚ) ≤ 2 ^ (104 : ℕ) by positivity]
  have hfl : (0 : ℤ) ≤ ⌊4 * t⌋ := Int.floor_nonneg.mpr h4t
  have hNc : ((N : ℤ) : ℚ) = (⌊4 * t⌋ : ℚ) := by
    rw [hN, Int.toNat_of_nonneg hfl]
  have hN1 : (N : ℚ) ≤ 4 * t := by
    have := Int.floor_le (4 * t)
    rw [← hNc] at this; exact_mod_cast this
  have hN2 : 4 * t < (N : ℚ) + 1 := by
    have := Int.lt_floor_add_one (4 * t)
    rw [← hNc] at this; exact_mod_cast this
  have hNlt : N < (0 + 2 ^ 54) * (0 + 2 ^ 54) := by
    have h1 : (N : ℚ) < 2 ^ (108 : ℕ) := by
      have h108 : (2 : ℚ) ^ (108 : ℕ) = 4 * 2 ^ (106 : ℕ) := by norm_num
      rw [h108]
      linarith
    have h2 : N < 2 ^ 108 := by exact_mod_cast h1
    calc N < 2 ^ 108 := h2
      _ = (0 + 2 ^ 54) * (0 + 2 ^ 54) := by norm_num
  obtain ⟨hm1, hm2⟩ := isqrtBits_spec N 54 0 (Nat.zero_le _) hNlt
  set m := isqrtBits N 54 0 with hm
  set n : ℕ := (m + 1) / 2 with hn
  have hn1 : 2 * n ≤ m + 1 := by omega
  have hn2 : m ≤ 2 * n := by omega
  clear_value n m N
  have hmlt : m < 2 ^ 54 := by
    by_contra hc
    rw [not_lt] at hc
    have := Nat.mul_le_mul hc hc
    have h3 : N < 2 ^ 54 * 2 ^ 54 := by simpa using hNlt
    omega
  -- the bounds in ℚ
  have hm1q : (m : ℚ) * m ≤ 4 * t := by
    have : ((m * m : ℕ) : ℚ) ≤ (N : ℚ) := by exact_mod_cast hm1
    push_cast at this; linarith
  have hm2q : 4 * t < ((m : ℚ) + 1) * (m + 1) := by
    have : (N : ℚ) + 1 ≤ (((m + 1) * (m + 1) : ℕ) : ℚ) := by exact_mod_cast hm2
    push_cast at this; linarith
  have hn1q : 2 * (n : ℚ) ≤ m + 1 := by exact_mod_cast hn1
  have hn2q : (m : ℚ) ≤ 2 * n := by exact_mod_cast hn2
  have hmltq : (m : ℚ) < 2 ^ (54 : ℕ) := by exact_mod_cast hmlt
  have hm0 : (0 : ℚ) ≤ m := Nat.cast_nonneg m
  have hn0 : (0 : ℚ) ≤ n := Nat.cast_nonneg n
  have hsq : ((n : ℚ) * 2 ^ g) ^ 2 = (n : ℚ) ^ 2 * 2 ^ (2 * g) := by
    have : (2 : ℚ) ^ (2 * g) = 2 ^ g * 2 ^ g := by
      rw [← zpow_add₀ (by norm_num : (2 : ℚ) ≠ 0)]
      congr 1
      ring
    rw [this]
    ring
  have h3 : 2 * (m : ℚ) + 1 ≤ 4 * t * (1 / 2 ^ 50) := by
    have hA : (2 : ℚ) ^ (56 : ℕ) ≤ 4 * t * (1 / 2 ^ 50) := by
      have h56 : (2 : ℚ) ^ (56 : ℕ) = 2 ^ (104 : ℕ) * (4 * (1 / 2 ^ 50)) := by norm_num
      rw [h56]
      have := mul_le_mul_of_nonneg_right ht1 (show (0 : ℚ) ≤ 4 * (1 / 2 ^ 50) by positivity)
      linarith
    have hB : (2 : ℚ) ^ (56 : ℕ) = 4 * 2 ^ (54 : ℕ) := by norm_num
    have hC : (1 : ℚ) ≤ 2 ^ (54 : ℕ) := one_le_pow₀ (by norm_num)
    linarith
  have hup : 4 * (n : ℚ) ^ 2 ≤ 4 * t * (1 + 1 / 2 ^ 50) := by
    have h1 : 4 * (n : ℚ) ^ 2 ≤ ((m : ℚ) + 1) * (m + 1) := by
      calc 4 * (n : ℚ) ^ 2 = (2 * n) * (2 * n) := by ring
        _ ≤ ((m : ℚ) + 1) * (m + 1) :=
          mul_le_mul hn1q hn1q (by linarith) (by linarith)
    have h2 : ((m : ℚ) + 1) * (m + 1) = m * m + 2 * m + 1 := by ring
    linarith
  have hdown : 4 * t * (1 - 1 / 2 ^ 50) ≤ 4 * (n : ℚ) ^ 2 := by
    have h1 : (m : ℚ) * m ≤ 4 * (n : ℚ) ^ 2 := by
      calc (m : ℚ) * m ≤ (2 * n) * (2 * n) := mul_le_mul hn2q hn2q hm0 (by linarith)
        _ = 4 * (n : ℚ) ^ 2 := by ring
    have h2 : ((m : ℚ) + 1) * (m + 1) = m * m + 2 * m + 1 := by ring
    linarith
  refine ⟨mul_nonneg hn0 (zpow_pos (by norm_num) _).le, ?_, ?_⟩
  · rw [hsq]
    have h1 := mul_le_mul_of_nonneg_right hdown hU.le
    have h2 : q * (1 - 1 / 2 ^ 50) = t * 2 ^ (2 * g) * (1 - 1 / 2 ^ 50) := by rw [← hqt]
    rw [h2]
    linarith
  · rw [hsq]
    have h1 := mul_le_mul_of_nonneg_right hup hU.le
    have h2 : q * (1 + 1 / 2 ^ 50) = t * 2 ^ (2 * g) * (1 + 1 / 2 ^ 50) := by rw [← hqt]
    rw [h2]
    linarith


theorem abs_le_add_of_near {a b e : ℚ} (h : |a - b| ≤ e) : |a| ≤ |b| + e := by
  have := abs_sub_abs_le_abs_sub a b
  linarith

theorem JsNum.mul_fin (a b : ℚ) : (JsNum.fin a).mul (.fin b) = toDouble (a * b) := rfl

theorem JsNum.div_fin (a b : ℚ) (h : b ≠ 0) :
    (JsNum.fin a).div (.fin b) = toDouble (a / b) := by
  simp [JsNum.div, h]

theorem mathRound_near (q : ℚ) : |(mathRound q : ℚ) - q| ≤ 1 / 2 := by
  unfold mathRound
  have h1 := Int.floor_le (q + 1 / 2)
  have h2 := Int.lt_floor_add_one (q + 1 / 2)
  rw [abs_le]
  constructor <;> linarith

/-- The expression `Math.round(x * K) / K` on a finite double `x` that is not huge: the
result is the double nearest to `k / K` for an integer `k`, and it differs from `x` by at
most `1 / (2 K)`, up to double rounding. -/
theorem roundTo_near (K : ℕ) (hK1 : 1 ≤ K) (hK2 : K ≤ 100) (x : ℚ) (hx : |x| ≤ 2 ^ 1000) :
    ∃ (k : ℤ) (m : ℚ), roundTo K (.fin x) = .fin m
      ∧ toDouble ((k : ℚ) / K) = .fin m
      ∧ |m - x| ≤ 1 / (2 * (K : ℚ)) + (|x| + 1) / 2 ^ 50 := by
  obtain ⟨κ, hκ⟩ : ∃ κ : ℚ, κ = (K : ℚ) := ⟨_, rfl⟩
  have hκ1 : (1 : ℚ) ≤ κ := by rw [hκ]; exact_mod_cast hK1
  have hκ2 : κ ≤ 100 := by rw [hκ]; exact_mod_cast hK2
  have hκ0 : 0 < κ := by linarith
  have hA : 0 ≤ |x| := abs_nonneg x
  -- the product
  have hxκ : |x * κ| ≤ |x| * 100 := by
    rw [abs_mul, abs_of_pos hκ0]
    exact mul_le_mul_of_nonneg_left hκ2 hA
  obtain ⟨x2, hx2, hx2e⟩ := toDouble_fin (x * κ) (by
    have : (2 : ℚ) ^ 1000 * 100 ≤ 2 ^ 1023 := by norm_num
    linarith)
  -- divided by `κ`
  obtain ⟨w, hw⟩ : ∃ w : ℚ, w = x2 / κ := ⟨_, rfl⟩
  have hwx : |w - x| ≤ |x| * roundoff + underflow := by
    have e : w - x = (x2 - x * κ) / κ := by rw [hw]; field_simp; ring
    rw [e, abs_div, abs_of_pos hκ0, div_le_iff₀ hκ0]
    have h1 : |x * κ| * roundoff + underflow ≤ (|x| * roundoff + underflow) * κ := by
      rw [abs_mul, abs_of_pos hκ0]
      have h2 : 0 ≤ underflow * (κ - 1) := mul_nonneg underflow_pos.le (by linarith)
      nlinarith
    linarith
  -- the rounded integer
  have hk := mathRound_near x2
  obtain ⟨t, ht⟩ : ∃ t : ℚ, t = (mathRound x2 : ℚ) / κ := ⟨_, rfl⟩
  obtain ⟨c, hc⟩ : ∃ c : ℚ, c = 1 / (2 * κ) := ⟨_, rfl⟩
  have h2κ : 0 < 2 * κ := by linarith
  have hcκ : c * κ = 1 / 2 := by rw [hc]; field_simp; ring
  have hc0 : 0 < c := by rw [hc]; exact div_pos one_pos h2κ
  have hc1 : c ≤ 1 / 2 := by
    have : c * 1 ≤ c * κ := mul_le_mul_of_nonneg_left hκ1 hc0.le
    linarith
  have htw : |t - w| ≤ c := by
    have e : t - w = ((mathRound x2 : ℚ) - x2) / κ := by rw [ht, hw]; field_simp
    rw [e, abs_div, abs_of_pos hκ0, div_le_iff₀ hκ0, hcκ]
    exact hk
  have hwa := abs_le_add_of_near hwx
  have hta := abs_le_add_of_near htw
  have htm : |t| ≤ 2 ^ 1023 := by
    unfold roundoff underflow at hwa
    norm_num at hwa ⊢
    linarith
  obtain ⟨m, hm, hme⟩ := toDouble_fin t htm
  refine ⟨mathRound x2, m, ?_, ?_, ?_⟩
  · have e2 : (JsNum.fin x).mul (.fin (K : ℚ)) = .fin x2 := by
      rw [JsNum.mul_fin, ← hκ, hx2]
    have e3 : (JsNum.fin ((mathRound x2 : ℤ) : ℚ)).div (.fin (K : ℚ)) = .fin m := by
      rw [JsNum.div_fin _ _ (by rw [← hκ]; exact hκ0.ne'), ← hκ, ← ht, hm]
    rw [roundTo, e2, JsNum.round, e3]
  · rw [← hκ, ← ht, hm]
  · have t1 : m - x = (m - t) + (t - w) + (w - x) := by ring
    have t2 : |m - x| ≤ |m - t| + |t - w| + |w - x| := by
      rw [t1]
      have a1 := abs_add ((m - t) + (t - w)) (w - x)
      have a2 := abs_add (m - t) (t - w)
      linarith
    rw [← hκ, ← hc]
    unfold roundoff underflow at hwx hwa hme
    norm_num at hwx hwa hme ⊢
    linarith

/-- The per-user bandwidth `Math.round(q / n * 100) / 100` of a finite download value and a
non-zero count is the double nearest to a multiple of one hundredth, within 0.005 (up to
double rounding) of the exact quotient. -/
theorem roundTo_divInt_near (q : ℚ) (n : ℤ) (hq : |q| ≤ 2 ^ 999) (hn : n ≠ 0) :
    ∃ (k : ℤ) (m : ℚ), roundTo 100 ((JsNum.fin q).divInt n) = .fin m
      ∧ toDouble ((k : ℚ) / 100) = .fin m
      ∧ |m - q / n| ≤ 1 / 200 + (|q / n| + 1) / 2 ^ 49 := by
  have hnq : (n : ℚ) ≠ 0 := by exact_mod_cast hn
  have hn1 : (1 : ℚ) ≤ |(n : ℚ)| := by
    have : (1 : ℤ) ≤ |n| := Int.one_le_abs hn
    exact_mod_cast this
  have hx : |q / n| ≤ 2 ^ 999 := by
    rw [abs_div]
    calc |q| / |(n : ℚ)| ≤ |q| / 1 := div_le_div_of_nonneg_left (abs_nonneg q) one_pos hn1
      _ = |q| := div_one _
      _ ≤ 2 ^ 999 := hq
  obtain ⟨x, hxdef⟩ : ∃ x : ℚ, x = q / n := ⟨_, rfl⟩
  rw [← hxdef] at hx ⊢
  have hA : 0 ≤ |x| := abs_nonneg x
  obtain ⟨x1, hx1, hx1e⟩ := toDouble_fin x (le_trans hx (by norm_num))
  have hx1a := abs_le_add_of_near hx1e
  have hx1m : |x1| ≤ 2 ^ 1000 := by
    unfold roundoff underflow at hx1a
    norm_num at hx1a hx ⊢
    linarith
  obtain ⟨k, m, h1, h2, h3⟩ := roundTo_near 100 (by norm_num) (by norm_num) x1 hx1m
  refine ⟨k, m, ?_, by exact_mod_cast h2, ?_⟩
  · have e1 : (JsNum.fin q).divInt n = .fin x1 := by
      rw [JsNum.divInt, JsNum.div_fin _ _ hnq, ← hxdef, hx1]
    rw [e1, h1]
  · have t1 : m - x = (m - x1) + (x1 - x) := by ring
    have t2 : |m - x| ≤ |m - x1| + |x1 - x| := by
      rw [t1]; exact abs_add _ _
    unfold roundoff underflow at hx1e hx1a
    norm_num at hx1e hx1a h3 t2 ⊢
    linarith

theorem JsNum.add_fin (a b : ℚ) : (JsNum.fin a).add (.fin b) = toDouble (a + b) := rfl

theorem JsNum.sub_fin (a b : ℚ) : (JsNum.fin a).sub (.fin b) = toDouble (a - b) := rfl

theorem JsNum.sq_fin (a : ℚ) : (JsNum.fin a).sq = toDouble (a * a) := rfl


/-- Rounding with a relative error bound: for `|x| ≤ B`, with `B` in the normal range, the
double differs from `x` by at most `B / 2 ^ 52`. -/
theorem toDouble_rel (x B : ℚ) (hx : |x| ≤ B) (hB : B ≤ 2 ^ 1023)
    (hη : (1 : ℚ) / 2 ^ 1075 ≤ B / 2 ^ 53) :
    ∃ r : ℚ, toDouble x = .fin r ∧ |r - x| ≤ B / 2 ^ 52 := by
  obtain ⟨r, hr, he⟩ := toDouble_fin x (le_trans hx hB)
  refine ⟨r, hr, ?_⟩
  unfold roundoff underflow at he
  have h1 : |x| * (1 / 2 ^ 53) ≤ B * (1 / 2 ^ 53) :=
    mul_le_mul_of_nonneg_right hx (by positivity)
  have h2 : B / 2 ^ 52 = B * (1 / 2 ^ 53) + B / 2 ^ 53 := by ring
  rw [h2]
  linarith

theorem mul_self_le_of_abs_le {d B : ℚ} (h : |d| ≤ B) : d * d ≤ B * B :=
  calc d * d = |d| * |d| := (abs_mul_abs_self d).symm
    _ ≤ B * B := mul_le_mul h h (abs_nonneg d) (le_trans (abs_nonneg d) h)

theorem le_of_sq_le_sq {s w : ℚ} (hw : 0 ≤ w) (h : s ^ 2 ≤ w ^ 2) : s ≤ w := by
  by_contra hc
  rw [not_le] at hc
  have hs : 0 < s := lt_of_le_of_lt hw hc
  have h1 : w * w ≤ w * s := mul_le_mul_of_nonneg_left hc.le hw
  have h2 : w * s < s * s := mul_lt_mul_of_pos_right hc hs
  rw [sq, sq] at h
  linarith

theorem inRange_of_bounds (M : ℚ) (hM : (1 : ℚ) / 2 ^ 400 ≤ M) (hMhi : M ≤ 2 ^ 402) :
    InRange M := by
  have hM0 : 0 < M := lt_of_lt_of_le (by positivity) hM
  have hMM : M ^ 2 = M * M := sq M
  have hM2lo : (1 : ℚ) / 2 ^ 800 ≤ M ^ 2 := by
    have := mul_le_mul hM hM (by positivity) hM0.le
    rw [hMM]
    calc (1 : ℚ) / 2 ^ 800 = 1 / 2 ^ 400 * (1 / 2 ^ 400) := by norm_num
      _ ≤ M * M := this
  have hM2hi : M ^ 2 ≤ 2 ^ 804 := by
    have := mul_le_mul hMhi hMhi hM0.le (by positivity)
    rw [hMM]
    calc M * M ≤ 2 ^ 402 * 2 ^ 402 := this
      _ = 2 ^ 804 := by norm_num
  refine ⟨hM0, le_trans hMhi (by norm_num), le_trans hM2hi (by norm_num), ?_, ?_⟩
  · calc (1 : ℚ) / 2 ^ 1075 ≤ 1 / 2 ^ 400 / 2 ^ 600 := by norm_num
      _ ≤ M / 2 ^ 600 := div_le_div_of_nonneg_right hM (by positivity)
  · calc (1 : ℚ) / 2 ^ 1075 ≤ 1 / 2 ^ 800 / 2 ^ 200 := by norm_num
      _ ≤ M ^ 2 / 2 ^ 200 := div_le_div_of_nonneg_right hM2lo (by positivity)

/-- The mean of three non-negative samples in double arithmetic is within `M / 2 ^ 49` of the
exact mean `M / 3`. -/
theorem mean3_chain (a b c M : ℚ) (hMdef : M = a + b + c) (ha0 : 0 ≤ a) (hb0 : 0 ≤ b)
    (hc0 : 0 ≤ c) (hR : InRange M) :
    ∃ m : ℚ, jsMean [.fin a, .fin b, .fin c] = .fin m
      ∧ M / 3 - M / 2 ^ 49 ≤ m ∧ m ≤ M / 3 + M / 2 ^ 49 := by
  obtain ⟨hM0, hbig1, -, hη1, -⟩ := hR
  obtain ⟨a1, ha1, ea1⟩ := toDouble_rel (0 + a) M
    (by rw [zero_add, abs_of_nonneg ha0]; linarith) (by linarith) (by linarith)
  rw [zero_add, abs_le] at ea1
  obtain ⟨a2, ha2, ea2⟩ := toDouble_rel (a1 + b) (3 * M)
    (by rw [abs_le]; constructor <;> linarith) (by linarith) (by linarith)
  rw [abs_le] at ea2
  obtain ⟨a3, ha3, ea3⟩ := toDouble_rel (a2 + c) (4 * M)
    (by rw [abs_le]; constructor <;> linarith) (by linarith) (by linarith)
  rw [abs_le] at ea3
  obtain ⟨m, hm, em⟩ := toDouble_rel (a3 / 3) (2 * M)
    (by rw [abs_le]; constructor <;> linarith) (by linarith) (by linarith)
  rw [abs_le] at em
  refine ⟨m, ?_, by linarith, by linarith⟩
  have h3 : (([JsNum.fin a, JsNum.fin b, JsNum.fin c].length : ℕ) : ℚ) = 3 := by norm_num
  unfold jsMean
  simp only [List.foldl_cons, List.foldl_nil, h3]
  rw [JsNum.add_fin, ha1, JsNum.add_fin, ha2, JsNum.add_fin, ha3,
    JsNum.div_fin _ _ (by norm_num), hm]

/-- One squared deviation in double arithmetic: for a sample `x` within `[0, M]` and a computed
mean `m` within `M / 2 ^ 49` of `M / 3`, the double `(x - m) ** 2` is non-negative, at most
`5 M²`, and within `M² / 2 ^ 46` of the exact squared deviation. -/
theorem sq_dev_chain (M x m : ℚ) (hR : InRange M)
    (hx0 : 0 ≤ x) (hx1 : x ≤ M) (hm1 : M / 3 - M / 2 ^ 49 ≤ m) (hm2 : m ≤ M / 3 + M / 2 ^ 49) :
    ∃ q : ℚ, ((JsNum.fin x).sub (.fin m)).sq = .fin q ∧ 0 ≤ q ∧ q ≤ 5 * M ^ 2
      ∧ (x - M / 3) ^ 2 - M ^ 2 / 2 ^ 46 ≤ q ∧ q ≤ (x - M / 3) ^ 2 + M ^ 2 / 2 ^ 46 := by
  obtain ⟨hM0, hbig1, hbig2, hη1, hη2⟩ := hR
  have hM2 : 0 ≤ M ^ 2 := sq_nonneg M
  obtain ⟨d, hd, ed⟩ := toDouble_rel (x - m) (2 * M)
    (by rw [abs_le]; constructor <;> linarith) (by linarith) (by linarith)
  rw [abs_le] at ed
  -- the deviation `d` against the exact deviation `D`
  obtain ⟨D, hD⟩ : ∃ D : ℚ, D = x - M / 3 := ⟨_, rfl⟩
  have he1 : d - D ≤ M / 2 ^ 48 := by linarith
  have he2 : -(M / 2 ^ 48) ≤ d - D := by linarith
  have hD1 : |D| ≤ M := by
    rw [abs_le]; constructor <;> linarith
  have hdabs : |d| ≤ 2 * M := by
    rw [abs_le] at hD1 ⊢
    constructor <;> linarith
  have hdd : d * d ≤ 4 * M ^ 2 := by
    have := mul_self_le_of_abs_le hdabs
    have e : 2 * M * (2 * M) = 4 * M ^ 2 := by ring
    linarith
  have hdd0 : 0 ≤ d * d := mul_self_nonneg d
  -- `|d² - D²| ≤ 2 |D| |d - D| + |d - D|²`
  have h1 : |D * (d - D)| ≤ M * (M / 2 ^ 48) := by
    rw [abs_mul]
    exact mul_le_mul hD1 (abs_le.mpr ⟨he2, he1⟩) (abs_nonneg _) hM0.le
  rw [abs_le] at h1
  have h2 : d * d = D ^ 2 + 2 * (D * (d - D)) + (d - D) ^ 2 := by ring
  have h3 : 0 ≤ (d - D) ^ 2 := sq_nonneg _
  have h3' : (d - D) ^ 2 ≤ M ^ 2 / 2 ^ 96 := by
    have := mul_self_le_of_abs_le (abs_le.mpr ⟨he2, he1⟩)
    have e : M / 2 ^ 48 * (M / 2 ^ 48) = M ^ 2 / 2 ^ 96 := by ring
    rw [sq]
    linarith
  have h4 : M * (M / 2 ^ 48) = M ^ 2 / 2 ^ 48 := by ring
  obtain ⟨q, hq, eq⟩ := toDouble_rel (d * d) (4 * M ^ 2)
    (by rw [abs_of_nonneg hdd0]; exact hdd) (by linarith) (by linarith)
  have hq0 : 0 ≤ q := toDouble_nonneg _ _ hdd0 hq
  rw [abs_le] at eq
  refine ⟨q, ?_, hq0, by linarith, ?_, ?_⟩
  · rw [JsNum.sub_fin, hd, JsNum.sq_fin, hq]
  · rw [← hD]
    linarith [h1.1]
  · rw [← hD]
    linarith [h1.2]

/-- The variance of three non-negative samples in double arithmetic is non-negative and within
`M² / 2 ^ 44` of the exact population variance. -/
theorem variance3_chain (a b c M m : ℚ) (hMdef : M = a + b + c) (ha0 : 0 ≤ a) (hb0 : 0 ≤ b)
    (hc0 : 0 ≤ c) (hR : InRange M)
    (hm1 : M / 3 - M / 2 ^ 49 ≤ m) (hm2 : m ≤ M / 3 + M / 2 ^ 49) :
    ∃ var x : ℚ, jsVariance [.fin a, .fin b, .fin c] (.fin m) = .fin var
      ∧ toDouble x = .fin var
      ∧ 0 ≤ var ∧ var ≤ 17 * M ^ 2
      ∧ ((a - M / 3) ^ 2 + (b - M / 3) ^ 2 + (c - M / 3) ^ 2) / 3 - M ^ 2 / 2 ^ 44 ≤ var
      ∧ var ≤ ((a - M / 3) ^ 2 + (b - M / 3) ^ 2 + (c - M / 3) ^ 2) / 3 + M ^ 2 / 2 ^ 44 := by
  obtain ⟨qa, hqa, qa0, qa1, qa2, qa3⟩ :=
    sq_dev_chain M a m hR ha0 (by linarith) hm1 hm2
  obtain ⟨qb, hqb, qb0, qb1, qb2, qb3⟩ :=
    sq_dev_chain M b m hR hb0 (by linarith) hm1 hm2
  obtain ⟨qc, hqc, qc0, qc1, qc2, qc3⟩ :=
    sq_dev_chain M c m hR hc0 (by linarith) hm1 hm2
  obtain ⟨hM0, -, hbig2, -, hη2⟩ := hR
  have hM2 : 0 ≤ M ^ 2 := sq_nonneg M
  clear hm1 hm2 hMdef ha0 hb0 hc0
  obtain ⟨s1, hs1, es1⟩ := toDouble_rel (0 + qa) (8 * M ^ 2)
    (by rw [zero_add, abs_of_nonneg qa0]; linarith) (by linarith) (by linarith)
  have hs10 : 0 ≤ s1 := toDouble_nonneg _ _ (by linarith) hs1
  rw [zero_add, abs_le] at es1
  obtain ⟨s2, hs2, es2⟩ := toDouble_rel (s1 + qb) (16 * M ^ 2)
    (by rw [abs_of_nonneg (by linarith)]; linarith) (by linarith) (by linarith)
  have hs20 : 0 ≤ s2 := toDouble_nonneg _ _ (by linarith) hs2
  rw [abs_le] at es2
  obtain ⟨s3, hs3, es3⟩ := toDouble_rel (s2 + qc) (32 * M ^ 2)
    (by rw [abs_of_nonneg (by linarith)]; linarith) (by linarith) (by linarith)
  have hs30 : 0 ≤ s3 := toDouble_nonneg _ _ (by linarith) hs3
  rw [abs_le] at es3
  obtain ⟨var, hvar, evar⟩ := toDouble_rel (s3 / 3) (16 * M ^ 2)
    (by rw [abs_of_nonneg (by linarith)]; linarith) (by linarith) (by linarith)
  have hvar0 : 0 ≤ var := toDouble_nonneg _ _ (by linarith) hvar
  rw [abs_le] at evar
  refine ⟨var, s3 / 3, ?_, hvar, hvar0, by linarith, by linarith, by linarith⟩
  have h3 : (([JsNum.fin a, JsNum.fin b, JsNum.fin c].length : ℕ) : ℚ) = 3 := by norm_num
  unfold jsVariance
  simp only [List.foldl_cons, List.foldl_nil, h3]
  rw [hqa, hqb, hqc, JsNum.add_fin, hs1, JsNum.add_fin, hs2, JsNum.add_fin, hs3,
    JsNum.div_fin _ _ (by norm_num), hvar]

/-- The square root of a non-negative double that is not huge: finite, non-negative and
accurate to a relative error of `2 ^ -50` on the square. -/
theorem sqrt_chain (x var : ℚ) (hvar : toDouble x = .fin var) (h0 : 0 ≤ var)
    (h1 : var ≤ 2 ^ 1020) :
    ∃ s : ℚ, (JsNum.fin var).sqrt = .fin s ∧ 0 ≤ s
      ∧ var * (1 - 1 / 2 ^ 50) ≤ s ^ 2 ∧ s ^ 2 ≤ var * (1 + 1 / 2 ^ 50) := by
  by_cases hz : var = 0
  · exact ⟨0, by simp [JsNum.sqrt, hz], le_refl 0, by simp [hz], by simp [hz]⟩
  · have hpos : 0 < var := lt_of_le_of_ne h0 (Ne.symm hz)
    have hge := toDouble_pos_ge _ _ hvar hpos
    obtain ⟨r0, r1, r2⟩ := sqrtDouble_sq var (le_trans (by norm_num) hge)
      (lt_of_le_of_lt h1 (by norm_num))
    exact ⟨sqrtDouble var, by simp [JsNum.sqrt, hz, not_lt.mpr h0], r0, r1, r2⟩

/-- The last steps of `testConsistency` for a coefficient of variation of at most `2 ^ -19`:
`Math.max(0, Math.round((1 - cv) * 100))` is 100. -/
theorem tail_100 (ρ : ℚ) (h0 : 0 ≤ ρ) (h1 : ρ ≤ 1 / 2 ^ 19) :
    JsNum.max (.fin 0) ((((JsNum.fin 1).sub (toDouble ρ)).mul (.fin 100)).round) = .fin 100 := by
  obtain ⟨cv, hcv, ecv⟩ := toDouble_rel ρ 1
    (by rw [abs_of_nonneg h0]; linarith [show (1 : ℚ) / 2 ^ 19 ≤ 1 by norm_num])
    (by norm_num) (by norm_num)
  rw [abs_le] at ecv
  obtain ⟨y, hy, ey⟩ := toDouble_rel (1 - cv) 2
    (by rw [abs_le]; constructor <;> linarith) (by norm_num) (by norm_num)
  rw [abs_le] at ey
  obtain ⟨z, hz, ez⟩ := toDouble_rel (y * 100) 200
    (by rw [abs_le]; constructor <;> linarith) (by norm_num) (by norm_num)
  rw [abs_le] at ez
  have hfloor : mathRound z = 100 := by
    unfold mathRound
    rw [Int.floor_eq_iff]
    push_cast
    constructor <;> linarith
  rw [hcv, JsNum.sub_fin, hy, JsNum.mul_fin, hz, JsNum.round, hfloor]
  simp [JsNum.max]

/-- The last steps of `testConsistency` for a coefficient of variation of at least
`1 - 2 ^ -39`: `Math.max(0, Math.round((1 - cv) * 100))` is 0. -/
theorem tail_0 (ρ : ℚ) (h0 : 1 - 1 / 2 ^ 39 ≤ ρ) (h1 : ρ ≤ 20) :
    JsNum.max (.fin 0) ((((JsNum.fin 1).sub (toDouble ρ)).mul (.fin 100)).round) = .fin 0 := by
  obtain ⟨cv, hcv, ecv⟩ := toDouble_rel ρ 32
    (by rw [abs_le]; constructor <;> linarith) (by norm_num) (by norm_num)
  rw [abs_le] at ecv
  obtain ⟨y, hy, ey⟩ := toDouble_rel (1 - cv) 32
    (by rw [abs_le]; constructor <;> linarith) (by norm_num) (by norm_num)
  rw [abs_le] at ey
  obtain ⟨z, hz, ez⟩ := toDouble_rel (y * 100) 4096
    (by rw [abs_le]; constructor <;> linarith) (by norm_num) (by norm_num)
  rw [abs_le] at ez
  have hfloor : mathRound z ≤ 0 := by
    have : mathRound z < 1 := by
      unfold mathRound
      rw [Int.floor_lt]
      push_cast
      linarith
    omega
  rw [hcv, JsNum.sub_fin, hy, JsNum.mul_fin, hz, JsNum.round]
  simp only [JsNum.max, JsNum.fin.injEq]
  rw [max_eq_left]
  exact_mod_cast hfloor

/-- Three identical samples within `[2 ^ -400, 2 ^ 400]`: the consistency is 100. -/
theorem identical_samples_chain (v : ℚ) (hL : (1 : ℚ) / 2 ^ 400 ≤ v) (hH : v ≤ 2 ^ 400) :
    (testConsistency [.fin v, .fin v, .fin v]).consistencyPct = .fin 100 := by
  have hv0 : 0 < v := lt_of_lt_of_le (by positivity) hL
  obtain ⟨M, hM⟩ : ∃ M : ℚ, M = v + v + v := ⟨_, rfl⟩
  have hR : InRange M := inRange_of_bounds M (by linarith)
    (by have : (2 : ℚ) ^ 402 = 4 * 2 ^ 400 := by norm_num
        linarith)
  obtain ⟨m, hm, hm1, hm2⟩ := mean3_chain v v v M hM hv0.le hv0.le hv0.le hR
  obtain ⟨var, x, hvar, hx, hvar0, hvar1, -, hvar3⟩ :=
    variance3_chain v v v M m hM hv0.le hv0.le hv0.le hR hm1 hm2
  have hM2 : M ^ 2 ≤ 2 ^ 1000 := hR.le2
  obtain ⟨s, hs, hs0, -, hs2⟩ := sqrt_chain x var hx hvar0
    (by linarith [show (17 : ℚ) * 2 ^ 1000 ≤ 2 ^ 1020 by norm_num])
  have hmpos : 0 < m := by linarith
  have hD : v - M / 3 = 0 := by rw [hM]; ring
  rw [hD] at hvar3
  have hMv : M ^ 2 = 9 * v ^ 2 := by rw [hM]; ring
  have hss : s ≤ v / 2 ^ 20 := by
    apply le_of_sq_le_sq (by positivity)
    have e : (v / 2 ^ 20) ^ 2 = v ^ 2 / 2 ^ 40 := by ring
    rw [e]
    have h1 : var * (1 + 1 / 2 ^ 50) ≤ (M ^ 2 / 2 ^ 44) * (1 + 1 / 2 ^ 50) :=
      mul_le_mul_of_nonneg_right (by linarith) (by norm_num)
    have hv2 : 0 ≤ v ^ 2 := sq_nonneg v
    rw [hMv] at h1
    linarith
  have hρ0 : 0 ≤ s / m := div_nonneg hs0 hmpos.le
  have hρ1 : s / m ≤ 1 / 2 ^ 19 := by
    rw [div_le_iff₀ hmpos]
    linarith
  have hlt : JsNum.lt (.fin 0) (.fin m) = true := by simp [JsNum.lt, hmpos]
  unfold testConsistency
  simp only [hm, hvar, hlt, if_true, hs]
  rw [JsNum.div_fin _ _ hmpos.ne']
  exact tail_100 _ hρ0 hρ1

/-- Three samples whose exact standard deviation is at least their mean: the computed
consistency is 0. -/
theorem spread_samples_chain (a b c M : ℚ) (hMdef : M = a + b + c)
    (ha0 : 0 ≤ a) (hb0 : 0 ≤ b) (hc0 : 0 ≤ c)
    (hM : (1 : ℚ) / 2 ^ 400 ≤ M) (hMhi : M ≤ 2 ^ 402)
    (hV : (M / 3) ^ 2 ≤ ((a - M / 3) ^ 2 + (b - M / 3) ^ 2 + (c - M / 3) ^ 2) / 3) :
    (testConsistency [.fin a, .fin b, .fin c]).consistencyPct = .fin 0 := by
  have hR : InRange M := inRange_of_bounds M hM hMhi
  have hM0 : 0 < M := hR.pos
  obtain ⟨m, hm, hm1, hm2⟩ := mean3_chain a b c M hMdef ha0 hb0 hc0 hR
  obtain ⟨var, x, hvar, hx, hvar0, hvarhi, hvarlo, -⟩ :=
    variance3_chain a b c M m hMdef ha0 hb0 hc0 hR hm1 hm2
  have hM2 : M ^ 2 ≤ 2 ^ 1000 := hR.le2
  have hM20 : 0 ≤ M ^ 2 := sq_nonneg M
  obtain ⟨s, hs, hs0, hs1, hs2⟩ := sqrt_chain x var hx hvar0
    (by linarith [show (17 : ℚ) * 2 ^ 1000 ≤ 2 ^ 1020 by norm_num])
  have hmpos : 0 < m := by linarith
  have h9 : (M / 3) ^ 2 = M ^ 2 / 9 := by ring
  rw [h9] at hV
  have hvarlo' : M ^ 2 / 9 - M ^ 2 / 2 ^ 44 ≤ var := by linarith
  have hs5 : s ≤ 5 * M := by
    apply le_of_sq_le_sq (by positivity)
    have e : (5 * M) ^ 2 = 25 * M ^ 2 := by ring
    rw [e]
    have : var * (1 + 1 / 2 ^ 50) ≤ 17 * M ^ 2 * (1 + 1 / 2 ^ 50) :=
      mul_le_mul_of_nonneg_right hvarhi (by positivity)
    linarith
  have hslo : m * (1 - 1 / 2 ^ 39) ≤ s := by
    apply le_of_sq_le_sq hs0
    have h1 : (m * (1 - 1 / 2 ^ 39)) ^ 2
        ≤ ((M / 3 + M / 2 ^ 49) * (1 - 1 / 2 ^ 39)) ^ 2 := by
      have hmn : 0 ≤ m * (1 - 1 / 2 ^ 39) := mul_nonneg hmpos.le (by norm_num)
      have hle : m * (1 - 1 / 2 ^ 39) ≤ (M / 3 + M / 2 ^ 49) * (1 - 1 / 2 ^ 39) :=
        mul_le_mul_of_nonneg_right hm2 (by norm_num)
      rw [sq, sq]
      exact mul_le_mul hle hle hmn (le_trans hmn hle)
    have h2 : ((M / 3 + M / 2 ^ 49) * (1 - 1 / 2 ^ 39)) ^ 2
        = M ^ 2 * (((1 : ℚ) / 3 + 1 / 2 ^ 49) * (1 - 1 / 2 ^ 39)) ^ 2 := by ring
    have h3 : (M ^ 2 / 9 - M ^ 2 / 2 ^ 44) * (1 - 1 / 2 ^ 50)
        = M ^ 2 * (((1 : ℚ) / 9 - 1 / 2 ^ 44) * (1 - 1 / 2 ^ 50)) := by ring
    have h4 : (((1 : ℚ) / 3 + 1 / 2 ^ 49) * (1 - 1 / 2 ^ 39)) ^ 2
        ≤ ((1 : ℚ) / 9 - 1 / 2 ^ 44) * (1 - 1 / 2 ^ 50) := by norm_num
    have h5 := mul_le_mul_of_nonneg_left h4 hM20
    have h6 : (M ^ 2 / 9 - M ^ 2 / 2 ^ 44) * (1 - 1 / 2 ^ 50) ≤ var * (1 - 1 / 2 ^ 50) :=
      mul_le_mul_of_nonneg_right hvarlo' (by norm_num)
    linarith
  have hρ1 : s / m ≤ 20 := by
    rw [div_le_iff₀ hmpos]
    linarith
  have hρ0 : 1 - 1 / 2 ^ 39 ≤ s / m := by
    rw [le_div_iff₀ hmpos]
    linarith
  have hlt : JsNum.lt (.fin 0) (.fin m) = true := by simp [JsNum.lt, hmpos]
  unfold testConsistency
  simp only [hm, hvar, hlt, if_true, hs]
  rw [JsNum.div_fin _ _ hmpos.ne']
  exact tail_0 _ hρ0 hρ1

/-! ## Reductions, rendering and recommendations: theorems -/

/-- C11 fails on the code outside the normal range of throughput values.  Three samples of 0
(a download that received no byte) give a mean that is not positive, the guard
`mean > 0 ? ... : 1` sets the coefficient of variation to 1 and `consistencyPct` is 0.  Three
samples of `Infinity` (no time elapsed between the two readings of the clock) give `NaN`.
Three samples of a huge finite value (about 2.5e172) give 0: the mean is not exactly that
value and the squared deviations overflow. -/
theorem identical_zero_samples_give_zero :
    (testConsistency [.fin 0, .fin 0, .fin 0]).consistencyPct = .fin 0
    ∧ (testConsistency [.posInf, .posInf, .posInf]).consistencyPct = .nan
    ∧ toDouble hugeSpeed = .fin hugeSpeed
    ∧ (testConsistency [.fin hugeSpeed, .fin hugeSpeed, .fin hugeSpeed]).consistencyPct
        = .fin 0 := by
  refine ⟨by decide!, by decide!, by decide!, by decide!⟩

/-- C11 (amended). For every finite throughput value `v` with `2 ^ -400 ≤ v ≤ 2 ^ 400`, when
the three download runs of `testConsistency` all return `v`, the reported `consistencyPct` is
100: the mean computed in double arithmetic can differ from `v` in its last bits, and the
coefficient of variation that results is far below the half percent that would change the
rounded value. -/
theorem identical_positive_samples_give_100 (v : ℚ) (hlo : (1 : ℚ) / 2 ^ 400 ≤ v)
    (hhi : v ≤ 2 ^ 400) :
    (testConsistency [.fin v, .fin v, .fin v]).consistencyPct = .fin 100 :=
  identical_samples_chain v hlo hhi

/-- Witness of the amended C11: three runs at the double nearest to 0.1 Mbps, whose mean in
double arithmetic is not that double. -/
theorem identical_positive_samples_give_100_witness :
    jsMean [toDouble (1 / 10), toDouble (1 / 10), toDouble (1 / 10)] ≠ toDouble (1 / 10)
    ∧ (testConsistency
        [.fin (3602879701896397 / 36028797018963968),
         .fin (3602879701896397 / 36028797018963968),
         .fin (3602879701896397 / 36028797018963968)]).consistencyPct = .fin 100 :=
  ⟨by decide!,
    identical_positive_samples_give_100 (3602879701896397 / 36028797018963968)
      (by norm_num) (by norm_num)⟩

theorem popVariance_nonneg (l : List ℚ) : 0 ≤ popVariance l := by
  unfold popVariance
  apply div_nonneg _ (Nat.cast_nonneg _)
  apply List.sum_nonneg
  intro x hx
  rw [List.mem_map] at hx
  obtain ⟨v, -, rfl⟩ := hx
  exact sq_nonneg _

/-- C12 fails on the code next to a rounding tie.  For the speeds 90, 100 and
102.36797366569638 Mbps the coefficient of variation is just above 0.055, so the formula
`max(0, round((1 - CV) × 100))` gives 94; in double arithmetic `(1 - cv) * 100` is exactly
94.5 and `testConsistency` returns 95. -/
theorem consistency_differs_from_exact_formula :
    toDouble nearTieSpeed = .fin nearTieSpeed
    ∧ (testConsistency [.fin 90, .fin 100, .fin nearTieSpeed]).consistencyPct = .fin 95
    ∧ max 0 ⌊(1 - Real.sqrt ((popVariance [90, 100, nearTieSpeed] : ℚ) : ℝ)
          / ((popMean [90, 100, nearTieSpeed] : ℚ) : ℝ)) * 100 + 1 / 2⌋ = 94 := by
  have hm : popMean [90, 100, nearTieSpeed] = 10286783572311697 / 105553116266496 := by
    decide!
  have hv : popVariance [90, 100, nearTieSpeed]
      = 160049598348667559399621725729 / 5570730176784211237046059008 := by
    decide!
  refine ⟨by decide!, by decide!, ?_⟩
  rw [hm, hv]
  have hμ : (0 : ℝ) < ((10286783572311697 / 105553116266496 : ℚ) : ℝ) := by
    norm_num
  have h1 : (55 / 1000 : ℝ) * ((10286783572311697 / 105553116266496 : ℚ) : ℝ)
      < Real.sqrt ((160049598348667559399621725729 / 5570730176784211237046059008 : ℚ) : ℝ) := by
    rw [Real.lt_sqrt (by positivity)]
    norm_num
  have h2 : Real.sqrt ((160049598348667559399621725729 / 5570730176784211237046059008 : ℚ) : ℝ)
      ≤ (65 / 1000 : ℝ) * ((10286783572311697 / 105553116266496 : ℚ) : ℝ) := by
    rw [Real.sqrt_le_left (by positivity)]
    norm_num
  have h3 : (55 / 1000 : ℝ)
      < Real.sqrt ((160049598348667559399621725729 / 5570730176784211237046059008 : ℚ) : ℝ)
        / ((10286783572311697 / 105553116266496 : ℚ) : ℝ) := by
    rw [lt_div_iff₀ hμ]; exact h1
  have h4 : Real.sqrt ((160049598348667559399621725729 / 5570730176784211237046059008 : ℚ) : ℝ)
        / ((10286783572311697 / 105553116266496 : ℚ) : ℝ) ≤ (65 / 1000 : ℝ) := by
    rw [div_le_iff₀ hμ]; exact h2
  have hfl : ⌊(1 - Real.sqrt
          ((160049598348667559399621725729 / 5570730176784211237046059008 : ℚ) : ℝ)
        / ((10286783572311697 / 105553116266496 : ℚ) : ℝ)) * 100 + 1 / 2⌋ = 94 := by
    rw [Int.floor_eq_iff]
    push_cast
    constructor <;> linarith
  rw [hfl]
  rfl

/-- C12 (amended). For every three throughput samples, each 0 or between `2 ^ -400` and
`2 ^ 400`, whose population standard deviation is at least their mean, `testConsistency`
reports `consistencyPct = 0`; and for all speeds `consistencyPct` is
`Math.max(0, Math.round((1 - cv) * 100))` where `cv` is the double that the code computes,
`Math.sqrt(variance) / mean` when the computed mean is positive and 1 otherwise. -/
theorem consistency_is_clamped_rounded_cv :
    (∀ a b c : ℚ,
      (a = 0 ∨ (1 : ℚ) / 2 ^ 400 ≤ a) → a ≤ 2 ^ 400 →
      (b = 0 ∨ (1 : ℚ) / 2 ^ 400 ≤ b) → b ≤ 2 ^ 400 →
      (c = 0 ∨ (1 : ℚ) / 2 ^ 400 ≤ c) → c ≤ 2 ^ 400 →
      ((popMean [a, b, c] : ℚ) : ℝ) ≤ Real.sqrt ((popVariance [a, b, c] : ℚ) : ℝ) →
      (testConsistency [.fin a, .fin b, .fin c]).consistencyPct = .fin 0)
    ∧ (∀ speeds : List JsNum,
        (testConsistency speeds).consistencyPct
          = JsNum.max (.fin 0)
              (((JsNum.fin 1).sub
                (if JsNum.lt (.fin 0) (jsMean speeds) then
                  (jsVariance speeds (jsMean speeds)).sqrt.div (jsMean speeds)
                else .fin 1)).mul (.fin 100)).round) := by
  refine ⟨?_, fun speeds => rfl⟩
  intro a b c ha ha1 hb hb1 hc hc1 hσ
  have hp : (0 : ℚ) < 1 / 2 ^ 400 := by positivity
  have ha0 : 0 ≤ a := by rcases ha with h | h <;> linarith
  have hb0 : 0 ≤ b := by rcases hb with h | h <;> linarith
  have hc0 : 0 ≤ c := by rcases hc with h | h <;> linarith
  by_cases hz : a + b + c = 0
  · have ea : a = 0 := by linarith
    have eb : b = 0 := by linarith
    have ec : c = 0 := by linarith
    subst ea eb ec
    decide!
  · have hM : (1 : ℚ) / 2 ^ 400 ≤ a + b + c := by
      rcases ha with h | h
      · rcases hb with h' | h'
        · rcases hc with h'' | h''
          · exact absurd (by rw [h, h', h'']; norm_num) hz
          · linarith
        · linarith
      · linarith
    have hMhi : a + b + c ≤ 2 ^ 402 := by
      have : (2 : ℚ) ^ 402 = 4 * 2 ^ 400 := by norm_num
      linarith
    have hmean : popMean [a, b, c] = (a + b + c) / 3 := by
      simp only [popMean, List.sum_cons, List.sum_nil, List.length_cons, List.length_nil]
      norm_num
      ring
    have hvar : popVariance [a, b, c]
        = ((a - (a + b + c) / 3) ^ 2 + (b - (a + b + c) / 3) ^ 2
            + (c - (a + b + c) / 3) ^ 2) / 3 := by
      simp only [popVariance, hmean, List.map_cons, List.map_nil, List.sum_cons, List.sum_nil,
        List.length_cons, List.length_nil]
      norm_num
      ring
    have hμ0 : (0 : ℝ) ≤ ((popMean [a, b, c] : ℚ) : ℝ) := by
      rw [hmean]
      have : (0 : ℚ) ≤ (a + b + c) / 3 := by linarith
      exact_mod_cast this
    have hV : ((a + b + c) / 3) ^ 2
        ≤ ((a - (a + b + c) / 3) ^ 2 + (b - (a + b + c) / 3) ^ 2
            + (c - (a + b + c) / 3) ^ 2) / 3 := by
      have hV0 : (0 : ℝ) ≤ ((popVariance [a, b, c] : ℚ) : ℝ) := by
        exact_mod_cast popVariance_nonneg [a, b, c]
      rw [Real.le_sqrt hμ0 hV0, hmean, hvar] at hσ
      exact_mod_cast hσ
    exact spread_samples_chain a b c (a + b + c) rfl ha0 hb0 hc0 hM hMhi hV

/-- Witness of the amended C12: two failed runs and one of 90 Mbps (mean 30, standard
deviation about 42.4) give a consistency of 0. -/
theorem consistency_is_clamped_rounded_cv_witness :
    (testConsistency [.fin 0, .fin 0, .fin 90]).consistencyPct = .fin 0 := by
  refine consistency_is_clamped_rounded_cv.1 0 0 90 (Or.inl rfl) (by norm_num) (Or.inl rfl)
    (by norm_num) (Or.inr (by norm_num)) (by norm_num) ?_
  have hm : popMean [0, 0, 90] = 30 := by decide!
  have hv : popVariance [0, 0, 90] = 1800 := by decide!
  rw [hm, hv]
  apply Real.le_sqrt_of_sq_le
  norm_num

theorem sqrt_fin_nonneg (x : JsNum) (s : ℚ) (h : x.sqrt = .fin s) : 0 ≤ s := by
  cases x with
  | nan => simp [JsNum.sqrt] at h
  | posInf => simp [JsNum.sqrt] at h
  | negInf => simp [JsNum.sqrt] at h
  | fin q =>
    simp only [JsNum.sqrt] at h
    split_ifs at h with h1 h2
    · simp only [JsNum.fin.injEq] at h
      rw [← h]
    · simp only [JsNum.fin.injEq] at h
      rw [← h]
      unfold sqrtDouble
      exact mul_nonneg (Nat.cast_nonneg _) (zpow_pos (by norm_num) _).le

/-- C13 fails on the code.  The jitter phase rounds to one decimal: for the samples 10 and
10.25 ms the standard deviation is 0.125 and the recorded jitter is the double 0.1.  And the
result depends on the order of the samples: eighteen samples of 2.7 ms and two of 3.2 ms
(standard deviation 0.15) give 0.1 when the two come first and 0.2 when they come thirteenth
and fourteenth, because the sums are rounded differently. -/
theorem jitter_is_not_exact_stddev :
    jitterValue [10, 41 / 4] = .num (toDouble (1 / 10))
    ∧ Real.sqrt ((popVariance [10, 41 / 4] : ℚ) : ℝ) = 1 / 8
    ∧ toDouble (1 / 10) ≠ .fin (1 / 8)
    ∧ List.Perm spikesFirst spikesLate
    ∧ jitterValue spikesFirst = .num (toDouble (1 / 10))
    ∧ jitterValue spikesLate = .num (toDouble (1 / 5))
    ∧ toDouble (1 / 10) ≠ toDouble (1 / 5) := by
  have hv : popVariance [10, 41 / 4] = 1 / 64 := by decide!
  refine ⟨by decide!, ?_, by decide!, by decide!, by decide!, by decide!, by decide!⟩
  rw [hv]
  have : (((1 / 64 : ℚ)) : ℝ) = (1 / 8 : ℝ) ^ 2 := by norm_num
  rw [this, Real.sqrt_sq (by norm_num)]

/-- C13 (amended). For every non-empty latency sample sequence, the jitter recorded by the
jitter phase is `Math.round(s * 10) / 10`, where `s` is the population standard deviation as
the code computes it in double arithmetic over the samples in their order (mean and squared
deviations accumulated from the left, divisor `n`, `Math.sqrt`).  When `s` is a finite number
it is not negative, and (below `2 ^ 1000`) the recorded jitter is the double nearest to
`k / 10` for an integer `k`, within 0.05 of `s` up to double rounding. -/
theorem jitter_is_rounded_stddev (r : Results) (samples : List ℚ)
    (hr : r._latencySamples = some samples) (h : samples ≠ []) :
    (jitterPhase r).jitterMs
        = .num (roundTo 10
            (jsVariance (samples.map .fin) (jsMean (samples.map .fin))).sqrt)
    ∧ (∀ s : ℚ, (jsVariance (samples.map .fin) (jsMean (samples.map .fin))).sqrt = .fin s →
        0 ≤ s
        ∧ (s ≤ 2 ^ 1000 → ∃ (k : ℤ) (m : ℚ),
            (jitterPhase r).jitterMs = lit m
            ∧ toDouble ((k : ℚ) / 10) = .fin m
            ∧ |m - s| ≤ 1 / 20 + (s + 1) / 2 ^ 50)) := by
  have hlen : 0 < samples.length := List.length_pos.mpr h
  have key : (jitterPhase r).jitterMs
      = .num (roundTo 10
          (jsVariance (samples.map .fin) (jsMean (samples.map .fin))).sqrt) := by
    unfold jitterPhase
    simp only [hr, Option.getD_some, gt_iff_lt, hlen, if_true]
  refine ⟨key, fun s hs => ?_⟩
  have hs0 := sqrt_fin_nonneg _ s hs
  refine ⟨hs0, fun hs1 => ?_⟩
  obtain ⟨k, m, h1, h2, h3⟩ := roundTo_near 10 (by norm_num) (by norm_num) s
    (by rw [abs_of_nonneg hs0]; exact hs1)
  refine ⟨k, m, ?_, by exact_mod_cast h2, ?_⟩
  · rw [key, hs, h1]; rfl
  · rw [abs_of_nonneg hs0] at h3
    norm_num at h3 ⊢
    linarith

/-- Witness of the amended C13: the twenty samples of the first scenario (5 and 11 ms in
turn), for which the computed standard deviation is 3. -/
theorem jitter_is_rounded_stddev_witness :
    (jsVariance (goodLatency.samples.map .fin)
        (jsMean (goodLatency.samples.map .fin))).sqrt = .fin 3
    ∧ (jitterPhase { _latencySamples := some goodLatency.samples }).jitterMs
        = .num (roundTo 10
            (jsVariance (goodLatency.samples.map .fin)
              (jsMean (goodLatency.samples.map .fin))).sqrt) :=
  ⟨by decide!,
    (jitter_is_rounded_stddev { _latencySamples := some goodLatency.samples }
      goodLatency.samples rfl (by decide)).1⟩

/-- C14 fails on the code: the per-user bandwidth is rounded to two decimals.  With 3 users
and a download of 100 Mbps the quotient is the double 33.333333333333336 and the phase stores
33.33.  The rounding is that of the double product: 23 Mbps over 40 users is stored as 0.57,
where the exact quotient 0.575 would round to 0.58. -/
theorem per_user_is_not_exact_quotient :
    getEffectiveUserCount { employeeCount := 3, results := { downloadMbps := lit 100 } } = 3
    ∧ (JsVal.toNumber (lit 100)).divInt 3 = toDouble (100 / 3)
    ∧ (perEmployeePhase
        { employeeCount := 3, results := { downloadMbps := lit 100 } }).results.mbpsPerEmployee
        = .num (toDouble (3333 / 100))
    ∧ toDouble (3333 / 100) ≠ toDouble (100 / 3)
    ∧ (perEmployeePhase
        { employeeCount := 40, results := { downloadMbps := lit 23 } }).results.mbpsPerEmployee
        = .num (toDouble (57 / 100))
    ∧ mathRound ((23 : ℚ) / 40 * 100) = 58 := by
  refine ⟨by decide!, by decide!, by decide!, by decide!, by decide!, by decide!⟩

/-- C14 (amended). After the peremployee phase, `state.results.mbpsPerEmployee` is
`Math.round(x * 100) / 100` in double arithmetic, where `x` is the double quotient of
`state.results.downloadMbps` by the effective user count: for a finite download value (below
`2 ^ 999`) and a non-zero count it is the double nearest to a multiple of one hundredth and
differs from the exact quotient by at most 0.005, up to double rounding.
`state.results.effectiveUserCount` is that count: `state.zoneUserCount` when
`state.multiZone` is true and `state.employeeCount` otherwise. -/
theorem per_user_is_rounded_quotient (st : State) :
    (perEmployeePhase st).results.mbpsPerEmployee
        = .num (roundTo 100
            (st.results.downloadMbps.toNumber.divInt (getEffectiveUserCount st)))
    ∧ (perEmployeePhase st).results.effectiveUserCount = lit (getEffectiveUserCount st : ℚ)
    ∧ getEffectiveUserCount st = (if st.multiZone then st.zoneUserCount else st.employeeCount)
    ∧ (perEmployeePhase st).results.downloadMbps = st.results.downloadMbps
    ∧ (∀ q : ℚ, st.results.downloadMbps = lit q → |q| ≤ 2 ^ 999 →
        getEffectiveUserCount st ≠ 0 →
        ∃ (k : ℤ) (m : ℚ), (perEmployeePhase st).results.mbpsPerEmployee = lit m
          ∧ toDouble ((k : ℚ) / 100) = .fin m
          ∧ |m - q / (getEffectiveUserCount st : ℚ)|
              ≤ 1 / 200 + (|q / (getEffectiveUserCount st : ℚ)| + 1) / 2 ^ 49) := by
  refine ⟨rfl, rfl, rfl, rfl, fun q hq hq1 hn => ?_⟩
  obtain ⟨k, m, h1, h2, h3⟩ := roundTo_divInt_near q (getEffectiveUserCount st) hq1 hn
  refine ⟨k, m, ?_, h2, h3⟩
  simp only [perEmployeePhase, hq, lit, JsVal.toNumber, h1]

/-- Witness of the amended C14: with 25 users and a download of 50 Mbps the stored value is a
double nearest to a multiple of one hundredth, within 0.005 of 2. -/
theorem per_user_is_rounded_quotient_witness :
    ∃ (k : ℤ) (m : ℚ),
      (perEmployeePhase
        { employeeCount := 25, results := { downloadMbps := lit 50 } }).results.mbpsPerEmployee
        = lit m
      ∧ toDouble ((k : ℚ) / 100) = .fin m
      ∧ |m - 50 / ((25 : ℤ) : ℚ)| ≤ 1 / 200 + (|50 / ((25 : ℤ) : ℚ)| + 1) / 2 ^ 49 :=
  (per_user_is_rounded_quotient
    { employeeCount := 25, results := { downloadMbps := lit 50 } }).2.2.2.2 50 rfl
      (by norm_num) (by decide)

theorem useCaseSupport_flags (r : Results) :
    useCaseSupport r = USE_CASES.map fun uc => (uc.name, jsGe r.mbpsPerEmployee (lit uc.threshold)) := by
  unfold useCaseSupport jsOrZero USE_CASES
  rcases hm : r.mbpsPerEmployee with _ | _ | x
  · simp [JsVal.truthy, jsGe, lit, JsVal.toNumber, JsNum.le]
  · simp [JsVal.truthy, jsGe, lit, JsVal.toNumber, JsNum.le]
  · cases x with
    | nan => simp [JsVal.truthy, jsGe, lit, JsVal.toNumber, JsNum.le]
    | posInf => simp [JsVal.truthy]
    | negInf => simp [JsVal.truthy]
    | fin q =>
      by_cases hq : q = 0
      · subst hq; simp [JsVal.truthy, lit]
      · simp [JsVal.truthy, hq]

theorem support_flags_prefix (v : JsVal) :
    ∃ k, k ≤ 4 ∧
      [jsGe v (lit (1 / 10)), jsGe v (lit 2), jsGe v (lit 5), jsGe v (lit 10)]
        = List.replicate k true ++ List.replicate (4 - k) false := by
  rcases v with _ | _ | x
  · exact ⟨0, by omega, by simp [jsGe, lit, JsVal.toNumber, JsNum.le]⟩
  · refine ⟨0, by omega, ?_⟩
    simp [jsGe, lit, JsVal.toNumber, JsNum.le]
  · cases x with
    | nan => exact ⟨0, by omega, by simp [jsGe, lit, JsVal.toNumber, JsNum.le]⟩
    | posInf => exact ⟨4, by omega, by simp [jsGe, lit, JsVal.toNumber, JsNum.le]⟩
    | negInf => exact ⟨0, by omega, by simp [jsGe, lit, JsVal.toNumber, JsNum.le]⟩
    | fin q =>
      simp only [jsGe, lit, JsVal.toNumber, JsNum.le]
      by_cases h10 : (10 : ℚ) ≤ q
      · have h5 : (5 : ℚ) ≤ q := by linarith
        have h2 : (2 : ℚ) ≤ q := by linarith
        have h1 : (10 : ℚ)⁻¹ ≤ q := by norm_num; linarith
        exact ⟨4, by omega, by simp [h10, h5, h2, h1]⟩
      · by_cases h5 : (5 : ℚ) ≤ q
        · have h2 : (2 : ℚ) ≤ q := by linarith
          have h1 : (10 : ℚ)⁻¹ ≤ q := by norm_num; linarith
          exact ⟨3, by omega, by simp [h10, h5, h2, h1]⟩
        · by_cases h2 : (2 : ℚ) ≤ q
          · have h1 : (10 : ℚ)⁻¹ ≤ q := by norm_num; linarith
            exact ⟨2, by omega, by simp [h10, h5, h2, h1]⟩
          · by_cases h1 : (10 : ℚ)⁻¹ ≤ q
            · exact ⟨1, by omega, by simp [h10, h5, h2, h1]⟩
            · exact ⟨0, by omega, by simp [h10, h5, h2, h1]⟩

theorem perUser_50_25 : roundTo 100 ((JsNum.fin 50).divInt 25) = .fin 2 := by decide!

/-- C15. For every per-user bandwidth value, each use case of `USE_CASES` (thresholds 0.1,
2.0, 5.0, 10.0) is marked supported exactly when `mbpsPerEmployee >= threshold`, so the
supported use cases form a prefix of the list.  With 25 users and 50 Mbps the per-user
bandwidth is 2.00: the video-conference use case (2.0) is supported, standard work (5.0) is
not. -/
theorem use_cases_supported_iff_threshold :
    (∀ r : Results,
      useCaseSupport r
        = USE_CASES.map fun uc => (uc.name, jsGe r.mbpsPerEmployee (lit uc.threshold)))
    ∧ USE_CASES.map (fun uc => uc.threshold) = [1 / 10, 2, 5, 10]
    ∧ (∀ r : Results, ∃ k, k ≤ 4 ∧
        (useCaseSupport r).map Prod.snd
          = List.replicate k true ++ List.replicate (4 - k) false)
    ∧ (perEmployeePhase
        { employeeCount := 25, results := { downloadMbps := lit 50 } }).results.mbpsPerEmployee
        = lit 2
    ∧ useCaseSupport
        (perEmployeePhase
          { employeeCount := 25, results := { downloadMbps := lit 50 } }).results
        = [("VoIP / Appels vocaux", true), ("Visioconférence", true),
            ("Travail standard", false), ("Marge confortable", false)] := by
  have hw : (perEmployeePhase
      { employeeCount := 25, results := { downloadMbps := lit 50 } }).results.mbpsPerEmployee
      = lit 2 := by
    simp [perEmployeePhase, getEffectiveUserCount, lit, JsVal.toNumber, perUser_50_25]
  refine ⟨useCaseSupport_flags, by simp [USE_CASES], fun r => ?_, hw, ?_⟩
  · rw [useCaseSupport_flags]
    simpa [USE_CASES] using support_flags_prefix r.mbpsPerEmployee
  · rw [useCaseSupport_flags, hw]
    simp [USE_CASES, jsGe, lit, JsVal.toNumber, JsNum.le]
    norm_num

theorem testPacketLoss_pct_ge (f : ℕ) (hf : 1 ≤ f) :
    (33 : ℚ) / 10 ≤ (mathRound ((f : ℚ) / 30 * 1000) : ℚ) / 10 := by
  have h1 : (1 : ℚ) ≤ (f : ℚ) := by exact_mod_cast hf
  have h33 : (33 : ℤ) ≤ mathRound ((f : ℚ) / 30 * 1000) := by
    unfold mathRound
    rw [Int.le_floor]
    push_cast
    linarith
  have h33q : (33 : ℚ) ≤ (mathRound ((f : ℚ) / 30 * 1000) : ℚ) := by exact_mod_cast h33
  linarith

/-- C16. For every number `f` of failed probes with `0 ≤ f ≤ 30`, the `packetLossPct`
returned by `testPacketLoss` (`round(f / 30 × 1000) / 10`) is graded excellent when `f = 0`
and poor when `f ≥ 1`; the grades good and fair are never produced for a measured loss. -/
theorem measured_packet_loss_grades (f : ℕ) (hf : f ≤ 30) :
    (testPacketLoss f).packetLossPct = .fin ((mathRound ((f : ℚ) / 30 * 1000) : ℚ) / 10)
    ∧ gradePacketLoss (.num (testPacketLoss f).packetLossPct)
        = (if f = 0 then .excellent else .poor)
    ∧ gradePacketLoss (.num (testPacketLoss f).packetLossPct) ≠ .good
    ∧ gradePacketLoss (.num (testPacketLoss f).packetLossPct) ≠ .fair := by
  have key : gradePacketLoss (.num (testPacketLoss f).packetLossPct)
      = (if f = 0 then .excellent else .poor) := by
    rcases Nat.eq_zero_or_pos f with h0 | hpos
    · subst h0
      have hz : mathRound 0 = 0 := by
        unfold mathRound
        rw [Int.floor_eq_iff]
        norm_num
      simp [testPacketLoss, gradePacketLoss, jsStrictEq, lit, hz]
    · have hge := testPacketLoss_pct_ge f hpos
      have hne : f ≠ 0 := by omega
      have h0 : ¬ (mathRound ((f : ℚ) / 30 * 1000) : ℚ) / 10 = 0 := by
        intro h; rw [h] at hge; norm_num at hge
      have h1 : ¬ (mathRound ((f : ℚ) / 30 * 1000) : ℚ) / 10 ≤ 1 := by
        intro h; linarith
      have h3 : ¬ (mathRound ((f : ℚ) / 30 * 1000) : ℚ) / 10 ≤ 3 := by
        intro h; linarith
      simp only [testPacketLoss, gradePacketLoss, jsStrictEq, jsLe, lit, JsVal.toNumber,
        JsNum.le, hne, if_false]
      simp [h0, h1, h3]
  refine ⟨rfl, key, ?_, ?_⟩ <;> rw [key] <;> split <;> simp

/-- Witness of C16: one lost probe out of 30 is reported as 3.3 % and graded poor. -/
theorem measured_packet_loss_grades_witness :
    gradePacketLoss (.num (testPacketLoss 1).packetLossPct) = .poor := by
  have h := (measured_packet_loss_grades 1 (by decide)).2.1
  simpa using h

theorem fallbackRecord_eq :
    fallbackRecord
      = { latencyMs := lit 999, jitterMs := lit 0, packetLossPct := lit 100,
          downloadMbps := lit 0, uploadMbps := .null, dnsMs := lit 0, dnsUnavail := some true,
          consistencyPct := lit 0, mbpsPerEmployee := lit 0 } := by
  simp [fallbackRecord, PHASES, fallback]

/-- C17. Whenever DNS timing is unavailable (`testDns` returns its unavailable result, or the
DNS phase takes its fallback), `state.results.dnsMs` is 0, `computeScores` grades the DNS
metric excellent, and it contributes 100 points with weight 1; the record made only of
fallback values has `overallScore = 24`. -/
theorem unavailable_dns_is_excellent :
    (∀ r : Results,
      (assignProbe .dns (.dns dnsUnavailable) r).map (fun x => (x.dnsMs, x.dnsUnavail))
        = some (lit 0, some true))
    ∧ (∀ r : Results,
        (fallback .dns r).dnsMs = lit 0 ∧ (fallback .dns r).dnsUnavail = some true)
    ∧ (∀ r : Results,
        (computeScores { r with dnsMs := lit 0 }).1.dns = .excellent
        ∧ GRADE_POINTS (computeScores { r with dnsMs := lit 0 }).1.dns = 100)
    ∧ (Metric.dns, 1) ∈ SCORE_WEIGHTS
    ∧ fallbackRecord.latencyMs = lit 999 ∧ fallbackRecord.jitterMs = lit 0
    ∧ fallbackRecord.packetLossPct = lit 100 ∧ fallbackRecord.downloadMbps = lit 0
    ∧ fallbackRecord.uploadMbps = .null ∧ fallbackRecord.dnsMs = lit 0
    ∧ fallbackRecord.consistencyPct = lit 0
    ∧ (computeScores fallbackRecord).1
        = ⟨.poor, .poor, .poor, .excellent, .poor, .excellent, .poor⟩
    ∧ (computeScores fallbackRecord).2 = 24 := by
  have hg : gradeAll fallbackRecord
      = ⟨.poor, .poor, .poor, .excellent, .poor, .excellent, .poor⟩ := by
    rw [fallbackRecord_eq]
    simp [gradeAll, gradeDownload, gradeUpload, gradeConsistency, gradeLatency, gradeJitter,
      gradePacketLoss, gradeDns, jsGe, jsLe, jsStrictEq, lit, JsVal.toNumber, JsNum.le]
    norm_num
  have hd : ∀ r : Results, (computeScores { r with dnsMs := lit 0 }).1.dns = .excellent := by
    intro r
    simp [computeScores, gradeAll, gradeDns, jsStrictEq, lit]
  have hf := fallbackRecord_eq
  refine ⟨fun r => ?_, fun r => ⟨rfl, rfl⟩, fun r => ⟨hd r, by rw [hd r]; rfl⟩, ?_,
    by rw [hf], by rw [hf], by rw [hf], by rw [hf], by rw [hf], by rw [hf], by rw [hf], ?_, ?_⟩
  · simp [assignProbe, dnsUnavailable, lit]
  · simp [SCORE_WEIGHTS]
  · simp only [computeScores, hg]
  · simp only [computeScores, hg, overallOf_eq]
    apply mathRound_points <;> simp [weightedPoints, GRADE_POINTS]

theorem GRADE_POINTS_mono {g h : Grade} (hr : g.rank ≤ h.rank) :
    GRADE_POINTS g ≤ GRADE_POINTS h := by
  cases g <;> cases h <;> simp [Grade.rank, GRADE_POINTS] at hr ⊢

theorem mathRound_mono {a b : ℚ} (h : a ≤ b) : mathRound a ≤ mathRound b := by
  unfold mathRound
  exact Int.floor_mono (by linarith)

theorem overallOf_mono {s t : Scores} (h : weightedPoints s ≤ weightedPoints t) :
    overallOf s ≤ overallOf t := by
  rw [overallOf_eq, overallOf_eq]
  apply mathRound_mono
  have hq : (weightedPoints s : ℚ) ≤ (weightedPoints t : ℚ) := by exact_mod_cast h
  linarith

theorem Grade.rank_le_three (g : Grade) : g.rank ≤ 3 := by
  cases g <;> simp [Grade.rank]

theorem gradeAtLeast_mono (x y : JsNum) (h : JsNum.le x y = true) :
    (gradeDownload (.num x)).rank ≤ (gradeDownload (.num y)).rank
    ∧ (gradeUpload (.num x)).rank ≤ (gradeUpload (.num y)).rank
    ∧ (gradeConsistency (.num x)).rank ≤ (gradeConsistency (.num y)).rank := by
  cases x with
  | nan => simp [JsNum.le] at h
  | posInf =>
    cases y <;> simp [JsNum.le] at h
    exact ⟨le_refl _, le_refl _, le_refl _⟩
  | negInf =>
    simp [gradeDownload, gradeUpload, gradeConsistency, jsGe, lit, JsVal.toNumber, JsNum.le,
      Grade.rank]
  | fin a =>
    cases y with
    | nan => simp [JsNum.le] at h
    | negInf => simp [JsNum.le] at h
    | posInf =>
      simp only [gradeDownload, gradeUpload, gradeConsistency, jsGe, lit, JsVal.toNumber,
        JsNum.le, if_true]
      exact ⟨Grade.rank_le_three _, Grade.rank_le_three _, Grade.rank_le_three _⟩
    | fin b =>
      simp only [JsNum.le, decide_eq_true_eq] at h
      simp only [gradeDownload, gradeUpload, gradeConsistency, jsGe, lit, JsVal.toNumber,
        JsNum.le, decide_eq_true_eq]
      refine ⟨?_, ?_, ?_⟩ <;> split_ifs <;> simp only [Grade.rank] <;>
        first | omega | (exfalso; linarith)

theorem gradeAtMost_mono (x y : JsNum) (h : JsNum.le y x = true) :
    (gradeLatency (.num x)).rank ≤ (gradeLatency (.num y)).rank
    ∧ (gradeJitter (.num x)).rank ≤ (gradeJitter (.num y)).rank
    ∧ (gradeDns (.num x)).rank ≤ (gradeDns (.num y)).rank := by
  cases y with
  | nan => simp [JsNum.le] at h
  | posInf =>
    cases x <;> simp [JsNum.le] at h
    exact ⟨le_refl _, le_refl _, le_refl _⟩
  | negInf =>
    simp only [gradeLatency, gradeJitter, gradeDns, jsLe, jsStrictEq, lit, JsVal.toNumber,
      JsNum.le, if_true]
    refine ⟨Grade.rank_le_three _, Grade.rank_le_three _, ?_⟩
    split <;> exact Grade.rank_le_three _
  | fin b =>
    cases x with
    | nan => simp [JsNum.le] at h
    | negInf => simp [JsNum.le] at h
    | posInf =>
      simp [gradeLatency, gradeJitter, gradeDns, jsLe, jsStrictEq, lit, JsVal.toNumber,
        JsNum.le, Grade.rank]
    | fin a =>
      simp only [JsNum.le, decide_eq_true_eq] at h
      simp only [gradeLatency, gradeJitter, gradeDns, jsLe, jsStrictEq, lit, JsVal.toNumber,
        JsNum.le, decide_eq_true_eq, JsVal.num.injEq, JsNum.fin.injEq]
      refine ⟨?_, ?_, ?_⟩ <;> split_ifs <;> simp only [Grade.rank] <;>
        first | omega | (exfalso; linarith)

theorem gradePacketLoss_mono (x y : JsNum) (h : JsNum.le y x = true)
    (hy : JsNum.le (.fin 0) y = true) :
    (gradePacketLoss (.num x)).rank ≤ (gradePacketLoss (.num y)).rank := by
  cases y with
  | nan => simp [JsNum.le] at h
  | negInf => simp [JsNum.le] at hy
  | posInf =>
    cases x <;> simp [JsNum.le] at h
    exact le_refl _
  | fin b =>
    cases x with
    | nan => simp [JsNum.le] at h
    | negInf => simp [JsNum.le] at h
    | posInf =>
      simp [gradePacketLoss, jsLe, jsStrictEq, lit, JsVal.toNumber, JsNum.le, Grade.rank]
    | fin a =>
      simp only [JsNum.le, decide_eq_true_eq] at h hy
      simp only [gradePacketLoss, jsLe, jsStrictEq, lit, JsVal.toNumber,
        JsNum.le, decide_eq_true_eq, JsVal.num.injEq, JsNum.fin.injEq]
      by_cases hb : b = 0
      · simp only [hb, if_true]
        exact Grade.rank_le_three _
      · have hbpos : 0 < b := lt_of_le_of_ne hy (Ne.symm hb)
        have ha : a ≠ 0 := by intro h0; rw [h0] at h; linarith
        simp only [hb, ha, if_false]
        split_ifs <;> simp only [Grade.rank] <;> first | omega | (exfalso; linarith)

/-- C18. `computeScores` is monotone in each raw metric: when one scored metric of a record
is replaced by a value at least as good (download, upload or consistency not lower;
latency, jitter or DNS not higher; packet loss not higher, both values non-negative), the
grade of that metric is not worse and `overallScore` is not lower. -/
theorem computeScores_monotone (r : Results) (x y : JsNum) :
    (r.downloadMbps = .num x → JsNum.le x y = true →
      (computeScores r).1.download.rank
          ≤ (computeScores { r with downloadMbps := .num y }).1.download.rank
      ∧ (computeScores r).2 ≤ (computeScores { r with downloadMbps := .num y }).2)
    ∧ (r.uploadMbps = .num x → JsNum.le x y = true →
      (computeScores r).1.upload.rank
          ≤ (computeScores { r with uploadMbps := .num y }).1.upload.rank
      ∧ (computeScores r).2 ≤ (computeScores { r with uploadMbps := .num y }).2)
    ∧ (r.consistencyPct = .num x → JsNum.le x y = true →
      (computeScores r).1.consistency.rank
          ≤ (computeScores { r with consistencyPct := .num y }).1.consistency.rank
      ∧ (computeScores r).2 ≤ (computeScores { r with consistencyPct := .num y }).2)
    ∧ (r.latencyMs = .num x → JsNum.le y x = true →
      (computeScores r).1.latency.rank
          ≤ (computeScores { r with latencyMs := .num y }).1.latency.rank
      ∧ (computeScores r).2 ≤ (computeScores { r with latencyMs := .num y }).2)
    ∧ (r.jitterMs = .num x → JsNum.le y x = true →
      (computeScores r).1.jitter.rank
          ≤ (computeScores { r with jitterMs := .num y }).1.jitter.rank
      ∧ (computeScores r).2 ≤ (computeScores { r with jitterMs := .num y }).2)
    ∧ (r.dnsMs = .num x → JsNum.le y x = true →
      (computeScores r).1.dns.rank
          ≤ (computeScores { r with dnsMs := .num y }).1.dns.rank
      ∧ (computeScores r).2 ≤ (computeScores { r with dnsMs := .num y }).2)
    ∧ (r.packetLossPct = .num x → JsNum.le y x = true → JsNum.le (.fin 0) y = true →
        JsNum.le (.fin 0) x = true →
      (computeScores r).1.packetloss.rank
          ≤ (computeScores { r with packetLossPct := .num y }).1.packetloss.rank
      ∧ (computeScores r).2 ≤ (computeScores { r with packetLossPct := .num y }).2) := by
  refine ⟨?_, ?_, ?_, ?_, ?_, ?_, ?_⟩
  · intro hx h
    have g := (gradeAtLeast_mono x y h).1
    have p := GRADE_POINTS_mono g
    refine ⟨by simpa [computeScores, gradeAll, hx] using g, ?_⟩
    apply overallOf_mono
    simp only [weightedPoints, gradeAll, hx]
    omega
  · intro hx h
    have g := (gradeAtLeast_mono x y h).2.1
    have p := GRADE_POINTS_mono g
    refine ⟨by simpa [computeScores, gradeAll, hx] using g, ?_⟩
    apply overallOf_mono
    simp only [weightedPoints, gradeAll, hx]
    omega
  · intro hx h
    have g := (gradeAtLeast_mono x y h).2.2
    have p := GRADE_POINTS_mono g
    refine ⟨by simpa [computeScores, gradeAll, hx] using g, ?_⟩
    apply overallOf_mono
    simp only [weightedPoints, gradeAll, hx]
    omega
  · intro hx h
    have g := (gradeAtMost_mono x y h).1
    have p := GRADE_POINTS_mono g
    refine ⟨by simpa [computeScores, gradeAll, hx] using g, ?_⟩
    apply overallOf_mono
    simp only [weightedPoints, gradeAll, hx]
    omega
  · intro hx h
    have g := (gradeAtMost_mono x y h).2.1
    have p := GRADE_POINTS_mono g
    refine ⟨by simpa [computeScores, gradeAll, hx] using g, ?_⟩
    apply overallOf_mono
    simp only [weightedPoints, gradeAll, hx]
    omega
  · intro hx h
    have g := (gradeAtMost_mono x y h).2.2
    have p := GRADE_POINTS_mono g
    refine ⟨by simpa [computeScores, gradeAll, hx] using g, ?_⟩
    apply overallOf_mono
    simp only [weightedPoints, gradeAll, hx]
    omega
  · intro hx h hy _
    have g := gradePacketLoss_mono x y h hy
    have p := GRADE_POINTS_mono g
    refine ⟨by simpa [computeScores, gradeAll, hx] using g, ?_⟩
    apply overallOf_mono
    simp only [weightedPoints, gradeAll, hx]
    omega

/-- Witness of C18: raising the download of the second scoring scenario from 15 to 120 Mbps
and lowering its packet loss from 0.5 % to 0.2 % do not lower the score. -/
theorem computeScores_monotone_witness :
    (computeScores scenarioPoorDownload).2
        ≤ (computeScores { scenarioPoorDownload with downloadMbps := .num (.fin 120) }).2
    ∧ (computeScores scenarioPoorDownload).2
        ≤ (computeScores { scenarioPoorDownload with packetLossPct := .num (.fin (1 / 5)) }).2 :=
  ⟨((computeScores_monotone scenarioPoorDownload (.fin 15) (.fin 120)).1 rfl
      (by simp [JsNum.le]; norm_num)).2,
    ((computeScores_monotone scenarioPoorDownload (.fin (1 / 2)) (.fin (1 / 5))).2.2.2.2.2.2 rfl
      (by simp [JsNum.le]; norm_num) (by simp [JsNum.le]) (by simp [JsNum.le])).2⟩

theorem gradeRec_eq_nil {g : Grade} {p f : Recommendation} :
    gradeRec g p f = [] ↔ g = .excellent ∨ g = .good := by
  cases g <;> simp [gradeRec]

theorem allClear_not_mem_gradeRec {g : Grade} {p f : Recommendation} (hp : p ≠ .allClear)
    (hf : f ≠ .allClear) : Recommendation.allClear ∉ gradeRec g p f := by
  cases g <;> simp [gradeRec, Ne.symm hp, Ne.symm hf]

/-- The all-clear message is included only if each of the six metrics download, upload,
latency, jitter, packet loss and consistency is graded excellent or good (the DNS grade is
not consulted) and the per-user message is not due. -/
theorem allClear_only_if_six_good (score : ℤ) (results : Results) (scores : Scores)
    (recs : List Recommendation) (h : buildRecommendations score results scores = some recs)
    (hmem : Recommendation.allClear ∈ recs) :
    (scores.download = .excellent ∨ scores.download = .good)
    ∧ (scores.upload = .excellent ∨ scores.upload = .good)
    ∧ (scores.latency = .excellent ∨ scores.latency = .good)
    ∧ (scores.jitter = .excellent ∨ scores.jitter = .good)
    ∧ (scores.packetloss = .excellent ∨ scores.packetloss = .good)
    ∧ (scores.consistency = .excellent ∨ scores.consistency = .good)
    ∧ (jsLt results.mbpsPerEmployee (lit 2) && jsGt results.downloadMbps (lit 0)) = false := by
  unfold buildRecommendations at h
  simp only [List.nil_append, Option.map_eq_some'] at h
  obtain ⟨extra, hextra, hrecs⟩ := h
  by_cases hlen : (gradeRec scores.download .downloadPoor .downloadFair
        ++ gradeRec scores.upload .uploadPoor .uploadFair
        ++ gradeRec scores.latency .latencyPoor .latencyFair
        ++ gradeRec scores.jitter .jitterHigh .jitterHigh
        ++ gradeRec scores.packetloss .packetlossPoor .packetlossFair
        ++ gradeRec scores.consistency .consistencyPoor .consistencyFair ++ extra).length = 0
  · rw [List.length_eq_zero] at hlen
    simp only [List.append_eq_nil, gradeRec_eq_nil] at hlen
    obtain ⟨⟨⟨⟨⟨⟨h1, h2⟩, h3⟩, h4⟩, h5⟩, h6⟩, h7⟩ := hlen
    refine ⟨h1, h2, h3, h4, h5, h6, ?_⟩
    subst h7
    by_contra hcon
    simp only [Bool.not_eq_false] at hcon
    rw [hcon] at hextra
    simp only [if_true] at hextra
    split at hextra <;> simp at hextra
  · exfalso
    simp only [hlen, if_false] at hrecs
    subst hrecs
    simp only [List.mem_append] at hmem
    have hx : Recommendation.allClear ∉ extra := by
      split at hextra
      · split at hextra
        · simp only [Option.some.injEq] at hextra
          subst hextra
          simp
        · simp at hextra
      · simp only [Option.some.injEq] at hextra
        subst hextra
        simp
    rcases hmem with (((((h1 | h2) | h3) | h4) | h5) | h6) | h7
    · exact allClear_not_mem_gradeRec (by decide) (by decide) h1
    · exact allClear_not_mem_gradeRec (by decide) (by decide) h2
    · exact allClear_not_mem_gradeRec (by decide) (by decide) h3
    · exact allClear_not_mem_gradeRec (by decide) (by decide) h4
    · exact allClear_not_mem_gradeRec (by decide) (by decide) h5
    · exact allClear_not_mem_gradeRec (by decide) (by decide) h6
    · exact hx h7

theorem slowDnsRecord_grades :
    gradeAll slowDnsRecord
      = ⟨.excellent, .excellent, .excellent, .excellent, .excellent, .poor, .excellent⟩ := by
  simp [slowDnsRecord, gradeAll, gradeDownload, gradeUpload, gradeConsistency, gradeLatency,
    gradeJitter, gradePacketLoss, gradeDns, jsGe, jsLe, jsStrictEq, lit, JsVal.toNumber,
    JsNum.le]
  norm_num

/-- C19 fails on the code: `buildRecommendations` never looks at `scores.dns`.  For the
record with download 120, upload 60, latency 8, jitter 3, packet loss 0, consistency 98,
4.8 Mbps per user and a DNS lookup of 150 ms, `computeScores` grades DNS poor and the six
other metrics excellent, the score is 93, and the recommendations are the all-clear message
("performante sur toutes les métriques") followed by the keep-configuration message. -/
theorem all_clear_despite_poor_dns :
    (computeScores slowDnsRecord).1
        = ⟨.excellent, .excellent, .excellent, .excellent, .excellent, .poor, .excellent⟩
    ∧ (computeScores slowDnsRecord).1.dns = .poor
    ∧ (computeScores slowDnsRecord).2 = 93
    ∧ buildRecommendations (computeScores slowDnsRecord).2 slowDnsRecord
          (computeScores slowDnsRecord).1
        = some [.allClear, .keepConfig] := by
  have h1 : (computeScores slowDnsRecord).1
      = ⟨.excellent, .excellent, .excellent, .excellent, .excellent, .poor, .excellent⟩ := by
    simp only [computeScores, slowDnsRecord_grades]
  have h2 : (computeScores slowDnsRecord).2 = 93 := by
    simp only [computeScores, slowDnsRecord_grades, overallOf_eq]
    apply mathRound_points <;> simp [weightedPoints, GRADE_POINTS]
  refine ⟨h1, by rw [h1], h2, ?_⟩
  rw [h1, h2]
  simp [buildRecommendations, gradeRec, slowDnsRecord, jsLt, jsGt, lit, JsVal.toNumber,
    JsNum.lt]
  norm_num

end WifiChecker
